import Mathlib

/-!
Verification development for the workflow graph validation and auto-repair
engine (structure validator, graph analyzer, node parameter validator,
validation aggregator, connection auto-fixer, parameter auto-filler and
processing orchestrator of the n8n workflow generator repository).

The TypeScript sources are embedded shallowly:

* JavaScript objects become Lean structures; maps keyed by strings become
  association lists with JavaScript `Map`/object update semantics
  (`jmGet`/`jmSet` below: setting an existing key keeps its position).
* The validator entry points take `any`; they are embedded over a raw value
  model (`RawInput`, `RawEntry`, ...) in which a node entry may be `null`,
  a boxed primitive, or an object with any subset of its fields.  Member
  access on `null`/`undefined` throws; this is modelled with
  `Except JsErr`.  The post-processors take well-typed `N8nWorkflow`
  values and are embedded over the typed model (`TWorkflow`).
* JavaScript truthiness (`!x`, `if (x)`) is modelled explicitly by the
  `jsTruthy*` helpers; `''`, `0`, `false`, `null` and `undefined` are falsy.
* `Math.random()`-derived strings are threaded as an explicit stream
  parameter.
* The `details` payload of issues (type `any` in the source, never read by
  any code under verification) and the derived human-readable `summary`
  strings of reports are not carried by the embedding.
-/

set_option maxHeartbeats 1000000 in
/-- Placeholder to allow the option to be set file-wide in one place. -/
theorem nwfFileOptions : True := trivial

namespace NWF

/-! ## Validation result model (src/types/validation.ts) -/

/-- Severity of a validation issue (`ValidationSeverity`). -/
inductive Sev
  | error
  | warning
  | info
deriving DecidableEq, Repr

/-- One validation issue (`ValidationIssue`); the `details` payload of the
source (of type `any`, never inspected by any embedded code) is omitted. -/
structure ValidationIssue where
  severity : Sev
  code : String
  message : String
  nodeId : Option String := none
  nodeName : Option String := none
  fix : Option String := none
deriving DecidableEq, Repr

/-- Aggregate validation result (`ValidationResult`). -/
structure ValidationResult where
  isValid : Bool
  issues : List ValidationIssue
  errors : List ValidationIssue
  warnings : List ValidationIssue
  info : List ValidationIssue
  fixable : Bool
deriving DecidableEq, Repr

/-- `createValidationResult()` from src/types/validation.ts. -/
def createValidationResult : ValidationResult :=
  { isValid := true, issues := [], errors := [], warnings := [], info := [], fixable := false }

/-- The optional argument object of `addIssue`. -/
structure IssueOpts where
  nodeId : Option String := none
  nodeName : Option String := none
  fix : Option String := none
deriving DecidableEq, Repr

/-- JavaScript truthiness of an optional string (`undefined` and `''` are falsy). -/
def jsTruthyOptStr : Option String → Bool
  | none => false
  | some s => s ≠ ""

/-- `addIssue` from src/types/validation.ts, in state-passing style: `push`
appends at the end of the arrays, an `error` clears `isValid`, and a truthy
`options.fix` sets `fixable`. -/
def addIssue (r : ValidationResult) (severity : Sev) (code message : String)
    (opts : IssueOpts := {}) : ValidationResult :=
  let issue : ValidationIssue :=
    { severity := severity, code := code, message := message,
      nodeId := opts.nodeId, nodeName := opts.nodeName, fix := opts.fix }
  let r := { r with issues := r.issues ++ [issue] }
  let r :=
    match severity with
    | .error => { r with errors := r.errors ++ [issue], isValid := false }
    | .warning => { r with warnings := r.warnings ++ [issue] }
    | .info => { r with info := r.info ++ [issue] }
  if jsTruthyOptStr opts.fix then { r with fixable := true } else r

/-! ## JavaScript-like parameter values -/

mutual

/-- A JavaScript value as it can occur inside a node's `parameters` object
(or as a registry parameter default). -/
inductive PVal
  | pstr (s : String)
  | pnum (n : Int)
  | pbool (b : Bool)
  | pnull
  | pobj (fields : PFields)
  | parr (elems : PElems)
deriving DecidableEq, Repr

/-- The ordered fields of a JavaScript object value. -/
inductive PFields
  | fnil
  | fcons (k : String) (v : PVal) (rest : PFields)
deriving DecidableEq, Repr

/-- The elements of a JavaScript array value. -/
inductive PElems
  | enil
  | econs (v : PVal) (rest : PElems)
deriving DecidableEq, Repr

end

/-- Build an object value from a literal binding list. -/
def PVal.objOf (l : List (String × PVal)) : PVal :=
  .pobj (l.foldr (fun p acc => .fcons p.1 p.2 acc) .fnil)

/-- Build an array value from a literal element list. -/
def PVal.arrOf (l : List PVal) : PVal :=
  .parr (l.foldr .econs .enil)

/-- Number of own keys (`Object.keys(v).length`). -/
def PFields.length : PFields → Nat
  | .fnil => 0
  | .fcons _ _ rest => rest.length + 1

/-- Property lookup on a JavaScript object (first binding wins, matching
unique-key objects). -/
def PFields.lookup : PFields → String → Option PVal
  | .fnil, _ => none
  | .fcons k v rest, needle => if k = needle then some v else rest.lookup needle

/-- Property write on a JavaScript object: overwrite in place or append. -/
def PFields.set : PFields → String → PVal → PFields
  | .fnil, k, v => .fcons k v .fnil
  | .fcons k' v' rest, k, v =>
      if k' = k then .fcons k' v rest else .fcons k' v' (rest.set k v)

/-- JavaScript truthiness of a `PVal`. -/
def jsTruthyP : PVal → Bool
  | .pstr s => s ≠ ""
  | .pnum n => n ≠ 0
  | .pbool b => b
  | .pnull => false
  | .pobj _ => true
  | .parr _ => true

/-- JavaScript truthiness of a possibly-absent value (`undefined` is falsy). -/
def jsTruthyOptP : Option PVal → Bool
  | none => false
  | some v => jsTruthyP v

/-- Whether `typeof v === 'object'` holds (objects, arrays and `null`). -/
def jsTypeofObject : PVal → Bool
  | .pobj _ => true
  | .parr _ => true
  | .pnull => true
  | _ => false

/-- Property lookup through an optional-object value. -/
def jsObjGet (fields : PFields) (k : String) : Option PVal :=
  fields.lookup k

/-- The check `v === undefined || v === null || v === ''` used for required
parameters. -/
def isMissingParamValue : Option PVal → Bool
  | none => true
  | some .pnull => true
  | some (.pstr s) => s = ""
  | some _ => false

/-- Display of a possibly-undefined string inside a template literal
(JavaScript prints `undefined`). -/
def jsShowOptStr : Option String → String
  | none => "undefined"
  | some s => s

/-- The JavaScript expression `a || b` on strings (falsy `a` selects `b`). -/
def jsOrStr (a b : String) : String :=
  if a = "" then b else a

/-- The JavaScript expression `a || b` where `a` may be undefined. -/
def jsOrOptStr (a : Option String) (b : String) : String :=
  match a with
  | none => b
  | some s => jsOrStr s b

/-! ## Association-list maps with JavaScript object/Map semantics -/

/-- Lookup in an association list (JavaScript `Map.get` / property read). -/
def jmGet {α β : Type} [DecidableEq α] (m : List (α × β)) (k : α) : Option β :=
  (m.find? (·.1 = k)).map (·.2)

/-- Update in an association list: JavaScript `Map.set` / property write
keeps the position of an existing key and appends a fresh one. -/
def jmSet {α β : Type} [DecidableEq α] (m : List (α × β)) (k : α) (v : β) :
    List (α × β) :=
  if (m.find? (·.1 = k)).isSome then
    m.map (fun p => if p.1 = k then (k, v) else p)
  else
    m ++ [(k, v)]

/-- `Set.add` semantics on a list: append if absent. -/
def slAdd {α : Type} [DecidableEq α] (l : List α) (x : α) : List α :=
  if x ∈ l then l else l ++ [x]

/-! ## Node registry (src/services/registry/nodeRegistry.ts) -/

/-- A registry parameter specification (`NodeParameter`). -/
structure NodeParameter where
  name : String
  type : String
  required : Bool
  default : Option PVal := none
  description : String
  options : Option (List (String × String)) := none
  placeholder : Option String := none

/-- A registry entry (`NodeDefinition`). -/
structure NodeDefinition where
  type : String
  displayName : String
  category : String
  description : String
  parameters : List NodeParameter
  outputs : List String
  inputs : List String
  examples : Option (List String) := none
  keywords : Option (List String) := none

/-- `TRIGGER_NODES` from the registry. -/
def TRIGGER_NODES : List NodeDefinition := [
  { type := "n8n-nodes-base.start", displayName := "Start", category := "trigger",
    description := "Manual workflow start trigger", parameters := [],
    outputs := ["main"], inputs := [],
    keywords := some ["manual", "start", "begin"] },
  { type := "n8n-nodes-base.webhook", displayName := "Webhook", category := "trigger",
    description := "Receives HTTP requests and triggers workflow",
    parameters := [
      { name := "httpMethod", type := "options", required := true,
        default := some (.pstr "GET"), description := "HTTP method to listen for",
        options := some [("GET", "GET"), ("POST", "POST"), ("PUT", "PUT"), ("DELETE", "DELETE")] },
      { name := "path", type := "string", required := true, default := some (.pstr ""),
        description := "Webhook path", placeholder := some "my-webhook" },
      { name := "responseMode", type := "options", required := false,
        default := some (.pstr "onReceived"), description := "When to respond to webhook",
        options := some [("On Received", "onReceived"), ("Last Node", "lastNode")] }],
    outputs := ["main"], inputs := [],
    keywords := some ["webhook", "http", "api", "endpoint", "receive"],
    examples := some ["Receive webhook from external service", "Listen for POST requests"] },
  { type := "n8n-nodes-base.cron", displayName := "Cron", category := "trigger",
    description := "Triggers workflow on a schedule",
    parameters := [
      { name := "triggerTimes", type := "fixedCollection", required := true,
        default := some (PVal.objOf []), description := "Schedule configuration" },
      { name := "mode", type := "options", required := true,
        default := some (.pstr "everyMinute"), description := "Schedule mode",
        options := some [("Every Minute", "everyMinute"), ("Every Hour", "everyHour"),
          ("Every Day", "everyDay"), ("Every Week", "everyWeek"),
          ("Every Month", "everyMonth"), ("Custom", "custom")] }],
    outputs := ["main"], inputs := [],
    keywords := some ["schedule", "cron", "timer", "interval", "recurring"],
    examples := some ["Run every Monday at 9 AM", "Execute daily at midnight", "Trigger every hour"] },
  { type := "n8n-nodes-base.scheduleTrigger", displayName := "Schedule Trigger",
    category := "trigger",
    description := "Triggers workflow on a schedule (user-friendly)",
    parameters := [
      { name := "rule", type := "fixedCollection", required := true,
        default := some (PVal.objOf []), description := "Schedule rule configuration" }],
    outputs := ["main"], inputs := [],
    keywords := some ["schedule", "time", "recurring", "periodic"] }]

/-- `HTTP_NODES` from the registry. -/
def HTTP_NODES : List NodeDefinition := [
  { type := "n8n-nodes-base.httpRequest", displayName := "HTTP Request",
    category := "action",
    description := "Makes HTTP requests to external APIs",
    parameters := [
      { name := "url", type := "string", required := true, default := some (.pstr ""),
        description := "The URL to make the request to",
        placeholder := some "https://api.example.com/endpoint" },
      { name := "method", type := "options", required := true,
        default := some (.pstr "GET"), description := "The HTTP method to use",
        options := some [("GET", "GET"), ("POST", "POST"), ("PUT", "PUT"),
          ("DELETE", "DELETE"), ("PATCH", "PATCH")] },
      { name := "authentication", type := "options", required := false,
        default := some (.pstr "none"), description := "Authentication method",
        options := some [("None", "none"), ("Basic Auth", "basicAuth"),
          ("Header Auth", "headerAuth"), ("OAuth2", "oAuth2")] },
      { name := "sendHeaders", type := "boolean", required := false,
        default := some (.pbool false), description := "Send custom headers" },
      { name := "sendBody", type := "boolean", required := false,
        default := some (.pbool false), description := "Send request body" }],
    outputs := ["main"], inputs := ["main"],
    keywords := some ["http", "api", "rest", "request", "fetch", "call"],
    examples := some ["Call external API", "Fetch data from REST endpoint", "POST data to webhook"] }]

/-- `LOGIC_NODES` from the registry. -/
def LOGIC_NODES : List NodeDefinition := [
  { type := "n8n-nodes-base.if", displayName := "IF", category := "logic",
    description := "Conditional routing based on comparison",
    parameters := [
      { name := "conditions", type := "fixedCollection", required := true,
        default := some (PVal.objOf []), description := "Conditions to check" },
      { name := "combineOperation", type := "options", required := false,
        default := some (.pstr "all"), description := "How to combine multiple conditions",
        options := some [("ALL (AND)", "all"), ("ANY (OR)", "any")] }],
    outputs := ["main", "main"], inputs := ["main"],
    keywords := some ["if", "condition", "conditional", "branch", "split"],
    examples := some ["Route based on status field", "Check if value exists", "Conditional logic"] },
  { type := "n8n-nodes-base.switch", displayName := "Switch", category := "logic",
    description := "Routes items to different branches based on rules",
    parameters := [
      { name := "mode", type := "options", required := true,
        default := some (.pstr "rules"), description := "Switch mode",
        options := some [("Rules", "rules"), ("Expression", "expression")] },
      { name := "rules", type := "fixedCollection", required := false,
        default := some (PVal.objOf []), description := "Routing rules" }],
    outputs := ["main", "main", "main", "main"], inputs := ["main"],
    keywords := some ["switch", "route", "multiple", "branch", "case"],
    examples := some ["Route by status value", "Multiple conditional branches"] },
  { type := "n8n-nodes-base.merge", displayName := "Merge", category := "data",
    description := "Merges data from multiple branches",
    parameters := [
      { name := "mode", type := "options", required := true,
        default := some (.pstr "append"), description := "How to merge data",
        options := some [("Append", "append"), ("Keep Key Matches", "keepKeyMatches"),
          ("Merge By Index", "mergeByIndex"), ("Merge By Key", "mergeByKey")] }],
    outputs := ["main"], inputs := ["main", "main"],
    keywords := some ["merge", "combine", "join", "union"],
    examples := some ["Combine results from multiple sources", "Join two data streams"] }]

/-- `DATA_NODES` from the registry. -/
def DATA_NODES : List NodeDefinition := [
  { type := "n8n-nodes-base.set", displayName := "Set", category := "data",
    description := "Sets values on items",
    parameters := [
      { name := "mode", type := "options", required := true,
        default := some (.pstr "manual"), description := "How to set values",
        options := some [("Manual", "manual"), ("Expression", "expression")] },
      { name := "values", type := "fixedCollection", required := false,
        default := some (PVal.objOf []), description := "Values to set" }],
    outputs := ["main"], inputs := ["main"],
    keywords := some ["set", "assign", "modify", "update", "change"],
    examples := some ["Add new fields to items", "Transform data structure", "Set variables"] },
  { type := "n8n-nodes-base.code", displayName := "Code", category := "data",
    description := "Run custom JavaScript code",
    parameters := [
      { name := "mode", type := "options", required := true,
        default := some (.pstr "runOnceForAllItems"), description := "Execution mode",
        options := some [("Run Once for All Items", "runOnceForAllItems"),
          ("Run Once for Each Item", "runOnceForEachItem")] },
      { name := "jsCode", type := "string", required := true,
        default := some (.pstr "// Add your code here\nreturn items;"),
        description := "JavaScript code to execute" }],
    outputs := ["main"], inputs := ["main"],
    keywords := some ["code", "javascript", "function", "script", "custom"],
    examples := some ["Custom data transformation", "Complex calculations", "Custom logic"] },
  { type := "n8n-nodes-base.filter", displayName := "Filter", category := "data",
    description := "Filters items based on conditions",
    parameters := [
      { name := "conditions", type := "fixedCollection", required := true,
        default := some (PVal.objOf []), description := "Filter conditions" }],
    outputs := ["main"], inputs := ["main"],
    keywords := some ["filter", "where", "remove", "exclude", "include"],
    examples := some ["Filter by status", "Remove empty items", "Keep only matching records"] },
  { type := "n8n-nodes-base.itemLists", displayName := "Item Lists", category := "data",
    description := "Manipulate lists of items (split, aggregate, sort)",
    parameters := [
      { name := "operation", type := "options", required := true,
        default := some (.pstr "splitOutItems"), description := "Operation to perform",
        options := some [("Split Out Items", "splitOutItems"), ("Aggregate Items", "aggregateItems"),
          ("Sort Items", "sortItems"), ("Limit Items", "limit"),
          ("Remove Duplicates", "removeDuplicates")] }],
    outputs := ["main"], inputs := ["main"],
    keywords := some ["list", "array", "split", "aggregate", "sort", "limit"],
    examples := some ["Split array into items", "Aggregate results", "Sort by field"] }]

/-- `ECOMMERCE_NODES` from the registry. -/
def ECOMMERCE_NODES : List NodeDefinition := [
  { type := "n8n-nodes-base.shopify", displayName := "Shopify", category := "integration",
    description := "Work with Shopify store data",
    parameters := [
      { name := "resource", type := "options", required := true,
        default := some (.pstr "order"), description := "Resource to operate on",
        options := some [("Order", "order"), ("Product", "product"),
          ("Customer", "customer"), ("Inventory", "inventory")] },
      { name := "operation", type := "options", required := true,
        default := some (.pstr "get"), description := "Operation to perform",
        options := some [("Get", "get"), ("Get All", "getAll"), ("Create", "create"),
          ("Update", "update"), ("Delete", "delete")] }],
    outputs := ["main"], inputs := ["main"],
    keywords := some ["shopify", "ecommerce", "store", "order", "product", "customer"],
    examples := some ["Get order details", "Create new product", "Update inventory"] },
  { type := "n8n-nodes-base.shopifyTrigger", displayName := "Shopify Trigger",
    category := "trigger",
    description := "Triggers on Shopify events (orders, products, etc.)",
    parameters := [
      { name := "topic", type := "options", required := true,
        default := some (.pstr "orders/create"), description := "Event to listen for",
        options := some [("Order Created", "orders/create"), ("Order Updated", "orders/updated"),
          ("Product Created", "products/create"), ("Customer Created", "customers/create")] }],
    outputs := ["main"], inputs := [],
    keywords := some ["shopify", "trigger", "webhook", "order", "product"],
    examples := some ["When new order is created", "When product is updated"] },
  { type := "n8n-nodes-base.wooCommerce", displayName := "WooCommerce",
    category := "integration",
    description := "Work with WooCommerce store data",
    parameters := [
      { name := "resource", type := "options", required := true,
        default := some (.pstr "order"), description := "Resource to operate on",
        options := some [("Order", "order"), ("Product", "product"), ("Customer", "customer")] },
      { name := "operation", type := "options", required := true,
        default := some (.pstr "get"), description := "Operation to perform",
        options := some [("Get", "get"), ("Get All", "getAll"), ("Create", "create"),
          ("Update", "update")] }],
    outputs := ["main"], inputs := ["main"],
    keywords := some ["woocommerce", "wordpress", "ecommerce", "order", "product"] }]

/-- `CRM_NODES` from the registry. -/
def CRM_NODES : List NodeDefinition := [
  { type := "n8n-nodes-base.hubspot", displayName := "HubSpot", category := "integration",
    description := "Work with HubSpot CRM",
    parameters := [
      { name := "resource", type := "options", required := true,
        default := some (.pstr "contact"), description := "Resource to operate on",
        options := some [("Contact", "contact"), ("Company", "company"),
          ("Deal", "deal"), ("Ticket", "ticket")] },
      { name := "operation", type := "options", required := true,
        default := some (.pstr "get"), description := "Operation to perform",
        options := some [("Get", "get"), ("Get All", "getAll"), ("Create", "create"),
          ("Update", "update"), ("Delete", "delete")] }],
    outputs := ["main"], inputs := ["main"],
    keywords := some ["hubspot", "crm", "contact", "deal", "company", "customer"],
    examples := some ["Get contact details", "Create new deal", "Update company information"] },
  { type := "n8n-nodes-base.salesforce", displayName := "Salesforce",
    category := "integration",
    description := "Work with Salesforce CRM",
    parameters := [
      { name := "resource", type := "options", required := true,
        default := some (.pstr "lead"), description := "Resource to operate on",
        options := some [("Lead", "lead"), ("Contact", "contact"),
          ("Account", "account"), ("Opportunity", "opportunity")] },
      { name := "operation", type := "options", required := true,
        default := some (.pstr "get"), description := "Operation to perform",
        options := some [("Get", "get"), ("Get All", "getAll"), ("Create", "create"),
          ("Update", "update"), ("Delete", "delete")] }],
    outputs := ["main"], inputs := ["main"],
    keywords := some ["salesforce", "crm", "lead", "opportunity", "account"],
    examples := some ["Create new lead", "Get opportunity details", "Update account"] }]

/-- `COMMUNICATION_NODES` from the registry. -/
def COMMUNICATION_NODES : List NodeDefinition := [
  { type := "n8n-nodes-base.slack", displayName := "Slack", category := "integration",
    description := "Send messages and interact with Slack",
    parameters := [
      { name := "resource", type := "options", required := true,
        default := some (.pstr "message"), description := "Resource to operate on",
        options := some [("Message", "message"), ("Channel", "channel"), ("User", "user")] },
      { name := "operation", type := "options", required := true,
        default := some (.pstr "post"), description := "Operation to perform",
        options := some [("Post", "post"), ("Update", "update"), ("Get", "get")] },
      { name := "channel", type := "string", required := false, default := some (.pstr ""),
        description := "Channel to send message to", placeholder := some "#general" },
      { name := "text", type := "string", required := false, default := some (.pstr ""),
        description := "Message text", placeholder := some "Hello from n8n!" }],
    outputs := ["main"], inputs := ["main"],
    keywords := some ["slack", "message", "chat", "notification", "communicate"],
    examples := some ["Send message to channel", "Post notification", "Update message"] },
  { type := "n8n-nodes-base.gmail", displayName := "Gmail", category := "integration",
    description := "Send and manage Gmail emails",
    parameters := [
      { name := "resource", type := "options", required := true,
        default := some (.pstr "message"), description := "Resource to operate on",
        options := some [("Message", "message"), ("Draft", "draft"), ("Label", "label")] },
      { name := "operation", type := "options", required := true,
        default := some (.pstr "send"), description := "Operation to perform",
        options := some [("Send", "send"), ("Get", "get"), ("Get All", "getAll"),
          ("Delete", "delete")] },
      { name := "to", type := "string", required := false, default := some (.pstr ""),
        description := "Recipient email address", placeholder := some "user@example.com" },
      { name := "subject", type := "string", required := false, default := some (.pstr ""),
        description := "Email subject", placeholder := some "Subject line" },
      { name := "message", type := "string", required := false, default := some (.pstr ""),
        description := "Email body", placeholder := some "Email content" }],
    outputs := ["main"], inputs := ["main"],
    keywords := some ["gmail", "email", "mail", "send", "message"],
    examples := some ["Send email", "Get emails from inbox", "Create draft"] },
  { type := "n8n-nodes-base.sendGrid", displayName := "SendGrid", category := "integration",
    description := "Send emails via SendGrid",
    parameters := [
      { name := "resource", type := "options", required := true,
        default := some (.pstr "mail"), description := "Resource to operate on",
        options := some [("Mail", "mail"), ("Contact", "contact"), ("List", "list")] },
      { name := "operation", type := "options", required := true,
        default := some (.pstr "send"), description := "Operation to perform",
        options := some [("Send", "send")] },
      { name := "to", type := "string", required := true, default := some (.pstr ""),
        description := "Recipient email", placeholder := some "recipient@example.com" },
      { name := "subject", type := "string", required := true, default := some (.pstr ""),
        description := "Email subject" },
      { name := "content", type := "string", required := true, default := some (.pstr ""),
        description := "Email content" }],
    outputs := ["main"], inputs := ["main"],
    keywords := some ["sendgrid", "email", "send", "mail"],
    examples := some ["Send transactional email", "Send welcome email"] }]

/-- `PRODUCTIVITY_NODES` from the registry. -/
def PRODUCTIVITY_NODES : List NodeDefinition := [
  { type := "n8n-nodes-base.googleSheets", displayName := "Google Sheets",
    category := "integration",
    description := "Read from and write to Google Sheets",
    parameters := [
      { name := "resource", type := "options", required := true,
        default := some (.pstr "spreadsheet"), description := "Resource to operate on",
        options := some [("Spreadsheet", "spreadsheet"), ("Sheet", "sheet")] },
      { name := "operation", type := "options", required := true,
        default := some (.pstr "append"), description := "Operation to perform",
        options := some [("Append", "append"), ("Read", "read"), ("Update", "update"),
          ("Delete", "delete")] },
      { name := "documentId", type := "string", required := false, default := some (.pstr ""),
        description := "Google Sheets document ID", placeholder := some "1234567890abcdef" },
      { name := "sheetName", type := "string", required := false, default := some (.pstr ""),
        description := "Sheet name", placeholder := some "Sheet1" }],
    outputs := ["main"], inputs := ["main"],
    keywords := some ["google", "sheets", "spreadsheet", "excel", "data", "table"],
    examples := some ["Append row to sheet", "Read all rows", "Update specific row"] },
  { type := "n8n-nodes-base.airtable", displayName := "Airtable", category := "integration",
    description := "Read from and write to Airtable bases",
    parameters := [
      { name := "operation", type := "options", required := true,
        default := some (.pstr "list"), description := "Operation to perform",
        options := some [("List", "list"), ("Read", "read"), ("Create", "create"),
          ("Update", "update"), ("Delete", "delete")] },
      { name := "baseId", type := "string", required := false, default := some (.pstr ""),
        description := "Airtable base ID", placeholder := some "appXXXXXXXXXXXXXX" },
      { name := "table", type := "string", required := false, default := some (.pstr ""),
        description := "Table name", placeholder := some "Table 1" }],
    outputs := ["main"], inputs := ["main"],
    keywords := some ["airtable", "database", "table", "record", "base"],
    examples := some ["List all records", "Create new record", "Update record"] },
  { type := "n8n-nodes-base.notion", displayName := "Notion", category := "integration",
    description := "Work with Notion databases and pages",
    parameters := [
      { name := "resource", type := "options", required := true,
        default := some (.pstr "page"), description := "Resource to operate on",
        options := some [("Page", "page"), ("Database", "database"), ("Block", "block")] },
      { name := "operation", type := "options", required := true,
        default := some (.pstr "get"), description := "Operation to perform",
        options := some [("Get", "get"), ("Get All", "getAll"), ("Create", "create"),
          ("Update", "update")] }],
    outputs := ["main"], inputs := ["main"],
    keywords := some ["notion", "database", "page", "notes", "wiki"],
    examples := some ["Create page", "Query database", "Update page properties"] }]

/-- `UTILITY_NODES` from the registry. -/
def UTILITY_NODES : List NodeDefinition := [
  { type := "n8n-nodes-base.noOp", displayName := "No Operation", category := "utility",
    description := "Does nothing, useful as placeholder", parameters := [],
    outputs := ["main"], inputs := ["main"],
    keywords := some ["noop", "placeholder", "pass", "empty"] },
  { type := "n8n-nodes-base.wait", displayName := "Wait", category := "utility",
    description := "Pauses workflow execution",
    parameters := [
      { name := "amount", type := "number", required := true, default := some (.pnum 1),
        description := "Amount of time to wait" },
      { name := "unit", type := "options", required := true, default := some (.pstr "seconds"),
        description := "Time unit",
        options := some [("Seconds", "seconds"), ("Minutes", "minutes"),
          ("Hours", "hours"), ("Days", "days")] }],
    outputs := ["main"], inputs := ["main"],
    keywords := some ["wait", "delay", "pause", "sleep"],
    examples := some ["Wait 5 seconds", "Delay 1 hour", "Pause 2 minutes"] },
  { type := "n8n-nodes-base.stopAndError", displayName := "Stop and Error",
    category := "utility",
    description := "Stops workflow execution with error",
    parameters := [
      { name := "message", type := "string", required := false,
        default := some (.pstr "Workflow stopped"), description := "Error message" }],
    outputs := [], inputs := ["main"],
    keywords := some ["stop", "error", "halt", "terminate"] }]

/-- `NODE_REGISTRY`: the concatenated master registry. -/
def NODE_REGISTRY : List NodeDefinition :=
  TRIGGER_NODES ++ HTTP_NODES ++ LOGIC_NODES ++ DATA_NODES ++ ECOMMERCE_NODES ++
  CRM_NODES ++ COMMUNICATION_NODES ++ PRODUCTIVITY_NODES ++ UTILITY_NODES

/-- `getNodeByType` from the registry module. -/
def getNodeByType (type : String) : Option NodeDefinition :=
  NODE_REGISTRY.find? (·.type = type)

/-- `getNodesByCategory` from the registry module. -/
def getNodesByCategory (category : String) : List NodeDefinition :=
  NODE_REGISTRY.filter (·.category = category)

/-- ASCII lowercase of a string (`String.prototype.toLowerCase` on the
ASCII strings occurring here). -/
def jsToLower (s : String) : String :=
  ⟨s.data.map Char.toLower⟩

/-- Whether the first character list is a prefix of the second. -/
def jsCharsPre : List Char → List Char → Bool
  | [], _ => true
  | _ :: _, [] => false
  | p :: ps, c :: cs => p == c && jsCharsPre ps cs

/-- Whether the second character list occurs inside the first. -/
def jsCharsSubstr : List Char → List Char → Bool
  | s, pat =>
      match s with
      | [] => pat.isEmpty
      | _ :: rest => jsCharsPre pat s || jsCharsSubstr rest pat

/-- Substring containment (`String.prototype.includes`); every string
contains the empty string. -/
def jsIncludes (s pat : String) : Bool :=
  jsCharsSubstr s.data pat.data

/-- Prefix test (`String.prototype.startsWith`). -/
def jsStartsWith (s pre : String) : Bool :=
  jsCharsPre pre.data s.data

/-- An ASCII whitespace character. -/
def jsIsWs (c : Char) : Bool :=
  c == ' ' || c == '\t' || c == '\n' || c == '\r'

/-- Whitespace trimming (`String.prototype.trim` on the ASCII strings
occurring here). -/
def jsTrim (s : String) : String :=
  ⟨((s.data.dropWhile jsIsWs).reverse.dropWhile jsIsWs).reverse⟩

/-- Stable insertion into an ascending list: an element goes before the
first element it is `le`-related to, hence before later equals. -/
def jsSortInsert {α : Type} (le : α → α → Bool) (x : α) : List α → List α
  | [] => [x]
  | y :: ys => if le x y then x :: y :: ys else y :: jsSortInsert le x ys

/-- Stable ascending sort.  `Array.prototype.sort` with a numeric key
comparator is a stable ascending sort (ECMAScript 2019); every stable sort
produces the same output, so insertion sort is a faithful model. -/
def jsStableSort {α : Type} (le : α → α → Bool) : List α → List α
  | [] => []
  | x :: xs => jsSortInsert le x (jsStableSort le xs)

/-- `searchNodes` from the registry module: a registry filter that lowercases
the display name, the description and the type but compares raw keywords
against the lowercased query. -/
def searchNodes (query : String) : List NodeDefinition :=
  let lowerQuery := jsToLower query
  NODE_REGISTRY.filter fun node =>
    jsIncludes (jsToLower node.displayName) lowerQuery ||
    jsIncludes (jsToLower node.description) lowerQuery ||
    (node.keywords.getD []).any (fun k => jsIncludes k lowerQuery) ||
    jsIncludes (jsToLower node.type) lowerQuery

/-! ## Raw input model for the validators

The validator entry points (`validateStructure`, `validateWorkflow`) take
`any`.  The raw model below covers the JavaScript values these functions
distinguish: a document that is not an object at all, node entries that are
`null`/`undefined`, boxed primitives or partial objects, a `nodes` field
that is missing, falsy, a truthy non-array or an array, and a `connections`
field that is missing/falsy, an object, a truthy non-string primitive or a
string. -/

/-- A connection target entry `{ node, type }` (`N8nConnectionDetail`). -/
structure CConn where
  node : String
  type : String
deriving DecidableEq, Repr

/-- One source's output map: output-slot name to parallel groups of targets. -/
abbrev OutMap := List (String × List (List CConn))

/-- A connection map: source node id to output map (`N8nConnections`). -/
abbrev CMap := List (String × OutMap)

/-- A raw node object: each field may be absent (`undefined`). -/
structure RawNode where
  id : Option String := none
  name : Option String := none
  type : Option String := none
  typeVersion : Option Int := none
  position : Option (List Int) := none
  parameters : Option PVal := none
  credentials : Bool := false
deriving Repr

/-- One entry of a raw `nodes` array. -/
inductive RawEntry
  /-- `null` or `undefined`: any member access throws a `TypeError`. -/
  | nullish
  /-- A primitive (number, string, ...): member access yields `undefined`,
  but `typeof` is not `'object'`. -/
  | prim
  /-- A proper object. -/
  | obj (n : RawNode)
deriving Repr

/-- The raw `name` field: absent/falsy, a string, or some non-string value
(truthy or falsy Both fail the `typeof === 'string'` test the same way). -/
inductive RName
  | missing
  | str (s : String)
  | nonString
deriving DecidableEq, Repr

/-- The raw `nodes` field. -/
inductive RNodes
  | missing
  | falsyPrim
  | truthyNonArray
  | arr (l : List RawEntry)
deriving Repr

/-- The raw `connections` field. -/
inductive RConns
  /-- absent, `null`, `0`, `false` or `''`: falsy. -/
  | missingOrFalsy
  /-- an object (possibly `{}`). -/
  | cmap (m : CMap)
  /-- a truthy non-object, non-string primitive: `Object.entries` yields `[]`. -/
  | primNonStr
  /-- a string: truthy iff nonempty; `Object.entries` yields its characters. -/
  | primStr (s : String)
deriving Repr

/-- A raw workflow object.  `active` records whether the field is present
(only `=== undefined` is tested); `settings` and `id` record truthiness. -/
structure RawWorkflow where
  name : RName
  nodes : RNodes
  connections : RConns
  active : Bool
  settings : Bool
  id : Bool
deriving Repr

/-- The raw input of the validator entry points. -/
inductive RawInput
  /-- falsy or not of `typeof 'object'`. -/
  | notObject
  | wf (w : RawWorkflow)
deriving Repr

/-- Truthiness of the raw `name` value combined with the string type test:
the `MISSING_NAME` branch fires iff this is false. -/
def rNameOk : RName → Bool
  | .str s => s ≠ ""
  | _ => false

/-- Truthiness of the raw `connections` value. -/
def rConnsTruthy : RConns → Bool
  | .missingOrFalsy => false
  | .cmap _ => true
  | .primNonStr => true
  | .primStr s => s ≠ ""

/-- Whether `typeof connections !== 'object'` (truthy primitives only reach
this test in the source after the truthiness check). -/
def rConnsNonObjectType : RConns → Bool
  | .cmap _ => false
  | _ => true

/-- Per-node structural validation (`validateNode` in
src/services/validators/structureValidator.ts), threading the `nodeIds` set. -/
def validateNodeStruct (entry : RawEntry) (index : Nat)
    (st : ValidationResult × List String) : ValidationResult × List String :=
  let result := st.1
  let nodeIds := st.2
  let nodeRef := s!"Node {index}"
  match entry with
  | .nullish =>
      (addIssue result .error "INVALID_NODE" s!"{nodeRef} is not a valid object", nodeIds)
  | .prim =>
      (addIssue result .error "INVALID_NODE" s!"{nodeRef} is not a valid object", nodeIds)
  | .obj node =>
      let idShown := jsShowOptStr node.id
      let (result, nodeIds) :=
        if ¬ jsTruthyOptStr node.id then
          (addIssue result .error "MISSING_NODE_ID"
            s!"{nodeRef} is missing id property"
            { fix := some "Generate unique node ID" }, nodeIds)
        else
          let idv := node.id.getD ""
          let result :=
            if idv ∈ nodeIds then
              addIssue result .error "DUPLICATE_NODE_ID"
                s!"Duplicate node ID found: {idv}"
                { nodeId := node.id, fix := some "Generate unique node ID" }
            else result
          (result, slAdd nodeIds idv)
      let result :=
        if ¬ jsTruthyOptStr node.name then
          addIssue result .warning "MISSING_NODE_NAME"
            s!"{nodeRef} ({idShown}) is missing name property"
            { nodeId := node.id, fix := some "Generate node name from type" }
        else result
      let result :=
        if ¬ jsTruthyOptStr node.type then
          addIssue result .error "MISSING_NODE_TYPE"
            s!"{nodeRef} ({idShown}) is missing type property"
            { nodeId := node.id, nodeName := node.name }
        else result
      let result :=
        if ¬ jsTruthyOptP node.parameters then
          addIssue result .warning "MISSING_NODE_PARAMETERS"
            s!"{nodeRef} ({idShown}) is missing parameters property"
            { nodeId := node.id, nodeName := node.name, fix := some "Add empty parameters object" }
        else result
      let result :=
        if (match node.position with
            | none => true
            | some l => l.length ≠ 2) then
          addIssue result .warning "INVALID_NODE_POSITION"
            s!"{nodeRef} ({idShown}) has invalid position"
            { nodeId := node.id, nodeName := node.name,
              fix := some "Calculate position based on node order" }
        else result
      let result :=
        if node.typeVersion = none then
          addIssue result .warning "MISSING_TYPE_VERSION"
            s!"{nodeRef} ({idShown}) is missing typeVersion property"
            { nodeId := node.id, nodeName := node.name, fix := some "Set typeVersion to 1" }
        else result
      (result, nodeIds)

/-- The enumerated fold over the nodes array performed by `validateStructure`. -/
def validateNodesLoop (entries : List RawEntry) (start : Nat)
    (st : ValidationResult × List String) : ValidationResult × List String :=
  match entries with
  | [] => st
  | e :: rest => validateNodesLoop rest (start + 1) (validateNodeStruct e start st)

/-- `validateStructure` from src/services/validators/structureValidator.ts.
It never throws, so it is a total function on the raw model. -/
def validateStructure (input : RawInput) : ValidationResult :=
  let result := createValidationResult
  match input with
  | .notObject =>
      addIssue result .error "INVALID_WORKFLOW" "Workflow must be a valid object"
  | .wf w =>
      let result :=
        if ¬ rNameOk w.name then
          addIssue result .error "MISSING_NAME" "Workflow must have a name property"
            { fix := some "Add default workflow name" }
        else result
      match w.nodes with
      | .missing =>
          addIssue result .error "MISSING_NODES" "Workflow must have a nodes array"
            { fix := some "Cannot auto-fix missing nodes array" }
      | .falsyPrim =>
          addIssue result .error "MISSING_NODES" "Workflow must have a nodes array"
            { fix := some "Cannot auto-fix missing nodes array" }
      | .truthyNonArray =>
          addIssue result .error "INVALID_NODES" "Nodes must be an array"
      | .arr nodes =>
          if nodes.length = 0 then
            addIssue result .error "EMPTY_NODES" "Workflow must have at least one node"
              { fix := some "Cannot auto-fix empty workflow" }
          else
            let result :=
              if ¬ rConnsTruthy w.connections then
                addIssue result .error "MISSING_CONNECTIONS"
                  "Workflow must have a connections object"
                  { fix := some "Create empty connections object" }
              else result
            let result :=
              if rConnsTruthy w.connections && rConnsNonObjectType w.connections then
                addIssue result .error "INVALID_CONNECTIONS" "Connections must be an object"
              else result
            let result :=
              if ¬ w.active then
                addIssue result .warning "MISSING_ACTIVE"
                  "Workflow should have an active property"
                  { fix := some "Set active to false" }
              else result
            let result :=
              if ¬ w.settings then
                addIssue result .warning "MISSING_SETTINGS"
                  "Workflow should have a settings object"
                  { fix := some "Add empty settings object" }
              else result
            let result :=
              if ¬ w.id then
                addIssue result .warning "MISSING_ID"
                  "Workflow should have an id property"
                  { fix := some "Generate unique ID" }
              else result
            (validateNodesLoop nodes 0 (result, [])).1

/-! ## Generic graph machinery

The graph validator keys its adjacency `Map`s by the raw value of `node.id`;
for well-typed workflows these are strings, for raw documents a key may also
be `undefined`.  The traversals are therefore generic in the key type `α`
(instantiated with `String` and with `Option String`).  The recursion of the
source terminates because the visited set grows; here the recursion carries
explicit fuel, and the analyzers pass fuel larger than the number of
vertices, which is sufficient for the traversal to run to completion. -/

/-- A `TypeError` thrown by the JavaScript runtime. -/
inductive JsErr
  | typeError (msg : String)
deriving DecidableEq, Repr

/-- The neighbor list of a key (the `if (neighbors)` guard in the source
makes a missing key behave like an empty set). -/
def adjGetL {α : Type} [DecidableEq α] (adj : List (α × List α)) (k : α) : List α :=
  (jmGet adj k).getD []

/-- The `neighbors.forEach` loop of `dfs`, parameterized by the recursive
visit (tied at each fuel level): recurse into unvisited neighbors. -/
def dfsList {α : Type} [DecidableEq α] (f : α → List α → List α) :
    List α → List α → List α
  | [], visited => visited
  | nb :: rest, visited =>
      let visited' := if nb ∈ visited then visited else f nb visited
      dfsList f rest visited'

/-- The recursive `dfs` of the graph validator: mark the vertex visited,
then walk its neighbor list. -/
def dfsVisit {α : Type} [DecidableEq α] (adj : List (α × List α)) :
    Nat → α → List α → List α
  | 0, _, visited => visited
  | fuel + 1, v, visited =>
      dfsList (fun nb vis => dfsVisit adj fuel nb vis) (adjGetL adj v) (slAdd visited v)

/-- The neighbor loop of `hasCycle`, parameterized by the recursive visit:
an unvisited neighbor is explored; a visited neighbor on the recursion
stack closes a cycle. -/
def cycList {α : Type} [DecidableEq α] (f : α → List α → List α × Bool)
    (stack : List α) : List α → List α → List α × Bool
  | [], visited => (visited, false)
  | nb :: rest, visited =>
      if nb ∈ visited then
        if nb ∈ stack then (visited, true)
        else cycList f stack rest visited
      else
        match f nb visited with
        | (visited', true) => (visited', true)
        | (visited', false) => cycList f stack rest visited'

/-- The recursive `hasCycle` of the graph validator (white/gray/black DFS):
mark visited, push onto the recursion stack and walk the neighbors.  The
source pops the vertex before a `false` return and aborts on `true`, so the
stack is passed functionally.  Returns the extended visited set and whether a
cycle was found. -/
def cycVisit {α : Type} [DecidableEq α] (adj : List (α × List α)) :
    Nat → α → List α → List α → List α × Bool
  | 0, _, _, visited => (visited, false)
  | fuel + 1, v, stack, visited =>
      cycList (fun nb vis => cycVisit adj fuel nb (v :: stack) vis) (v :: stack)
        (adjGetL adj v) (slAdd visited v)

/-- The outer loop of the cycle check: try every map key not yet visited and
stop at the first cycle. -/
def cycOuterGo {α : Type} [DecidableEq α] (adj : List (α × List α)) (fuel : Nat)
    (keys : List α) (visited : List α) : Bool :=
  match keys with
  | [] => false
  | k :: rest =>
      if k ∈ visited then cycOuterGo adj fuel rest visited
      else
        match cycVisit adj fuel k [] visited with
        | (_, true) => true
        | (visited', false) => cycOuterGo adj fuel rest visited'

/-- Initialization of an adjacency map: every node id gets an empty set
(`Map.set` on a duplicate id resets its entry, keeping its position). -/
def initAdj {α : Type} [DecidableEq α] (keys : List α) : List (α × List α) :=
  keys.foldl (fun m k => jmSet m k []) []

/-- Record one connection in the forward and reverse adjacency maps; both
sides are guarded by the optional-chaining `get` of the source, so an
unknown source or target key leaves the respective map unchanged. -/
def addEdge {α : Type} [DecidableEq α] (maps : List (α × List α) × List (α × List α))
    (src tgt : α) : List (α × List α) × List (α × List α) :=
  let fwd :=
    match jmGet maps.1 src with
    | some l => jmSet maps.1 src (slAdd l tgt)
    | none => maps.1
  let rev :=
    match jmGet maps.2 tgt with
    | some l => jmSet maps.2 tgt (slAdd l src)
    | none => maps.2
  (fwd, rev)

/-- The quadruple-nested `forEach` of the source that flattens a connection
map into adjacency edges; `inj` embeds plain string ids into the key type. -/
def addEdgesOfCMap {α : Type} [DecidableEq α] (inj : String → α) (m : CMap)
    (maps : List (α × List α) × List (α × List α)) :
    List (α × List α) × List (α × List α) :=
  m.foldl
    (fun maps entry =>
      entry.2.foldl
        (fun maps slotEntry =>
          slotEntry.2.foldl
            (fun maps group =>
              group.foldl (fun maps conn => addEdge maps (inj entry.1) (inj conn.node)) maps)
            maps)
        maps)
    maps

/-- Fuel that strictly dominates the number of vertices reachable by the
traversals (all map keys plus all recorded neighbors). -/
def graphFuel {α : Type} (adj : List (α × List α)) : Nat :=
  adj.length + (adj.map (fun p => p.2.length)).sum + 1

/-- Graph analysis result, generic in the node-id key type. -/
structure GraphAnalysisG (α : Type) where
  hasTrigger : Bool
  triggerNodes : List α
  orphanedNodes : List α
  unreachableNodes : List α
  circularReferences : Bool
  allNodesConnected : Bool
  missingConnections : List (String × String × String)
deriving Repr

/-! ## Raw graph analyzer and graph validator
(src/services/validators/graphValidator.ts over raw inputs) -/

/-- Registry lookup on a possibly-undefined type value (`find` with an
`undefined` needle finds nothing). -/
def getNodeByTypeOpt : Option String → Option NodeDefinition
  | none => none
  | some t => getNodeByType t

/-- Read `entry.type`; throws on `null`. -/
def entryType : RawEntry → Except JsErr (Option String)
  | .nullish => .error (.typeError "Cannot read properties of null (reading 'type')")
  | .prim => .ok none
  | .obj n => .ok n.type

/-- Read `entry.id`; throws on `null`. -/
def entryId : RawEntry → Except JsErr (Option String)
  | .nullish => .error (.typeError "Cannot read properties of null (reading 'id')")
  | .prim => .ok none
  | .obj n => .ok n.id

/-- Read `entry.name`; throws on `null`. -/
def entryNameE : RawEntry → Except JsErr (Option String)
  | .nullish => .error (.typeError "Cannot read properties of null (reading 'name')")
  | .prim => .ok none
  | .obj n => .ok n.name

/-- The display value `node.name || node.id` as it prints in a template
literal (an undefined id prints as `undefined`). -/
def jsDispName (name id : Option String) : String :=
  if jsTruthyOptStr name then name.getD "" else jsShowOptStr id

/-- The trigger-identification loop of `analyzeGraph`. -/
def rTriggerScan (entries : List RawEntry) :
    Except JsErr (Bool × List (Option String)) :=
  entries.foldlM
    (fun acc e => do
      let t ← entryType e
      match getNodeByTypeOpt t with
      | some ndef =>
          if ndef.category = "trigger" then do
            let id ← entryId e
            pure (true, acc.2 ++ [id])
          else pure acc
      | none => pure acc)
    (false, [])

/-- Build both adjacency maps from the raw `connections` value.  A falsy
value or a truthy non-object primitive contributes no edges; a nonempty
string makes the nested `forEach` throw. -/
def buildEdgesRaw (c : RConns)
    (maps : List (Option String × List (Option String)) × List (Option String × List (Option String))) :
    Except JsErr (List (Option String × List (Option String)) × List (Option String × List (Option String))) :=
  if rConnsTruthy c then
    match c with
    | .cmap m => .ok (addEdgesOfCMap (fun s => some s) m maps)
    | .primNonStr => .ok maps
    | .primStr _ => .error (.typeError "outputArray.forEach is not a function")
    | .missingOrFalsy => .ok maps
  else .ok maps

/-- The orphan-detection loop of `analyzeGraph`; the second component is the
`allNodesConnected` flag (cleared whenever an orphan is recorded). -/
def rOrphanScan (entries : List RawEntry)
    (fwd rev : List (Option String × List (Option String))) :
    Except JsErr (List (Option String) × Bool) :=
  entries.foldlM
    (fun acc e => do
      let t ← entryType e
      let isTrigger := (getNodeByTypeOpt t).any (·.category = "trigger")
      let id ← entryId e
      let outgoing := ((jmGet fwd id).map (·.length)).getD 0
      let incoming := ((jmGet rev id).map (·.length)).getD 0
      if isTrigger then
        if outgoing = 0 then pure (acc.1 ++ [id], false) else pure acc
      else
        if incoming = 0 ∧ outgoing = 0 then pure (acc.1 ++ [id], false) else pure acc)
    ([], true)

/-- The unreachable-detection loop of `analyzeGraph`, continuing the
`allNodesConnected` flag from the orphan scan. -/
def rUnreachScan (entries : List RawEntry) (reachable : List (Option String))
    (allConn : Bool) : Except JsErr (List (Option String) × Bool) :=
  entries.foldlM
    (fun acc e => do
      let t ← entryType e
      let isTrigger := (getNodeByTypeOpt t).any (·.category = "trigger")
      let id ← entryId e
      if ¬ isTrigger ∧ id ∉ reachable then pure (acc.1 ++ [id], false) else pure acc)
    ([], allConn)

/-- The adjacent-pair loop of the missing-connection suggestion.  The source
also computes the (unused) registry definition of the earlier node; only the
later node's definition enters the condition. -/
def rMissingPairs (fwd : List (Option String × List (Option String)))
    (orphans : List (Option String)) :
    List (RawNode × List Int) → List (String × String × String)
  | a :: b :: rest =>
      let hasConnection := ((jmGet fwd a.1.id).getD []).contains b.1.id
      let here :=
        if ¬ hasConnection ∧ a.1.id ∉ orphans then
          match getNodeByTypeOpt b.1.type with
          | some ndef =>
              if ndef.category ≠ "trigger" then
                [(jsDispName a.1.name a.1.id, jsDispName b.1.name b.1.id,
                  "Sequential nodes based on position")]
              else []
          | none => []
        else []
      here ++ rMissingPairs fwd orphans (b :: rest)
  | _ => []

/-- The missing-connection suggestion block: with at least two nodes the
sort comparator reads `position[0]` of every entry, so a `null` entry, a
primitive entry or an absent position throws.  (For a present but empty
position array the JavaScript comparator yields `NaN`, whose sort order is
engine-defined; the embedding keys such an entry by `0`.) -/
def rMissingConnections (entries : List RawEntry)
    (fwd : List (Option String × List (Option String)))
    (orphans : List (Option String)) :
    Except JsErr (List (String × String × String)) :=
  if entries.length ≥ 2 then do
    let nodes ← entries.mapM
      (fun e => match e with
        | .nullish => .error (.typeError "Cannot read properties of null (reading 'position')")
        | .prim => .error (.typeError "Cannot read properties of undefined (reading '0')")
        | .obj n =>
            match n.position with
            | none => .error (.typeError "Cannot read properties of undefined (reading '0')")
            | some pos => .ok (n, pos))
    let sorted := jsStableSort (fun a b => a.2.headD 0 ≤ b.2.headD 0) nodes
    .ok (rMissingPairs fwd orphans sorted)
  else .ok []

/-- `analyzeGraph` from src/services/validators/graphValidator.ts over the
raw model.  Stage order follows the source: trigger scan, adjacency
construction, orphan scan, reachability, cycle check, suggestions. -/
def analyzeGraphE (w : RawWorkflow) :
    Except JsErr (GraphAnalysisG (Option String)) := do
  match w.nodes with
  | .arr entries => do
      let (hasTrigger, triggerNodes) ← rTriggerScan entries
      let keys ← entries.mapM entryId
      let maps0 := (initAdj keys, initAdj keys)
      let (fwd, rev) ← buildEdgesRaw w.connections maps0
      let (orphans, allConn1) ← rOrphanScan entries fwd rev
      let reachable := triggerNodes.foldl (fun vis t => dfsVisit fwd (graphFuel fwd) t vis) []
      let (unreach, allConn2) ← rUnreachScan entries reachable allConn1
      let circ := cycOuterGo fwd (graphFuel fwd) (fwd.map (·.1)) []
      let missing ← rMissingConnections entries fwd orphans
      .ok { hasTrigger := hasTrigger, triggerNodes := triggerNodes,
            orphanedNodes := orphans, unreachableNodes := unreach,
            circularReferences := circ, allNodesConnected := allConn2,
            missingConnections := missing }
  | _ => .error (.typeError "workflow.nodes.forEach is not a function")

/-- `workflow.nodes.find(n => n.id === needle)` over raw entries (the
predicate evaluation throws on a `null` entry). -/
def rFindNodeById (entries : List RawEntry) (needle : Option String) :
    Except JsErr (Option RawEntry) :=
  match entries with
  | [] => .ok none
  | e :: rest => do
      let id ← entryId e
      if id = needle then .ok (some e) else rFindNodeById rest needle

/-- Read the `name` of a found entry for display (never `null` when found). -/
def foundName : Option RawEntry → Option String
  | some (.obj n) => n.name
  | _ => none

/-- Read the `type` of a found entry (never `null` when found). -/
def foundType : Option RawEntry → Option String
  | some (.obj n) => n.type
  | _ => none

/-- `validateConnectionReferences` from the graph validator.  For each entry
of the connection map an unknown source is flagged and skipped; otherwise
every target is checked.  String-valued `connections` enumerate their
characters: an index that happens to be a node id reaches the nested
`forEach` on a character and throws. -/
def validateConnectionReferencesE (w : RawWorkflow) (ids : List (Option String))
    (entries : List RawEntry) (result : ValidationResult) :
    Except JsErr ValidationResult :=
  match w.connections with
  | .missingOrFalsy => .ok result
  | .primNonStr => .ok result
  | .primStr s =>
      if s = "" then .ok result
      else
        (List.range s.length).foldlM
          (fun result i =>
            let key := toString i
            if (some key) ∈ ids then
              .error (.typeError "outputArray.forEach is not a function")
            else
              .ok (addIssue result .error "INVALID_CONNECTION_SOURCE"
                s!"Connection references non-existent source node: {key}"
                { nodeId := some key, fix := some "Remove invalid connection" }))
          result
  | .cmap m =>
      m.foldlM
        (fun result entry =>
          let sourceId := entry.1
          if (some sourceId) ∉ ids then
            .ok (addIssue result .error "INVALID_CONNECTION_SOURCE"
              s!"Connection references non-existent source node: {sourceId}"
              { nodeId := some sourceId, fix := some "Remove invalid connection" })
          else
            entry.2.foldlM
              (fun result slotEntry =>
                slotEntry.2.foldlM
                  (fun result group =>
                    group.foldlM
                      (fun result conn =>
                        if (some conn.node) ∉ ids then do
                          let sourceNode ← rFindNodeById entries (some sourceId)
                          let dispSource := jsOrOptStr (foundName sourceNode) sourceId
                          let target := conn.node
                          pure (addIssue result .error "INVALID_CONNECTION_TARGET"
                            s!"Connection from \"{dispSource}\" references non-existent target node: {target}"
                            { nodeId := some sourceId, fix := some "Remove invalid connection" })
                        else pure result)
                      result)
                  result)
              result)
        result

/-- `validateGraph` from src/services/validators/graphValidator.ts over the
raw model. -/
def validateGraphE (w : RawWorkflow) : Except JsErr ValidationResult := do
  let result := createValidationResult
  let analysis ← analyzeGraphE w
  let entries := match w.nodes with | .arr l => l | _ => []
  let result :=
    if ¬ analysis.hasTrigger then
      addIssue result .error "NO_TRIGGER"
        "Workflow must have at least one trigger node (e.g., Start, Webhook, Cron)"
        { fix := some "Add a Start node as trigger" }
    else result
  let result ← analysis.orphanedNodes.foldlM
    (fun result nodeId => do
      let node ← rFindNodeById entries nodeId
      let disp := jsOrOptStr (foundName node) (jsShowOptStr nodeId)
      pure (addIssue result .error "ORPHANED_NODE"
        s!"Node \"{disp}\" is not connected to any other node"
        { nodeId := nodeId, nodeName := foundName node, fix := some "Connect node to workflow" }))
    result
  let result ← analysis.unreachableNodes.foldlM
    (fun result nodeId => do
      let node ← rFindNodeById entries nodeId
      let nodeType := foundType node
      let nodeDef := if jsTruthyOptStr nodeType then getNodeByTypeOpt nodeType else none
      if nodeDef.any (·.category = "trigger") then
        pure result
      else
        let disp := jsOrOptStr (foundName node) (jsShowOptStr nodeId)
        pure (addIssue result .error "UNREACHABLE_NODE"
          s!"Node \"{disp}\" is not reachable from any trigger node"
          { nodeId := nodeId, nodeName := foundName node,
            fix := some "Connect node to workflow from trigger" }))
    result
  let ids ← entries.mapM entryId
  let result ← validateConnectionReferencesE w ids entries result
  let result :=
    if analysis.circularReferences then
      addIssue result .warning "CIRCULAR_REFERENCE"
        "Workflow contains circular references (loops)"
    else result
  let result := analysis.missingConnections.foldl
    (fun result missing =>
      let fromN := missing.1
      let toN := missing.2.1
      let reason := missing.2.2
      addIssue result .info "SUGGESTED_CONNECTION"
        s!"Consider connecting \"{fromN}\" to \"{toN}\": {reason}")
    result
  .ok result

/-! ## Raw node validator (src/services/validators/nodeValidator.ts) -/

/-- `validateParameterType`: the per-type `switch`.  `options` mismatches are
warnings; primitive type mismatches are errors; other declared types are not
checked. -/
def validateParameterType (nodeName : Option String) (nodeId : Option String)
    (paramDef : NodeParameter) (value : PVal) (result : ValidationResult) :
    ValidationResult :=
  let pname := paramDef.name
  let nshown := jsShowOptStr nodeName
  let ptype := paramDef.type
  let isValid :=
    match ptype with
    | "string" => match value with | .pstr _ => true | _ => false
    | "number" => match value with | .pnum _ => true | _ => false
    | "boolean" => match value with | .pbool _ => true | _ => false
    | _ => true
  let result :=
    if ptype = "options" then
      match paramDef.options with
      | some opts =>
          if opts.any (fun o => match value with | .pstr s => o.2 = s | _ => false) then
            result
          else
            addIssue result .warning "INVALID_OPTION_VALUE"
              s!"Parameter \"{pname}\" in node \"{nshown}\" has invalid option value"
              { nodeId := nodeId, nodeName := nodeName }
      | none => result
    else result
  if isValid then result
  else
    addIssue result .error "INVALID_PARAMETER_TYPE"
      s!"Parameter \"{pname}\" in node \"{nshown}\" has wrong type (expected {ptype})"
      { nodeId := nodeId, nodeName := nodeName }

/-- The HTTP Request block of `validateSpecificNodeTypes`. -/
def checkHttpRequest (node : RawNode) (fields : PFields)
    (result : ValidationResult) : ValidationResult :=
  let nshown := jsShowOptStr node.name
  if node.type = some "n8n-nodes-base.httpRequest" then
    match jsObjGet fields "url" with
    | some (.pstr s) =>
        if jsTrim s = "" then
          addIssue result .error "HTTP_MISSING_URL"
            s!"HTTP Request node \"{nshown}\" is missing URL parameter"
            { nodeId := node.id, nodeName := node.name,
              fix := some "Add URL parameter with placeholder" }
        else if ¬ (jsStartsWith s "http://" || jsStartsWith s "https://" ||
            jsIncludes s "\x7b\x7b") then
          addIssue result .warning "HTTP_INVALID_URL"
            s!"HTTP Request node \"{nshown}\" has URL that doesn\x27t start with http:// or https://"
            { nodeId := node.id, nodeName := node.name }
        else result
    | _ =>
        addIssue result .error "HTTP_MISSING_URL"
          s!"HTTP Request node \"{nshown}\" is missing URL parameter"
          { nodeId := node.id, nodeName := node.name,
            fix := some "Add URL parameter with placeholder" }
  else result

/-- The Webhook block of `validateSpecificNodeTypes`. -/
def checkWebhookPath (node : RawNode) (fields : PFields)
    (result : ValidationResult) : ValidationResult :=
  let nshown := jsShowOptStr node.name
  if node.type = some "n8n-nodes-base.webhook" then
    match jsObjGet fields "path" with
    | some (.pstr s) =>
        if jsTrim s = "" then
          addIssue result .error "WEBHOOK_MISSING_PATH"
            s!"Webhook node \"{nshown}\" is missing path parameter"
            { nodeId := node.id, nodeName := node.name, fix := some "Add path parameter" }
        else result
    | _ =>
        addIssue result .error "WEBHOOK_MISSING_PATH"
          s!"Webhook node \"{nshown}\" is missing path parameter"
          { nodeId := node.id, nodeName := node.name, fix := some "Add path parameter" }
  else result

/-- The Gmail/SendGrid block of `validateSpecificNodeTypes`. -/
def checkEmailNode (node : RawNode) (fields : PFields)
    (result : ValidationResult) : ValidationResult :=
  let nshown := jsShowOptStr node.name
  if node.type = some "n8n-nodes-base.gmail" ∨ node.type = some "n8n-nodes-base.sendGrid" then
    if jsObjGet fields "operation" = some (.pstr "send") then
      let result :=
        if ¬ jsTruthyOptP (jsObjGet fields "to") then
          addIssue result .error "EMAIL_MISSING_RECIPIENT"
            s!"Email node \"{nshown}\" is missing recipient (to) parameter"
            { nodeId := node.id, nodeName := node.name,
              fix := some "Add recipient email address" }
        else result
      if ¬ jsTruthyOptP (jsObjGet fields "subject") then
        addIssue result .warning "EMAIL_MISSING_SUBJECT"
          s!"Email node \"{nshown}\" is missing subject parameter"
          { nodeId := node.id, nodeName := node.name, fix := some "Add email subject" }
      else result
    else result
  else result

/-- The Google Sheets block of `validateSpecificNodeTypes`. -/
def checkGoogleSheets (node : RawNode) (fields : PFields)
    (result : ValidationResult) : ValidationResult :=
  let nshown := jsShowOptStr node.name
  if node.type = some "n8n-nodes-base.googleSheets" then
    if ¬ jsTruthyOptP (jsObjGet fields "documentId") then
      addIssue result .error "SHEETS_MISSING_DOCUMENT_ID"
        s!"Google Sheets node \"{nshown}\" is missing document ID"
        { nodeId := node.id, nodeName := node.name,
          fix := some "Add Google Sheets document ID" }
    else result
  else result

/-- The Slack block of `validateSpecificNodeTypes`. -/
def checkSlackNode (node : RawNode) (fields : PFields)
    (result : ValidationResult) : ValidationResult :=
  let nshown := jsShowOptStr node.name
  if node.type = some "n8n-nodes-base.slack" then
    if jsObjGet fields "resource" = some (.pstr "message") ∧
        jsObjGet fields "operation" = some (.pstr "post") then
      let result :=
        if ¬ jsTruthyOptP (jsObjGet fields "channel") then
          addIssue result .error "SLACK_MISSING_CHANNEL"
            s!"Slack node \"{nshown}\" is missing channel parameter"
            { nodeId := node.id, nodeName := node.name, fix := some "Add Slack channel" }
        else result
      if ¬ jsTruthyOptP (jsObjGet fields "text") then
        addIssue result .warning "SLACK_MISSING_TEXT"
          s!"Slack node \"{nshown}\" is missing message text"
          { nodeId := node.id, nodeName := node.name, fix := some "Add message text" }
      else result
    else result
  else result

/-- The IF block of `validateSpecificNodeTypes`. -/
def checkIfNode (node : RawNode) (fields : PFields)
    (result : ValidationResult) : ValidationResult :=
  let nshown := jsShowOptStr node.name
  if node.type = some "n8n-nodes-base.if" then
    let bad : Bool :=
      match jsObjGet fields "conditions" with
      | none => true
      | some v =>
          if ¬ jsTruthyP v then true
          else match v with
            | .pobj cf => decide (cf.length = 0)
            | _ => false
    if bad then
      addIssue result .error "IF_MISSING_CONDITIONS"
        s!"IF node \"{nshown}\" has no conditions configured"
        { nodeId := node.id, nodeName := node.name, fix := some "Add at least one condition" }
    else result
  else result

/-- The Code block of `validateSpecificNodeTypes`. -/
def checkCodeNode (node : RawNode) (fields : PFields)
    (result : ValidationResult) : ValidationResult :=
  let nshown := jsShowOptStr node.name
  if node.type = some "n8n-nodes-base.code" then
    let bad : Bool :=
      match jsObjGet fields "jsCode" with
      | none => true
      | some v =>
          if ¬ jsTruthyP v then true
          else decide (v = .pstr "// Add your code here\nreturn items;")
    if bad then
      addIssue result .warning "CODE_NODE_EMPTY"
        s!"Code node \"{nshown}\" has no custom code or only default template"
        { nodeId := node.id, nodeName := node.name }
    else result
  else result

/-- `validateSpecificNodeTypes`: the sequential composition of the per-type
blocks, in source order. -/
def validateSpecificNodeTypes (node : RawNode) (fields : PFields)
    (result : ValidationResult) : ValidationResult :=
  checkCodeNode node fields
    (checkIfNode node fields
      (checkSlackNode node fields
        (checkGoogleSheets node fields
          (checkEmailNode node fields
            (checkWebhookPath node fields
              (checkHttpRequest node fields result))))))

/-- `requiresCredentials` from the node validator: integration-category
definitions need credentials except a fixed exception list. -/
def requiresCredentials (nodeDef : NodeDefinition) : Bool :=
  let exceptions := ["n8n-nodes-base.httpRequest", "n8n-nodes-base.webhook",
    "n8n-nodes-base.start", "n8n-nodes-base.cron"]
  if nodeDef.type ∈ exceptions then false
  else nodeDef.category ∈ ["integration"]

/-- `validateNodeParameters` from the node validator: parameter-object
presence, emptiness against required specs, required-parameter presence and
typing, then the per-type semantic checks. -/
def validateNodeParameters (node : RawNode) (nodeDef : NodeDefinition)
    (result : ValidationResult) : ValidationResult :=
  let nshown := jsShowOptStr node.name
  match node.parameters with
  | some (.pobj fields) =>
      let dname := nodeDef.displayName
      let hasRequiredParams := nodeDef.parameters.any (·.required)
      let result :=
        if hasRequiredParams && fields.length = 0 then
          addIssue result .error "EMPTY_REQUIRED_PARAMETERS"
            s!"Node \"{nshown}\" ({dname}) requires parameters but has none"
            { nodeId := node.id, nodeName := node.name, fix := some "Add required parameters" }
        else result
      let result := nodeDef.parameters.foldl
        (fun result paramDef =>
          if paramDef.required then
            let paramValue := jsObjGet fields paramDef.name
            if isMissingParamValue paramValue then
              let pname := paramDef.name
              addIssue result .error "MISSING_REQUIRED_PARAMETER"
                s!"Node \"{nshown}\" is missing required parameter: {pname}"
                { nodeId := node.id, nodeName := node.name,
                  fix := some s!"Set {pname} parameter" }
            else
              validateParameterType node.name node.id paramDef (paramValue.getD .pnull) result
          else result)
        result
      validateSpecificNodeTypes node fields result
  | _ =>
      addIssue result .warning "MISSING_PARAMETERS"
        s!"Node \"{nshown}\" has no parameters object"
        { nodeId := node.id, nodeName := node.name, fix := some "Add empty parameters object" }

/-- `validateSingleNode` from the node validator, on a non-null entry (the
caller throws before reaching a `null` entry). -/
def validateSingleNode (node : RawNode) (result : ValidationResult) : ValidationResult :=
  match getNodeByTypeOpt node.type with
  | none =>
      let tshown := jsShowOptStr node.type
      addIssue result .error "UNKNOWN_NODE_TYPE"
        s!"Unknown node type: {tshown}"
        { nodeId := node.id, nodeName := node.name,
          fix := some "Node type may be invalid or not in registry" }
  | some nodeDef =>
      let result := validateNodeParameters node nodeDef result
      if requiresCredentials nodeDef && ¬ node.credentials then
        let nshown := jsShowOptStr node.name
        let dname := nodeDef.displayName
        addIssue result .warning "MISSING_CREDENTIALS"
          s!"Node \"{nshown}\" ({dname}) typically requires credentials"
          { nodeId := node.id, nodeName := node.name }
      else result

/-- `validateNodes` from the node validator over raw entries; reading
`node.type` of a `null` entry throws. -/
def validateNodesE (w : RawWorkflow) : Except JsErr ValidationResult :=
  match w.nodes with
  | .arr entries =>
      entries.foldlM
        (fun result e =>
          match e with
          | .nullish => .error (.typeError "Cannot read properties of null (reading 'type')")
          | .prim => .ok (validateSingleNode {} result)
          | .obj n => .ok (validateSingleNode n result))
        createValidationResult
  | _ => .error (.typeError "workflow.nodes.forEach is not a function")

/-! ## Validation aggregator (src/services/validators/workflowValidator.ts) -/

/-- The four critical structural codes that stop the pipeline. -/
def criticalCodes : List String :=
  ["INVALID_WORKFLOW", "MISSING_NODES", "INVALID_NODES", "EMPTY_NODES"]

/-- Whether the structural result reports a critical code among its errors. -/
def hasCriticalErrors (r : ValidationResult) : Bool :=
  r.errors.any (fun e => e.code ∈ criticalCodes)

/-- The merge step of `validateWorkflow`: concatenated issue lists,
`isValid` recomputed from the combined errors, `fixable` as the disjunction
of the three contributing flags. -/
def combineResults (s g n : ValidationResult) : ValidationResult :=
  { isValid := (s.errors ++ g.errors ++ n.errors).length = 0,
    issues := s.issues ++ g.issues ++ n.issues,
    errors := s.errors ++ g.errors ++ n.errors,
    warnings := s.warnings ++ g.warnings ++ n.warnings,
    info := s.info ++ g.info ++ n.info,
    fixable := s.fixable || g.fixable || n.fixable }

/-- `validateWorkflow` from src/services/validators/workflowValidator.ts:
run the structure validator, stop on critical codes, otherwise union the
three validators' results. -/
def validateWorkflowE (input : RawInput) : Except JsErr ValidationResult :=
  let structureResult := validateStructure input
  if structureResult.errors.length > 0 && hasCriticalErrors structureResult then
    .ok structureResult
  else
    match input with
    | .notObject => .ok structureResult
    | .wf w => do
        let graphResult ← validateGraphE w
        let nodeResult ← validateNodesE w
        .ok (combineResults structureResult graphResult nodeResult)

/-! ## Typed workflow model

The post-processors take `N8nWorkflow` values (src/components, types): all
node fields present and well-typed.  `active` is a boolean (hence never
`undefined`), `settings` an object (hence truthy); `id` may still be the
empty string, which is falsy. -/

/-- A well-typed node (`N8nNode`). -/
structure TNode where
  id : String
  name : String
  type : String
  typeVersion : Int
  position : Int × Int
  parameters : PFields
  credentials : Bool := false
deriving Repr, DecidableEq

/-- A well-typed workflow (`N8nWorkflow`). -/
structure TWorkflow where
  name : String
  nodes : List TNode
  connections : CMap
  id : String
deriving Repr

/-- View a typed node as a raw entry (the validators take `any` and receive
the same runtime object). -/
def toRawEntry (n : TNode) : RawEntry :=
  .obj { id := some n.id, name := some n.name, type := some n.type,
         typeVersion := some n.typeVersion,
         position := some [n.position.1, n.position.2],
         parameters := some (.pobj n.parameters),
         credentials := n.credentials }

/-- View a typed workflow as a raw validator input. -/
def toRawInput (w : TWorkflow) : RawInput :=
  .wf { name := .str w.name, nodes := .arr (w.nodes.map toRawEntry),
        connections := .cmap w.connections,
        active := true, settings := true, id := w.id ≠ "" }

/-- Whether a typed node's registry category is `trigger`. -/
def isTriggerNode (n : TNode) : Bool :=
  (getNodeByType n.type).any (·.category = "trigger")

/-- The adjacent-pair loop of the missing-connection suggestion over typed
nodes. -/
def tMissingPairs (fwd : List (String × List String)) (orphans : List String) :
    List TNode → List (String × String × String)
  | a :: b :: rest =>
      let hasConnection := ((jmGet fwd a.id).getD []).contains b.id
      let here :=
        if ¬ hasConnection ∧ a.id ∉ orphans then
          match getNodeByType b.type with
          | some ndef =>
              if ndef.category ≠ "trigger" then
                [(jsOrStr a.name a.id, jsOrStr b.name b.id,
                  "Sequential nodes based on position")]
              else []
          | none => []
        else []
      here ++ tMissingPairs fwd orphans (b :: rest)
  | _ => []

/-- `analyzeGraph` instantiated at well-typed workflows (as the connection
fixer invokes it): keys are the node-id strings and nothing throws. -/
def analyzeGraphT (w : TWorkflow) : GraphAnalysisG String :=
  let ht := w.nodes.foldl
    (fun acc n =>
      match getNodeByType n.type with
      | some ndef =>
          if ndef.category = "trigger" then (true, acc.2 ++ [n.id]) else acc
      | none => acc)
    (false, [])
  let keys := w.nodes.map (·.id)
  let maps := addEdgesOfCMap (fun s => s) w.connections (initAdj keys, initAdj keys)
  let fwd := maps.1
  let rev := maps.2
  let orph := w.nodes.foldl
    (fun acc n =>
      let outgoing := ((jmGet fwd n.id).map (·.length)).getD 0
      let incoming := ((jmGet rev n.id).map (·.length)).getD 0
      if isTriggerNode n then
        if outgoing = 0 then (acc.1 ++ [n.id], false) else acc
      else
        if incoming = 0 ∧ outgoing = 0 then (acc.1 ++ [n.id], false) else acc)
    (([] : List String), true)
  let reachable := ht.2.foldl (fun vis t => dfsVisit fwd (graphFuel fwd) t vis) []
  let unre := w.nodes.foldl
    (fun acc n =>
      if ¬ isTriggerNode n ∧ n.id ∉ reachable then (acc.1 ++ [n.id], false) else acc)
    (([] : List String), orph.2)
  let circ := cycOuterGo fwd (graphFuel fwd) (fwd.map (·.1)) []
  let missing :=
    if w.nodes.length ≥ 2 then
      tMissingPairs fwd orph.1 (jsStableSort (fun a b => a.position.1 ≤ b.position.1) w.nodes)
    else []
  { hasTrigger := ht.1, triggerNodes := ht.2,
    orphanedNodes := orph.1, unreachableNodes := unre.1,
    circularReferences := circ, allNodesConnected := unre.2,
    missingConnections := missing }

/-! ## Connection fixer (src/services/postProcessors/connectionFixer.ts) -/

/-- The fixer's report (`ConnectionFixReport`). -/
structure ConnectionFixReport where
  fixed : Bool
  changes : List String
  connectionsAdded : Nat
  connectionsRemoved : Nat
deriving DecidableEq, Repr

/-- `addConnection`: create the source entry and the slot on demand, then
push onto parallel group 0 unless the target is already there.  When the
slot exists with an empty group list, `connections[src][slot][0]` is
`undefined` and the `.find` call throws. -/
def addConnectionE (w : TWorkflow) (sourceId targetId : String)
    (outputType : String := "main") : Except JsErr TWorkflow :=
  let conns0 := w.connections
  let conns1 := if (jmGet conns0 sourceId).isSome then conns0 else conns0 ++ [(sourceId, [])]
  let outs1 := (jmGet conns1 sourceId).getD []
  let conns2 :=
    if (jmGet outs1 outputType).isSome then conns1
    else jmSet conns1 sourceId (outs1 ++ [(outputType, [[]])])
  let outs2 := (jmGet conns2 sourceId).getD []
  match jmGet outs2 outputType with
  | none => .error (.typeError "Cannot read properties of undefined (reading '0')")
  | some [] => .error (.typeError "Cannot read properties of undefined (reading 'find')")
  | some (g0 :: rest) =>
      if g0.any (·.node = targetId) then
        .ok { w with connections := conns2 }
      else
        let groups' := (g0 ++ [{ node := targetId, type := "main" }]) :: rest
        .ok { w with connections := jmSet conns2 sourceId (jmSet outs2 outputType groups') }

/-- The `filter` over one parallel group in `removeInvalidConnections`,
recording every dropped target. -/
def rmFilterGroup (sourceId : String) (ids : List String) :
    List CConn → ConnectionFixReport → List CConn × ConnectionFixReport
  | [], rep => ([], rep)
  | c :: rest, rep =>
      if c.node ∈ ids then
        let (kept, rep) := rmFilterGroup sourceId ids rest rep
        (c :: kept, rep)
      else
        let target := c.node
        let rep :=
          { rep with
            changes := rep.changes ++
              [s!"Removed invalid connection from \"{sourceId}\" to non-existent node \"{target}\""],
            connectionsRemoved := rep.connectionsRemoved + 1,
            fixed := true }
        rmFilterGroup sourceId ids rest rep

/-- Target filtering over a group list. -/
def rmGroups (sourceId : String) (ids : List String) :
    List (List CConn) → ConnectionFixReport → List (List CConn) × ConnectionFixReport
  | [], rep => ([], rep)
  | g :: gs, rep =>
      let (g', rep) := rmFilterGroup sourceId ids g rep
      let (gs', rep) := rmGroups sourceId ids gs rep
      (g' :: gs', rep)

/-- Target filtering over a source's output map. -/
def rmOuts (sourceId : String) (ids : List String) :
    OutMap → ConnectionFixReport → OutMap × ConnectionFixReport
  | [], rep => ([], rep)
  | (slot, gs) :: rest, rep =>
      let (gs', rep) := rmGroups sourceId ids gs rep
      let (rest', rep) := rmOuts sourceId ids rest rep
      ((slot, gs') :: rest', rep)

/-- Phase 1 of `removeInvalidConnections`: filter targets of entries with a
valid source; entries with an unknown source are kept untouched here and
dropped in phase 2 (as the source collects them for later deletion). -/
def rmPhase1 (ids : List String) :
    CMap → ConnectionFixReport → CMap × ConnectionFixReport
  | [], rep => ([], rep)
  | (s, outs) :: rest, rep =>
      if s ∈ ids then
        let (outs', rep) := rmOuts s ids outs rep
        let (rest', rep) := rmPhase1 ids rest rep
        ((s, outs') :: rest', rep)
      else
        let (rest', rep) := rmPhase1 ids rest rep
        ((s, outs) :: rest', rep)

/-- Phase 2 of `removeInvalidConnections`: delete entries with an unknown
source id. -/
def rmPhase2 (ids : List String) :
    CMap → ConnectionFixReport → CMap × ConnectionFixReport
  | [], rep => ([], rep)
  | (s, outs) :: rest, rep =>
      if s ∈ ids then
        let (rest', rep) := rmPhase2 ids rest rep
        ((s, outs) :: rest', rep)
      else
        let rep :=
          { rep with
            changes := rep.changes ++
              [s!"Removed connections for non-existent node \"{s}\""],
            fixed := true }
        rmPhase2 ids rest rep

/-- `removeInvalidConnections` from the connection fixer. -/
def removeInvalidConnections (w : TWorkflow) (rep : ConnectionFixReport) :
    TWorkflow × ConnectionFixReport :=
  let ids := w.nodes.map (·.id)
  let (conns1, rep) := rmPhase1 ids w.connections rep
  let (conns2, rep) := rmPhase2 ids conns1 rep
  ({ w with connections := conns2 }, rep)

/-- `findNextNodeByPosition`: the closest node strictly to the right. -/
def findNextNodeByPosition (w : TWorkflow) (current : TNode) : Option TNode :=
  let nodesAfter := w.nodes.filter
    (fun n => n.id ≠ current.id ∧ current.position.1 < n.position.1)
  (jsStableSort (fun a b => a.position.1 ≤ b.position.1) nodesAfter).head?

/-- `findPreviousNodeByPosition`: the closest node strictly to the left. -/
def findPreviousNodeByPosition (w : TWorkflow) (current : TNode) : Option TNode :=
  let nodesBefore := w.nodes.filter
    (fun n => n.id ≠ current.id ∧ n.position.1 < current.position.1)
  (jsStableSort (fun a b => b.position.1 ≤ a.position.1) nodesBefore).head?

/-- Append a connection-added change line to a fix report. -/
def repAdded (rep : ConnectionFixReport) (msg : String) : ConnectionFixReport :=
  { rep with
    changes := rep.changes ++ [msg],
    connectionsAdded := rep.connectionsAdded + 1,
    fixed := true }

/-- `fixOrphanedNodes` from the connection fixer. -/
def fixOrphanedNodes (w : TWorkflow) (orphans : List String)
    (rep : ConnectionFixReport) : Except JsErr (TWorkflow × ConnectionFixReport) :=
  orphans.foldlM
    (fun acc nodeId => do
      let (w, rep) := acc
      match w.nodes.find? (·.id = nodeId) with
      | none => pure (w, rep)
      | some node =>
          if isTriggerNode node then
            match findNextNodeByPosition w node with
            | some nextNode => do
                let w ← addConnectionE w node.id nextNode.id "main"
                let nodeName := node.name
                let nextName := nextNode.name
                pure (w, repAdded rep
                  s!"Connected orphaned trigger \"{nodeName}\" to \"{nextName}\"")
            | none => pure (w, rep)
          else do
            let prevNode := findPreviousNodeByPosition w node
            let nextNode := findNextNodeByPosition w node
            let (w, rep) ←
              match prevNode with
              | some p => do
                  let w ← addConnectionE w p.id node.id "main"
                  let prevName := p.name
                  let nodeName := node.name
                  pure (w, repAdded rep
                    s!"Connected \"{prevName}\" to orphaned node \"{nodeName}\"")
              | none => pure (w, rep)
            match nextNode with
            | some nx => do
                let w ← addConnectionE w node.id nx.id "main"
                let nodeName := node.name
                let nextName := nx.name
                pure (w, repAdded rep
                  s!"Connected orphaned node \"{nodeName}\" to \"{nextName}\"")
            | none => pure (w, rep))
    (w, rep)

/-- `fixUnreachableNodes` from the connection fixer: connect from the
positional predecessor, or from the first trigger when none exists; a
workflow without triggers is left alone. -/
def fixUnreachableNodes (w : TWorkflow) (unreachable : List String)
    (rep : ConnectionFixReport) : Except JsErr (TWorkflow × ConnectionFixReport) :=
  match w.nodes.filter isTriggerNode with
  | [] => .ok (w, rep)
  | mainTrigger :: _ =>
      unreachable.foldlM
        (fun acc nodeId => do
          let (w, rep) := acc
          match w.nodes.find? (·.id = nodeId) with
          | none => pure (w, rep)
          | some node =>
              match findPreviousNodeByPosition w node with
              | some prev => do
                  let w ← addConnectionE w prev.id node.id "main"
                  let prevName := prev.name
                  let nodeName := node.name
                  pure (w, repAdded rep
                    s!"Connected \"{prevName}\" to unreachable node \"{nodeName}\"")
              | none => do
                  let w ← addConnectionE w mainTrigger.id node.id "main"
                  let trigName := mainTrigger.name
                  let nodeName := node.name
                  pure (w, repAdded rep
                    s!"Connected trigger \"{trigName}\" to unreachable node \"{nodeName}\""))
        (w, rep)

/-- Whether a source id has any outgoing connection (some nonempty parallel
group under some slot). -/
def hasOutgoingB (conns : CMap) (nodeId : String) : Bool :=
  match jmGet conns nodeId with
  | none => false
  | some outs => outs.any (fun slotEntry => slotEntry.2.any (fun g => g.length > 0))

/-- Whether any connection in the map targets the given node id. -/
def hasIncomingB (conns : CMap) (nodeId : String) : Bool :=
  conns.any (fun entry =>
    entry.2.any (fun slotEntry =>
      slotEntry.2.any (fun g => g.any (·.node = nodeId))))

/-- `ensureTriggerConnections` from the connection fixer. -/
def ensureTriggerConnections (w : TWorkflow) (triggerIds : List String)
    (rep : ConnectionFixReport) : Except JsErr (TWorkflow × ConnectionFixReport) :=
  triggerIds.foldlM
    (fun acc triggerId => do
      let (w, rep) := acc
      match w.nodes.find? (·.id = triggerId) with
      | none => pure (w, rep)
      | some trigger =>
          if hasOutgoingB w.connections triggerId then pure (w, rep)
          else
            match findNextNodeByPosition w trigger with
            | some nextNode => do
                let w ← addConnectionE w triggerId nextNode.id "main"
                let trigName := trigger.name
                let nextName := nextNode.name
                pure (w, repAdded rep
                  s!"Connected trigger \"{trigName}\" to \"{nextName}\"")
            | none => pure (w, rep))
    (w, rep)

/-- The `connections[cur]?.main?.[0]?.some(...)` check of the sequential
sweep: only parallel group 0 of the `main` slot is consulted. -/
def seqHasConnection (conns : CMap) (curId nextId : String) : Bool :=
  match jmGet conns curId with
  | none => false
  | some outs =>
      match jmGet outs "main" with
      | none => false
      | some groups =>
          match groups.head? with
          | none => false
          | some g0 => g0.any (·.node = nextId)

/-- The pair loop of `addSequentialConnections` over the position-sorted
node list, mutating the connection map as it walks. -/
def addSequentialGo :
    List TNode → TWorkflow → ConnectionFixReport →
    Except JsErr (TWorkflow × ConnectionFixReport)
  | currentNode :: nextNode :: rest, w, rep => do
      let (w, rep) ←
        if seqHasConnection w.connections currentNode.id nextNode.id then
          pure (w, rep)
        else if isTriggerNode nextNode then
          pure (w, rep)
        else
          let currentHasOutgoing := hasOutgoingB w.connections currentNode.id
          let nextHasIncoming := hasIncomingB w.connections nextNode.id
          if ¬ currentHasOutgoing || ¬ nextHasIncoming then
            let isBranching : Bool :=
              match getNodeByType currentNode.type with
              | some d => d.type = "n8n-nodes-base.if" || d.type = "n8n-nodes-base.switch"
              | none => false
            if isBranching then pure (w, rep)
            else do
              let w ← addConnectionE w currentNode.id nextNode.id "main"
              let curName := currentNode.name
              let nextName := nextNode.name
              pure (w, repAdded rep
                s!"Added sequential connection: \"{curName}\" â†’ \"{nextName}\"")
          else pure (w, rep)
      addSequentialGo (nextNode :: rest) w rep
  | _, w, rep => pure (w, rep)

/-- `addSequentialConnections` from the connection fixer. -/
def addSequentialConnections (w : TWorkflow) (rep : ConnectionFixReport) :
    Except JsErr (TWorkflow × ConnectionFixReport) :=
  addSequentialGo (jsStableSort (fun a b => a.position.1 ≤ b.position.1) w.nodes) w rep

/-- `fixConnections` from the connection fixer.  In the typed model the
`connections` object always exists (`{}` is truthy), so the initial
creation branch cannot fire. -/
def fixConnectionsE (w : TWorkflow) :
    Except JsErr (TWorkflow × ConnectionFixReport) := do
  let rep : ConnectionFixReport :=
    { fixed := false, changes := [], connectionsAdded := 0, connectionsRemoved := 0 }
  let (w, rep) := removeInvalidConnections w rep
  let analysis := analyzeGraphT w
  let (w, rep) ←
    if analysis.orphanedNodes.length > 0 then fixOrphanedNodes w analysis.orphanedNodes rep
    else pure (w, rep)
  let (w, rep) ←
    if analysis.unreachableNodes.length > 0 then
      fixUnreachableNodes w analysis.unreachableNodes rep
    else pure (w, rep)
  let (w, rep) ←
    if analysis.triggerNodes.length > 0 then
      ensureTriggerConnections w analysis.triggerNodes rep
    else pure (w, rep)
  let (w, rep) ←
    if ¬ analysis.allNodesConnected then addSequentialConnections w rep
    else pure (w, rep)
  pure (w, rep)

/-! ## Parameter filler (src/services/postProcessors/parameterFiller.ts)

`Math.random()`-derived suffixes are modelled by an explicit stream
`randStream : Nat → String` consumed draw by draw. -/

/-- The filler's report (`ParameterFixReport`). -/
structure ParameterFixReport where
  fixed : Bool
  changes : List String
  parametersFilled : Nat
deriving DecidableEq, Repr

/-- ASCII uppercase (`String.prototype.toUpperCase` on the names here). -/
def jsToUpper (s : String) : String :=
  s.map Char.toUpper

/-- Number of elements of an array value. -/
def PElems.length : PElems → Nat
  | .enil => 0
  | .econs _ rest => rest.length + 1

/-- `Object.keys(v).length` of a truthy value: object keys, array indices,
string indices; other primitives have no own keys. -/
def jsKeysLength : PVal → Nat
  | .pobj fields => fields.length
  | .parr elems => elems.length
  | .pstr s => s.length
  | _ => 0

/-- The default code template the filler writes into an empty Code node. -/
def codeTemplate : String :=
  "// Process items\n// Access input data via \x27items\x27 array\n// Return modified items\n\nfor (const item of items) \x7b\n  // Your code here\n  // Example: item.json.newField = item.json.existingField;\n\x7d\n\nreturn items;"

/-- `getStringPlaceholder`: keyword-to-template rules matched against the
lowercased parameter name, in source order. -/
def getStringPlaceholder (paramDef : NodeParameter) : String :=
  let paramName := jsToLower paramDef.name
  if jsIncludes paramName "url" || jsIncludes paramName "endpoint" then
    "\x7b\x7b$json[\"url\"] || \"https://api.example.com/endpoint\"\x7d\x7d"
  else if jsIncludes paramName "email" || paramName = "to" || paramName = "from" then
    "\x7b\x7b$json[\"email\"] || \"user@example.com\"\x7d\x7d"
  else if jsIncludes paramName "id" || jsIncludes paramName "documentid" ||
      jsIncludes paramName "baseid" then
    "\x7b\x7b$json[\"id\"] || \"YOUR_ID_HERE\"\x7d\x7d"
  else if jsIncludes paramName "channel" then
    "\x7b\x7b$json[\"channel\"] || \"#general\"\x7d\x7d"
  else if jsIncludes paramName "message" || jsIncludes paramName "text" ||
      jsIncludes paramName "content" || jsIncludes paramName "body" then
    "\x7b\x7b$json[\"message\"] || \"Your message here\"\x7d\x7d"
  else if jsIncludes paramName "subject" then
    "\x7b\x7b$json[\"subject\"] || \"Subject line\"\x7d\x7d"
  else if jsIncludes paramName "path" then
    (paramDef.placeholder.filter (· ≠ "")).getD "webhook-path"
  else if jsIncludes paramName "apikey" || jsIncludes paramName "api_key" then
    "\x7b\x7b$credentials.apiKey\x7d\x7d"
  else if jsIncludes paramName "token" then
    "\x7b\x7b$credentials.token\x7d\x7d"
  else if jsIncludes paramName "sheet" then
    "Sheet1"
  else if jsIncludes paramName "table" then
    "Table 1"
  else
    let upper := jsToUpper paramName
    (paramDef.placeholder.filter (· ≠ "")).getD
      ("\x7b\x7b$json[\"" ++ paramName ++ "\"] || \"YOUR_" ++ upper ++ "_HERE\"\x7d\x7d")

/-- `getDefaultParameterValue`: declared default first, otherwise a
type-directed synthetic value. -/
def getDefaultParameterValue (paramDef : NodeParameter) : PVal :=
  match paramDef.default with
  | some d => d
  | none =>
      match paramDef.type with
      | "string" =>
          .pstr ((paramDef.placeholder.filter (· ≠ "")).getD (getStringPlaceholder paramDef))
      | "number" => .pnum 0
      | "boolean" => .pbool false
      | "options" =>
          .pstr (match paramDef.options with
            | some ((_, v) :: _) => if v = "" then "" else v
            | _ => "")
      | "json" => PVal.objOf []
      | "collection" => PVal.objOf []
      | "fixedCollection" => PVal.objOf []
      | _ => .pstr ""

mutual

/-- Minimal `JSON.stringify` for the change-log lines of the filler. -/
def pvalStringify : PVal → String
  | .pstr s =>
      let esc := s.foldl
        (fun acc c =>
          if c = '"' then acc ++ "\\\""
          else if c = '\\' then acc ++ "\\\\"
          else if c = '\n' then acc ++ "\\n"
          else acc.push c)
        ""
      "\"" ++ esc ++ "\""
  | .pnum n => toString n
  | .pbool b => if b then "true" else "false"
  | .pnull => "null"
  | .pobj fields => "\x7b" ++ pvalStringifyFields fields ++ "\x7d"
  | .parr elems => "[" ++ pvalStringifyElems elems ++ "]"

/-- Stringify object fields. -/
def pvalStringifyFields : PFields → String
  | .fnil => ""
  | .fcons k v .fnil => "\"" ++ k ++ "\":" ++ pvalStringify v
  | .fcons k v rest => "\"" ++ k ++ "\":" ++ pvalStringify v ++ "," ++ pvalStringifyFields rest

/-- Stringify array elements. -/
def pvalStringifyElems : PElems → String
  | .enil => ""
  | .econs v .enil => pvalStringify v
  | .econs v rest => pvalStringify v ++ "," ++ pvalStringifyElems rest

end

/-- One required-parameter fill step of the generic loop. -/
def fillRequiredParam (nodeName : String) (paramDef : NodeParameter)
    (st : PFields × ParameterFixReport) : PFields × ParameterFixReport :=
  let (params, rep) := st
  if paramDef.required then
    if isMissingParamValue (params.lookup paramDef.name) then
      let defaultValue := getDefaultParameterValue paramDef
      let params := params.set paramDef.name defaultValue
      let pname := paramDef.name
      let shown := pvalStringify defaultValue
      let rep :=
        { rep with
          changes := rep.changes ++
            [s!"Set \"{pname}\" parameter in node \"{nodeName}\" to {shown}"],
          parametersFilled := rep.parametersFilled + 1,
          fixed := true }
      (params, rep)
    else st
  else st

/-- Set a parameter, bump the counter and optionally log a change line. -/
def fillSet (st : PFields × ParameterFixReport) (k : String) (v : PVal)
    (msg : Option String) : PFields × ParameterFixReport :=
  let (params, rep) := st
  let rep :=
    { rep with
      changes := rep.changes ++ (match msg with | some m => [m] | none => []),
      parametersFilled := rep.parametersFilled + 1,
      fixed := true }
  (params.set k v, rep)

/-- `fillSpecificNodeParameters`: the hard-coded per-type corrective
defaults.  Returns the updated parameter object, the report and the number
of random draws consumed. -/
def fillSpecificNodeParameters (randStream : Nat → String) (ctr : Nat)
    (node : TNode) (params : PFields) (rep : ParameterFixReport) :
    PFields × ParameterFixReport × Nat :=
  let nodeName := node.name
  let st := (params, rep)
  -- HTTP Request
  let st :=
    if node.type = "n8n-nodes-base.httpRequest" then
      let st :=
        if ¬ jsTruthyOptP (st.1.lookup "url") then
          fillSet st "url" (.pstr "\x7b\x7b$json[\"url\"] || \"https://api.example.com/endpoint\"\x7d\x7d")
            (some s!"Set URL placeholder in HTTP Request node \"{nodeName}\"")
        else st
      let st :=
        if ¬ jsTruthyOptP (st.1.lookup "method") then
          fillSet st "method" (.pstr "GET")
            (some s!"Set HTTP method to GET in node \"{nodeName}\"")
        else st
      if ¬ jsTruthyOptP (st.1.lookup "authentication") then
        fillSet st "authentication" (.pstr "none") none
      else st
    else st
  -- Webhook (consumes a random draw for an empty path)
  let (st, ctr) :=
    if node.type = "n8n-nodes-base.webhook" then
      let (st, ctr) :=
        if ¬ jsTruthyOptP (st.1.lookup "path") then
          (fillSet st "path" (.pstr ("webhook-" ++ randStream ctr))
            (some s!"Set webhook path in node \"{nodeName}\""), ctr + 1)
        else (st, ctr)
      let st :=
        if ¬ jsTruthyOptP (st.1.lookup "httpMethod") then
          fillSet st "httpMethod" (.pstr "POST") none
        else st
      let st :=
        if ¬ jsTruthyOptP (st.1.lookup "responseMode") then
          fillSet st "responseMode" (.pstr "onReceived") none
        else st
      (st, ctr)
    else (st, ctr)
  -- Gmail / SendGrid
  let st :=
    if node.type = "n8n-nodes-base.gmail" ∨ node.type = "n8n-nodes-base.sendGrid" then
      if st.1.lookup "operation" = some (.pstr "send") ∨ st.1.lookup "operation" = none then
        let st :=
          if ¬ jsTruthyOptP (st.1.lookup "to") then
            fillSet st "to" (.pstr "\x7b\x7b$json[\"email\"] || \"recipient@example.com\"\x7d\x7d")
              (some s!"Set recipient placeholder in email node \"{nodeName}\"")
          else st
        let st :=
          if ¬ jsTruthyOptP (st.1.lookup "subject") then
            fillSet st "subject" (.pstr "\x7b\x7b$json[\"subject\"] || \"Email Subject\"\x7d\x7d")
              (some s!"Set subject placeholder in email node \"{nodeName}\"")
          else st
        if ¬ jsTruthyOptP (st.1.lookup "message") ∧ ¬ jsTruthyOptP (st.1.lookup "content") then
          let messageField := if node.type = "n8n-nodes-base.sendGrid" then "content" else "message"
          fillSet st messageField (.pstr "\x7b\x7b$json[\"message\"] || \"Email body content\"\x7d\x7d")
            (some s!"Set message placeholder in email node \"{nodeName}\"")
        else st
      else st
    else st
  -- Slack
  let st :=
    if node.type = "n8n-nodes-base.slack" then
      let st :=
        if ¬ jsTruthyOptP (st.1.lookup "resource") then
          fillSet st "resource" (.pstr "message") none
        else st
      let st :=
        if ¬ jsTruthyOptP (st.1.lookup "operation") then
          fillSet st "operation" (.pstr "post") none
        else st
      if st.1.lookup "resource" = some (.pstr "message") ∧
          st.1.lookup "operation" = some (.pstr "post") then
        let st :=
          if ¬ jsTruthyOptP (st.1.lookup "channel") then
            fillSet st "channel" (.pstr "\x7b\x7b$json[\"channel\"] || \"#general\"\x7d\x7d")
              (some s!"Set channel placeholder in Slack node \"{nodeName}\"")
          else st
        if ¬ jsTruthyOptP (st.1.lookup "text") then
          fillSet st "text" (.pstr "\x7b\x7b$json[\"message\"] || \"Slack message\"\x7d\x7d")
            (some s!"Set message placeholder in Slack node \"{nodeName}\"")
        else st
      else st
    else st
  -- Google Sheets
  let st :=
    if node.type = "n8n-nodes-base.googleSheets" then
      let st :=
        if ¬ jsTruthyOptP (st.1.lookup "resource") then
          fillSet st "resource" (.pstr "spreadsheet") none
        else st
      let st :=
        if ¬ jsTruthyOptP (st.1.lookup "operation") then
          fillSet st "operation" (.pstr "append") none
        else st
      let st :=
        if ¬ jsTruthyOptP (st.1.lookup "documentId") then
          fillSet st "documentId" (.pstr "\x7b\x7b$json[\"sheetId\"] || \"YOUR_GOOGLE_SHEET_ID\"\x7d\x7d")
            (some s!"Set document ID placeholder in Google Sheets node \"{nodeName}\"")
        else st
      if ¬ jsTruthyOptP (st.1.lookup "sheetName") then
        fillSet st "sheetName" (.pstr "Sheet1")
          (some s!"Set sheet name to \"Sheet1\" in node \"{nodeName}\"")
      else st
    else st
  -- Airtable
  let st :=
    if node.type = "n8n-nodes-base.airtable" then
      let st :=
        if ¬ jsTruthyOptP (st.1.lookup "operation") then
          fillSet st "operation" (.pstr "list") none
        else st
      let st :=
        if ¬ jsTruthyOptP (st.1.lookup "baseId") then
          fillSet st "baseId" (.pstr "\x7b\x7b$json[\"baseId\"] || \"appXXXXXXXXXXXXXX\"\x7d\x7d")
            (some s!"Set base ID placeholder in Airtable node \"{nodeName}\"")
        else st
      if ¬ jsTruthyOptP (st.1.lookup "table") then
        fillSet st "table" (.pstr "Table 1")
          (some s!"Set table name in Airtable node \"{nodeName}\"")
      else st
    else st
  -- HubSpot
  let st :=
    if node.type = "n8n-nodes-base.hubspot" then
      let st :=
        if ¬ jsTruthyOptP (st.1.lookup "resource") then
          fillSet st "resource" (.pstr "contact") none
        else st
      if ¬ jsTruthyOptP (st.1.lookup "operation") then
        fillSet st "operation" (.pstr "get") none
      else st
    else st
  -- Salesforce
  let st :=
    if node.type = "n8n-nodes-base.salesforce" then
      let st :=
        if ¬ jsTruthyOptP (st.1.lookup "resource") then
          fillSet st "resource" (.pstr "lead") none
        else st
      if ¬ jsTruthyOptP (st.1.lookup "operation") then
        fillSet st "operation" (.pstr "get") none
      else st
    else st
  -- Shopify
  let st :=
    if node.type = "n8n-nodes-base.shopify" then
      let st :=
        if ¬ jsTruthyOptP (st.1.lookup "resource") then
          fillSet st "resource" (.pstr "order") none
        else st
      if ¬ jsTruthyOptP (st.1.lookup "operation") then
        fillSet st "operation" (.pstr "get") none
      else st
    else st
  -- Shopify Trigger
  let st :=
    if node.type = "n8n-nodes-base.shopifyTrigger" then
      if ¬ jsTruthyOptP (st.1.lookup "topic") then
        fillSet st "topic" (.pstr "orders/create")
          (some s!"Set Shopify trigger topic to \"orders/create\" in node \"{nodeName}\"")
      else st
    else st
  -- IF node
  let st :=
    if node.type = "n8n-nodes-base.if" then
      let bad : Bool :=
        match st.1.lookup "conditions" with
        | none => true
        | some v =>
            if ¬ jsTruthyP v then true
            else decide (jsKeysLength v = 0)
      if bad then
        fillSet st "conditions"
          (PVal.objOf [("boolean", PVal.arrOf []),
            ("number", PVal.arrOf [PVal.objOf
              [("value1", .pstr "=\x7b\x7b$json[\"value\"]\x7d\x7d"),
               ("operation", .pstr "equal"),
               ("value2", .pstr "expected_value")]]),
            ("string", PVal.arrOf [])])
          (some s!"Added default condition to IF node \"{nodeName}\"")
      else st
    else st
  -- Set node
  let st :=
    if node.type = "n8n-nodes-base.set" then
      let st :=
        if ¬ jsTruthyOptP (st.1.lookup "mode") then
          fillSet st "mode" (.pstr "manual") none
        else st
      let bad : Bool :=
        match st.1.lookup "values" with
        | none => true
        | some v =>
            if ¬ jsTruthyP v then true
            else decide (jsKeysLength v = 0)
      if bad then
        fillSet st "values"
          (PVal.objOf [("string", PVal.arrOf [PVal.objOf
            [("name", .pstr "newField"),
             ("value", .pstr "=\x7b\x7b$json[\"originalField\"]\x7d\x7d")]])])
          (some s!"Added default value mapping to Set node \"{nodeName}\"")
      else st
    else st
  -- Code node
  let st :=
    if node.type = "n8n-nodes-base.code" then
      let st :=
        if ¬ jsTruthyOptP (st.1.lookup "mode") then
          fillSet st "mode" (.pstr "runOnceForAllItems") none
        else st
      if ¬ jsTruthyOptP (st.1.lookup "jsCode") then
        fillSet st "jsCode" (.pstr codeTemplate)
          (some s!"Added code template to Code node \"{nodeName}\"")
      else st
    else st
  (st.1, st.2, ctr)

/-- `ensureBasicNodeProperties` over the typed model: `typeVersion` and
`position` are always present and well-formed on a typed node (their
branches cannot fire), while an empty `name` or `id` is repaired.  Returns
the node, the report and the number of random draws consumed. -/
def ensureBasicNodeProperties (randStream : Nat → String) (ctr : Nat)
    (node : TNode) (rep : ParameterFixReport) :
    TNode × ParameterFixReport × Nat :=
  let (node, rep) :=
    if node.name = "" then
      let newName :=
        match getNodeByType node.type with
        | some ndef => ndef.displayName
        | none => "Node"
      let rep :=
        { rep with
          changes := rep.changes ++ [s!"Generated name \"{newName}\" for unnamed node"],
          fixed := true }
      ({ node with name := newName }, rep)
    else (node, rep)
  if node.id = "" then
    let newId := "node_" ++ randStream ctr
    let nodeName := node.name
    let rep :=
      { rep with
        changes := rep.changes ++ [s!"Generated ID \"{newId}\" for node \"{nodeName}\""],
        fixed := true }
    ({ node with id := newId }, rep, ctr + 1)
  else (node, rep, ctr)

/-- `fillNodeParameters` over a typed node.  On the typed model the
parameters object always exists (`{}` is truthy), so the creation branch
cannot fire; an unknown node type returns early, skipping the basic
property normalization exactly as the source does. -/
def fillNodeParameters (randStream : Nat → String) (ctr : Nat) (node : TNode)
    (rep : ParameterFixReport) : TNode × ParameterFixReport × Nat :=
  match getNodeByType node.type with
  | none => (node, rep, ctr)
  | some nodeDef =>
      let (params, rep) := nodeDef.parameters.foldl
        (fun st paramDef => fillRequiredParam node.name paramDef st)
        (node.parameters, rep)
      let (params, rep, ctr) := fillSpecificNodeParameters randStream ctr node params rep
      let node := { node with parameters := params }
      ensureBasicNodeProperties randStream ctr node rep

/-- `fillMissingParameters` from the parameter filler. -/
def fillMissingParameters (randStream : Nat → String) (w : TWorkflow) :
    TWorkflow × ParameterFixReport :=
  let init : List TNode × ParameterFixReport × Nat :=
    ([], { fixed := false, changes := [], parametersFilled := 0 }, 0)
  let res := w.nodes.foldl
    (fun acc node =>
      let (node', rep', ctr') := fillNodeParameters randStream acc.2.2 node acc.2.1
      (acc.1 ++ [node'], rep', ctr'))
    init
  ({ w with nodes := res.1 }, res.2.1)

/-! ## Processing orchestrator (src/services/postProcessors/workflowProcessor.ts) -/

/-- The orchestrator's report (`ProcessingReport`); the derived
human-readable `summary` string is not carried. -/
structure ProcessingReport where
  originalValidation : ValidationResult
  finalValidation : ValidationResult
  connectionFixes : ConnectionFixReport
  parameterFixes : ParameterFixReport
  totalChanges : Nat
deriving Repr

/-- `processWorkflow` from the workflow processor: validate, optionally
fill parameters then fix connections, re-validate, and count the changes. -/
def processWorkflowT (randStream : Nat → String) (w : TWorkflow)
    (autoFix : Bool := true) : Except JsErr (ProcessingReport × TWorkflow) := do
  let originalValidation ← validateWorkflowE (toRawInput w)
  if autoFix && originalValidation.fixable then do
    let (w1, parameterFixes) := fillMissingParameters randStream w
    let (w2, connectionFixes) ← fixConnectionsE w1
    let finalValidation ← validateWorkflowE (toRawInput w2)
    pure ({ originalValidation := originalValidation,
            finalValidation := finalValidation,
            connectionFixes := connectionFixes,
            parameterFixes := parameterFixes,
            totalChanges := parameterFixes.parametersFilled +
              connectionFixes.connectionsAdded + connectionFixes.connectionsRemoved }, w2)
  else
    pure ({ originalValidation := originalValidation,
            finalValidation := originalValidation,
            connectionFixes :=
              { fixed := false, changes := [], connectionsAdded := 0, connectionsRemoved := 0 },
            parameterFixes := { fixed := false, changes := [], parametersFilled := 0 },
            totalChanges := 0 }, w)

/-! ## Coherence of validation results

A `ValidationResult` is coherent when its `errors`/`warnings`/`info` lists
are the severity partition of `issues`, `isValid` mirrors emptiness of the
error list and `fixable` mirrors the presence of a truthy fix hint.  Every
result built from `createValidationResult` by `addIssue` calls is coherent. -/

/-- The arguments of one `addIssue` call. -/
structure AddCall where
  severity : Sev
  code : String
  message : String
  opts : IssueOpts := {}

/-- The issue a call appends. -/
def mkIssueOf (c : AddCall) : ValidationIssue :=
  { severity := c.severity, code := c.code, message := c.message,
    nodeId := c.opts.nodeId, nodeName := c.opts.nodeName, fix := c.opts.fix }

/-- Apply a sequence of `addIssue` calls. -/
def runAddIssues (r : ValidationResult) (calls : List AddCall) : ValidationResult :=
  calls.foldl (fun r c => addIssue r c.severity c.code c.message c.opts) r

/-- Coherence of a validation result. -/
def Coherent (r : ValidationResult) : Prop :=
  r.errors = r.issues.filter (fun i => i.severity == Sev.error) ∧
  r.warnings = r.issues.filter (fun i => i.severity == Sev.warning) ∧
  r.info = r.issues.filter (fun i => i.severity == Sev.info) ∧
  (r.isValid = true ↔ r.errors = []) ∧
  (r.fixable = true ↔ ∃ i ∈ r.issues, jsTruthyOptStr i.fix = true)

theorem coherent_create : Coherent createValidationResult := by
  refine ⟨rfl, rfl, rfl, by simp [createValidationResult], ?_⟩
  simp [createValidationResult]

theorem addIssue_issues (r : ValidationResult) (sev : Sev) (code msg : String)
    (opts : IssueOpts) :
    (addIssue r sev code msg opts).issues =
      r.issues ++ [mkIssueOf ⟨sev, code, msg, opts⟩] := by
  unfold addIssue mkIssueOf
  cases sev <;> dsimp only <;> split <;> rfl

theorem addIssue_errors (r : ValidationResult) (sev : Sev) (code msg : String)
    (opts : IssueOpts) :
    (addIssue r sev code msg opts).errors =
      (if sev = .error then r.errors ++ [mkIssueOf ⟨sev, code, msg, opts⟩] else r.errors) := by
  unfold addIssue mkIssueOf
  cases sev <;> dsimp only <;> split <;> simp

theorem addIssue_warnings (r : ValidationResult) (sev : Sev) (code msg : String)
    (opts : IssueOpts) :
    (addIssue r sev code msg opts).warnings =
      (if sev = .warning then r.warnings ++ [mkIssueOf ⟨sev, code, msg, opts⟩]
       else r.warnings) := by
  unfold addIssue mkIssueOf
  cases sev <;> dsimp only <;> split <;> simp

theorem addIssue_info (r : ValidationResult) (sev : Sev) (code msg : String)
    (opts : IssueOpts) :
    (addIssue r sev code msg opts).info =
      (if sev = .info then r.info ++ [mkIssueOf ⟨sev, code, msg, opts⟩] else r.info) := by
  unfold addIssue mkIssueOf
  cases sev <;> dsimp only <;> split <;> simp

theorem addIssue_isValid (r : ValidationResult) (sev : Sev) (code msg : String)
    (opts : IssueOpts) :
    (addIssue r sev code msg opts).isValid =
      (if sev = .error then false else r.isValid) := by
  unfold addIssue
  cases sev <;> dsimp only <;> split <;> simp

theorem addIssue_fixable (r : ValidationResult) (sev : Sev) (code msg : String)
    (opts : IssueOpts) :
    (addIssue r sev code msg opts).fixable =
      (r.fixable || jsTruthyOptStr opts.fix) := by
  unfold addIssue
  cases sev <;> dsimp only <;> split <;> simp_all

theorem coherent_addIssue {r : ValidationResult} (h : Coherent r)
    (sev : Sev) (code msg : String) (opts : IssueOpts) :
    Coherent (addIssue r sev code msg opts) := by
  obtain ⟨he, hw, hi, hv, hf⟩ := h
  have hfixeq : (mkIssueOf ⟨sev, code, msg, opts⟩).fix = opts.fix := rfl
  have hseveq : (mkIssueOf ⟨sev, code, msg, opts⟩).severity = sev := rfl
  refine ⟨?_, ?_, ?_, ?_, ?_⟩
  · rw [addIssue_errors, addIssue_issues, List.filter_append, ← he]
    cases sev <;> simp [mkIssueOf]
  · rw [addIssue_warnings, addIssue_issues, List.filter_append, ← hw]
    cases sev <;> simp [mkIssueOf]
  · rw [addIssue_info, addIssue_issues, List.filter_append, ← hi]
    cases sev <;> simp [mkIssueOf]
  · rw [addIssue_isValid, addIssue_errors]
    cases sev <;> simp [hv]
  · rw [addIssue_fixable, addIssue_issues]
    simp only [Bool.or_eq_true, List.mem_append, List.mem_singleton]
    constructor
    · rintro (hfx | htr)
      · rcases hf.mp hfx with ⟨i, hm, ht⟩
        exact ⟨i, Or.inl hm, ht⟩
      · exact ⟨mkIssueOf ⟨sev, code, msg, opts⟩, Or.inr rfl, by rw [hfixeq]; exact htr⟩
    · rintro ⟨i, hm | hm, ht⟩
      · exact Or.inl (hf.mpr ⟨i, hm, ht⟩)
      · subst hm
        exact Or.inr (by rw [hfixeq] at ht; exact ht)

theorem coherent_runAddIssues {r : ValidationResult} (h : Coherent r) :
    ∀ calls : List AddCall, Coherent (runAddIssues r calls) := by
  intro calls
  induction calls generalizing r with
  | nil => exact h
  | cons c rest ih =>
      exact ih (coherent_addIssue h c.severity c.code c.message c.opts)

theorem runAddIssues_issues (r : ValidationResult) :
    ∀ calls : List AddCall,
      (runAddIssues r calls).issues = r.issues ++ calls.map mkIssueOf := by
  intro calls
  induction calls generalizing r with
  | nil => simp [runAddIssues]
  | cons c rest ih =>
      show (runAddIssues (addIssue r c.severity c.code c.message c.opts) rest).issues = _
      rw [ih, addIssue_issues]
      simp [mkIssueOf]

/-- C10: starting from `createValidationResult` and applying any sequence of
`addIssue` calls, the issues list is exactly the appended issues, the
`errors`/`warnings`/`info` lists partition the issues by severity, `isValid`
holds iff no error was recorded, and `fixable` holds iff some added issue
carried a (truthy) fix hint. -/
theorem C10_addIssue_invariant (calls : List AddCall) :
    (runAddIssues createValidationResult calls).issues = calls.map mkIssueOf ∧
    (runAddIssues createValidationResult calls).errors =
      (runAddIssues createValidationResult calls).issues.filter
        (fun i => i.severity == Sev.error) ∧
    (runAddIssues createValidationResult calls).warnings =
      (runAddIssues createValidationResult calls).issues.filter
        (fun i => i.severity == Sev.warning) ∧
    (runAddIssues createValidationResult calls).info =
      (runAddIssues createValidationResult calls).issues.filter
        (fun i => i.severity == Sev.info) ∧
    ((runAddIssues createValidationResult calls).isValid = true ↔
      (runAddIssues createValidationResult calls).errors = []) ∧
    ((runAddIssues createValidationResult calls).fixable = true ↔
      ∃ c ∈ calls, jsTruthyOptStr c.opts.fix = true) := by
  have hco := coherent_runAddIssues coherent_create calls
  obtain ⟨he, hw, hi, hv, hf⟩ := hco
  have hiss : (runAddIssues createValidationResult calls).issues = calls.map mkIssueOf := by
    simpa [createValidationResult] using runAddIssues_issues createValidationResult calls
  refine ⟨hiss, he, hw, hi, hv, ?_⟩
  rw [hf, hiss]
  constructor
  · rintro ⟨i, hmem, hfix⟩
    rcases List.mem_map.mp hmem with ⟨c, hc, rfl⟩
    exact ⟨c, hc, hfix⟩
  · rintro ⟨c, hc, hfix⟩
    exact ⟨mkIssueOf c, List.mem_map_of_mem _ hc, hfix⟩

/-! ## Claim C5: structural short-circuit codes and fixability -/

/-- A workflow object with a name and an empty nodes array. -/
def c5EmptyW : RawWorkflow :=
  { name := .str "wf", nodes := .arr [], connections := .cmap [],
    active := true, settings := true, id := true }

/-- A workflow object with a name and a truthy non-array nodes value. -/
def c5NonArrW : RawWorkflow :=
  { name := .str "wf", nodes := .truthyNonArray, connections := .cmap [],
    active := true, settings := true, id := true }

/-- C5 counterexample: on a named workflow whose `nodes` is the empty array,
`validateStructure` reports `EMPTY_NODES` as its only error, yet `fixable`
is `true` (the `EMPTY_NODES` issue carries the hint string "Cannot auto-fix
empty workflow", and `addIssue` sets `fixable` for any truthy hint), so the
claim's `fixable = false` is wrong. -/
theorem C5_counterexample :
    (validateStructure (.wf c5EmptyW)).errors.map (·.code) = ["EMPTY_NODES"] ∧
    (validateStructure (.wf c5EmptyW)).fixable = true :=
  ⟨rfl, rfl⟩

/-- C5 amended: for an empty `nodes` array, `validateStructure` reports the
`EMPTY_NODES` error and `fixable` is `true` (its issue carries a fix-hint
string, even though the hint says no auto-fix exists); for a truthy
non-array `nodes` value it reports `INVALID_NODES`, which carries no hint,
so `fixable` is `true` exactly when the preceding name check failed and
added its fixable `MISSING_NAME` issue. -/
theorem C5_amended :
    (∀ w : RawWorkflow, w.nodes = .arr [] →
      (∃ i ∈ (validateStructure (.wf w)).errors, i.code = "EMPTY_NODES") ∧
      (validateStructure (.wf w)).fixable = true) ∧
    (∀ w : RawWorkflow, w.nodes = .truthyNonArray →
      (∃ i ∈ (validateStructure (.wf w)).errors, i.code = "INVALID_NODES") ∧
      ((validateStructure (.wf w)).fixable = true ↔ rNameOk w.name = false)) := by
  constructor
  · intro w hn
    unfold validateStructure
    dsimp only
    rw [hn]
    dsimp only
    rw [if_pos (show ([] : List RawEntry).length = 0 from rfl)]
    constructor
    · refine ⟨mkIssueOf ⟨Sev.error, "EMPTY_NODES", "Workflow must have at least one node",
        { fix := some "Cannot auto-fix empty workflow" }⟩, ?_, rfl⟩
      rw [addIssue_errors]
      simp
    · rw [addIssue_fixable]
      simp [jsTruthyOptStr]
  · intro w hn
    unfold validateStructure
    dsimp only
    rw [hn]
    dsimp only
    constructor
    · refine ⟨mkIssueOf ⟨Sev.error, "INVALID_NODES", "Nodes must be an array", {}⟩, ?_, rfl⟩
      rw [addIssue_errors]
      simp
    · rw [addIssue_fixable]
      by_cases h : rNameOk w.name
      · rw [if_neg (by simp [h])]
        simp [createValidationResult, jsTruthyOptStr, h]
      · rw [if_pos (by simp [h])]
        rw [addIssue_fixable]
        simp [createValidationResult, jsTruthyOptStr, h]

/-- C5 witness: the amended statement applied to the two concrete workflows
above. -/
theorem C5_amended_witness :
    ((∃ i ∈ (validateStructure (.wf c5EmptyW)).errors, i.code = "EMPTY_NODES") ∧
      (validateStructure (.wf c5EmptyW)).fixable = true) ∧
    ((∃ i ∈ (validateStructure (.wf c5NonArrW)).errors, i.code = "INVALID_NODES") ∧
      ((validateStructure (.wf c5NonArrW)).fixable = true ↔
        rNameOk c5NonArrW.name = false)) :=
  ⟨C5_amended.1 c5EmptyW rfl, C5_amended.2 c5NonArrW rfl⟩

/-! ## Claim C9: registry search -/

/-- The claim's search predicate, following the spec's words: the query is
a case-insensitive substring of the display name, the description, or some
keyword. -/
def claimSearchMatch (query : String) (node : NodeDefinition) : Bool :=
  jsIncludes (jsToLower node.displayName) (jsToLower query) ||
  jsIncludes (jsToLower node.description) (jsToLower query) ||
  (node.keywords.getD []).any (fun k => jsIncludes (jsToLower k) (jsToLower query))

/-- The amended search predicate: additionally the type identifier is
matched. -/
def claimSearchMatchAmended (query : String) (node : NodeDefinition) : Bool :=
  jsIncludes (jsToLower node.displayName) (jsToLower query) ||
  (jsIncludes (jsToLower node.description) (jsToLower query) ||
  ((node.keywords.getD []).any (fun k => jsIncludes (jsToLower k) (jsToLower query)) ||
  jsIncludes (jsToLower node.type) (jsToLower query)))

/-- C9 counterexample: for the query "base.start", `searchNodes` returns one
entry (the Start node, matched only through its type identifier
`n8n-nodes-base.start`), while the claim's display-name/description/keyword
filter matches nothing, so `searchNodes` does not return exactly the
claim-matching entries. -/
theorem C9_counterexample :
    (searchNodes "base.start").length = 1 ∧
    (NODE_REGISTRY.filter (claimSearchMatch "base.start")).length = 0 := by
  constructor <;> decide

/-- Every keyword in the registry is already lowercase, which makes the
source's raw-keyword comparison case-insensitive. -/
theorem registry_keywords_lowercase :
    NODE_REGISTRY.all
      (fun n => (n.keywords.getD []).all (fun k => jsToLower k == k)) = true := by
  decide

theorem any_congr_mem {α : Type} {l : List α} {f g : α → Bool}
    (h : ∀ x ∈ l, f x = g x) : l.any f = l.any g := by
  induction l with
  | nil => rfl
  | cons x xs ih =>
      simp only [List.any_cons]
      rw [h x (List.mem_cons_self x xs), ih (fun y hy => h y (List.mem_cons_of_mem x hy))]

/-- C9 amended: for every query, `searchNodes` returns exactly the registry
entries (in declaration order, as `filter` preserves it) whose display
name, description, some keyword, or type identifier contains the query as a
case-insensitive substring. -/
theorem C9_amended (q : String) :
    searchNodes q = NODE_REGISTRY.filter (claimSearchMatchAmended q) := by
  unfold searchNodes claimSearchMatchAmended
  apply List.filter_congr
  intro node hmem
  have hall := List.all_eq_true.mp registry_keywords_lowercase node hmem
  have hk : ∀ k ∈ node.keywords.getD [], jsToLower k = k := by
    intro k hkmem
    exact eq_of_beq (List.all_eq_true.mp hall k hkmem)
  have hany :
      (node.keywords.getD []).any (fun k => jsIncludes k (jsToLower q)) =
      (node.keywords.getD []).any (fun k => jsIncludes (jsToLower k) (jsToLower q)) := by
    apply any_congr_mem
    intro k hkmem
    rw [hk k hkmem]
  rw [hany]
  simp only [Bool.or_assoc]

/-! ## Claim C1: the full validator on malformed node entries -/

/-- A workflow document whose nodes array contains a single `null` entry:
its structural validation yields only the non-critical `INVALID_NODE`
error, so `validateWorkflow` proceeds to the graph analyzer, which reads
`node.type` of `null` and throws. -/
def c1Workflow : RawInput := .wf
  { name := .str "wf",
    nodes := .arr [.nullish],
    connections := .cmap [],
    active := true, settings := true, id := true }

/-- C1: evaluation at the failing input.  The structure validator reports no
critical code (so the aggregator does not short-circuit), yet
`validateWorkflow` throws a `TypeError` instead of returning a
`ValidationResult` — the failed check is not reported as a typed issue. -/
theorem C1_validateWorkflow_throws :
    hasCriticalErrors (validateStructure c1Workflow) = false ∧
    (match validateWorkflowE c1Workflow with
     | .error e => some e
     | .ok _ => none) =
      some (.typeError "Cannot read properties of null (reading 'type')") := by
  constructor <;> decide

/-! ## Claim C3: idempotence of the processing pass -/

/-- An arbitrary fixed stream standing for `Math.random()` draws (the
counterexample never draws from it). -/
def c3Stream : Nat → String := fun _ => "r4nd0m"

/-- A SendGrid node whose `operation` is `"get"`: its required `to`,
`subject` and `content` parameters have declared default `''`, which the
generic fill loop writes and counts on every pass, while the email-specific
filler (guarded by `operation === 'send' || undefined`) never overwrites
them with nonempty placeholders. -/
def c3Workflow : TWorkflow :=
  { name := "wf", id := "w1",
    nodes := [
      { id := "n1", name := "SendGrid", type := "n8n-nodes-base.sendGrid",
        typeVersion := 1, position := (0, 300),
        parameters := .fcons "operation" (.pstr "get") .fnil }],
    connections := [] }

/-- C3: evaluation at the failing input.  The first `process(w, true)` call
reports 4 changes; feeding its mutated output into a second call reports
`totalChanges = 3` (the empty-string defaults of `to`, `subject` and
`content` are re-written and re-counted), not the 0 the claim requires. -/
theorem C3_second_process_counts_changes :
    (match processWorkflowT c3Stream c3Workflow true with
     | .ok (rep1, w1) =>
         (match processWorkflowT c3Stream w1 true with
          | .ok (rep2, _) => some (rep1.totalChanges, rep2.totalChanges)
          | .error _ => none)
     | .error _ => none) = some (4, 3) := by
  decide

/-! ## Claim C8: idempotence of addConnection -/

/-- Whether a `(source, slot, target)` triple is present at any parallel
group index of the slot. -/
def hasTripleAnyGroup (conns : CMap) (s slot t : String) : Bool :=
  match jmGet conns s with
  | none => false
  | some outs =>
      match jmGet outs slot with
      | none => false
      | some groups => groups.any (fun g => g.any (·.node = t))

/-- A workflow whose only connection entry holds the target `b` in parallel
group index 1 of slot `main`, with group 0 empty. -/
def c8Workflow : TWorkflow :=
  { name := "wf", id := "w1",
    nodes := [
      { id := "a", name := "A", type := "n8n-nodes-base.noOp", typeVersion := 1,
        position := (0, 300), parameters := .fnil },
      { id := "b", name := "B", type := "n8n-nodes-base.noOp", typeVersion := 1,
        position := (100, 300), parameters := .fnil }],
    connections := [("a", [("main", [[], [{ node := "b", type := "main" }]])])] }

/-- C8 counterexample: the triple `(a, main, b)` is already present (at
parallel group index 1), yet `addConnection` — which only consults group
index 0 — pushes a duplicate into group 0 and changes the map. -/
theorem C8_counterexample :
    hasTripleAnyGroup c8Workflow.connections "a" "main" "b" = true ∧
    (match addConnectionE c8Workflow "a" "b" "main" with
     | .ok w' => w'.connections
     | .error _ => []) ≠ c8Workflow.connections := by
  constructor <;> decide

/-- C8 amended: re-adding a `(source, slot, target)` triple that is present
in the FIRST parallel group (index 0) of that slot leaves the workflow
unchanged. -/
theorem C8_amended (w : TWorkflow) (s slot t : String) (outs : OutMap)
    (groups : List (List CConn)) (g0 : List CConn)
    (h1 : jmGet w.connections s = some outs)
    (h2 : jmGet outs slot = some groups)
    (h3 : groups.head? = some g0)
    (h4 : g0.any (·.node = t) = true) :
    addConnectionE w s t slot = .ok w := by
  obtain ⟨rest, rfl⟩ : ∃ rest, groups = g0 :: rest := by
    cases groups with
    | nil => simp at h3
    | cons x xs => exact ⟨xs, by simpa using (by simpa using h3 : x = g0) ▸ rfl⟩
  unfold addConnectionE
  simp only [h1, Option.isSome_some, if_true, Option.getD_some, h2, h4]

/-- C8 witness: the amended statement applied to a concrete workflow whose
`main` slot holds the target in group 0. -/
def c8Workflow0 : TWorkflow :=
  { name := "wf", id := "w1",
    nodes := [
      { id := "a", name := "A", type := "n8n-nodes-base.noOp", typeVersion := 1,
        position := (0, 300), parameters := .fnil },
      { id := "b", name := "B", type := "n8n-nodes-base.noOp", typeVersion := 1,
        position := (100, 300), parameters := .fnil }],
    connections := [("a", [("main", [[{ node := "b", type := "main" }]])])] }

theorem C8_amended_witness :
    addConnectionE c8Workflow0 "a" "b" "main" = .ok c8Workflow0 :=
  C8_amended c8Workflow0 "a" "main" "b"
    [("main", [[{ node := "b", type := "main" }]])]
    [[{ node := "b", type := "main" }]]
    [{ node := "b", type := "main" }]
    (by decide) (by decide) (by decide) (by decide)

/-! ## Issue-extension: every validator only appends issues

`ExtIss r r'` states that `r'` is `r` after some sequence of `addIssue`
calls; validator outputs therefore inherit coherence from
`createValidationResult`. -/

/-- Extension of a validation result by `addIssue` calls. -/
def ExtIss (r r' : ValidationResult) : Prop :=
  ∃ calls, r' = runAddIssues r calls

theorem ExtIss.refl (r : ValidationResult) : ExtIss r r := ⟨[], rfl⟩

theorem ExtIss.trans {r1 r2 r3 : ValidationResult} (h1 : ExtIss r1 r2)
    (h2 : ExtIss r2 r3) : ExtIss r1 r3 := by
  obtain ⟨a, rfl⟩ := h1
  obtain ⟨b, rfl⟩ := h2
  exact ⟨a ++ b, by simp [runAddIssues, List.foldl_append]⟩

theorem ExtIss.snoc {r r' : ValidationResult} (h : ExtIss r r')
    {sev : Sev} {c m : String} {o : IssueOpts} : ExtIss r (addIssue r' sev c m o) := by
  obtain ⟨a, rfl⟩ := h
  exact ⟨a ++ [⟨sev, c, m, o⟩], by simp [runAddIssues, List.foldl_append]⟩

theorem coherent_of_extIss {r r' : ValidationResult} (h : Coherent r)
    (he : ExtIss r r') : Coherent r' := by
  obtain ⟨a, rfl⟩ := he
  exact coherent_runAddIssues h a

theorem foldl_extIss {β : Type} {f : ValidationResult → β → ValidationResult}
    (hf : ∀ r x, ExtIss r (f r x)) :
    ∀ (l : List β) (r : ValidationResult), ExtIss r (l.foldl f r) := by
  intro l
  induction l with
  | nil => intro r; exact ExtIss.refl r
  | cons x xs ih => intro r; exact (hf r x).trans (ih (f r x))

theorem foldlM_extIss {β : Type} {f : ValidationResult → β → Except JsErr ValidationResult}
    (hf : ∀ r x r', f r x = .ok r' → ExtIss r r') :
    ∀ (l : List β) (r r' : ValidationResult), l.foldlM f r = .ok r' → ExtIss r r' := by
  intro l
  induction l with
  | nil =>
      intro r r' h
      simp only [List.foldlM_nil, pure, Except.pure] at h
      cases h
      exact ExtIss.refl r
  | cons x xs ih =>
      intro r r' h
      rw [List.foldlM_cons] at h
      cases hx : f r x with
      | error e => rw [hx] at h; exact absurd h (by simp [Except.bind, Bind.bind])
      | ok r1 =>
          rw [hx] at h
          have h2 : xs.foldlM f r1 = .ok r' := by
            simpa [Bind.bind, Except.bind] using h
          exact (hf r x r1 hx).trans (ih r1 r' h2)

theorem extIss_validateParameterType (nodeName nodeId : Option String)
    (paramDef : NodeParameter) (value : PVal) (r : ValidationResult) :
    ExtIss r (validateParameterType nodeName nodeId paramDef value r) := by
  unfold validateParameterType
  repeat' first
    | exact ExtIss.refl r
    | apply ExtIss.snoc
    | split
    | dsimp only

theorem extIss_checkHttpRequest (node : RawNode) (fields : PFields)
    (r : ValidationResult) : ExtIss r (checkHttpRequest node fields r) := by
  unfold checkHttpRequest
  repeat' first
    | exact ExtIss.refl r
    | apply ExtIss.snoc
    | split
    | dsimp only

theorem extIss_checkWebhookPath (node : RawNode) (fields : PFields)
    (r : ValidationResult) : ExtIss r (checkWebhookPath node fields r) := by
  unfold checkWebhookPath
  repeat' first
    | exact ExtIss.refl r
    | apply ExtIss.snoc
    | split
    | dsimp only

theorem extIss_checkEmailNode (node : RawNode) (fields : PFields)
    (r : ValidationResult) : ExtIss r (checkEmailNode node fields r) := by
  unfold checkEmailNode
  repeat' first
    | exact ExtIss.refl r
    | apply ExtIss.snoc
    | split
    | dsimp only

theorem extIss_checkGoogleSheets (node : RawNode) (fields : PFields)
    (r : ValidationResult) : ExtIss r (checkGoogleSheets node fields r) := by
  unfold checkGoogleSheets
  repeat' first
    | exact ExtIss.refl r
    | apply ExtIss.snoc
    | split
    | dsimp only

theorem extIss_checkSlackNode (node : RawNode) (fields : PFields)
    (r : ValidationResult) : ExtIss r (checkSlackNode node fields r) := by
  unfold checkSlackNode
  repeat' first
    | exact ExtIss.refl r
    | apply ExtIss.snoc
    | split
    | dsimp only

theorem extIss_checkIfNode (node : RawNode) (fields : PFields)
    (r : ValidationResult) : ExtIss r (checkIfNode node fields r) := by
  unfold checkIfNode
  repeat' first
    | exact ExtIss.refl r
    | apply ExtIss.snoc
    | split
    | dsimp only

theorem extIss_checkCodeNode (node : RawNode) (fields : PFields)
    (r : ValidationResult) : ExtIss r (checkCodeNode node fields r) := by
  unfold checkCodeNode
  repeat' first
    | exact ExtIss.refl r
    | apply ExtIss.snoc
    | split
    | dsimp only

theorem extIss_validateSpecificNodeTypes (node : RawNode) (fields : PFields)
    (r : ValidationResult) : ExtIss r (validateSpecificNodeTypes node fields r) := by
  unfold validateSpecificNodeTypes
  exact ((((((extIss_checkHttpRequest node fields r).trans
    (extIss_checkWebhookPath node fields _)).trans
    (extIss_checkEmailNode node fields _)).trans
    (extIss_checkGoogleSheets node fields _)).trans
    (extIss_checkSlackNode node fields _)).trans
    (extIss_checkIfNode node fields _)).trans
    (extIss_checkCodeNode node fields _)

theorem extIss_validateNodeParameters (node : RawNode) (nodeDef : NodeDefinition)
    (r : ValidationResult) : ExtIss r (validateNodeParameters node nodeDef r) := by
  unfold validateNodeParameters
  split
  case h_1 fields heq =>
    dsimp only
    refine ExtIss.trans (ExtIss.trans ?_ (foldl_extIss ?_ _ _))
      (extIss_validateSpecificNodeTypes node fields _)
    · split
      · exact (ExtIss.refl r).snoc
      · exact ExtIss.refl r
    · intro r' paramDef
      repeat' first
        | exact ExtIss.refl r'
        | apply ExtIss.snoc
        | apply extIss_validateParameterType
        | split
        | dsimp only
  case h_2 =>
    exact (ExtIss.refl r).snoc

theorem extIss_validateSingleNode (node : RawNode) (r : ValidationResult) :
    ExtIss r (validateSingleNode node r) := by
  unfold validateSingleNode
  split
  · exact (ExtIss.refl r).snoc
  · split
    · exact (extIss_validateNodeParameters node _ r).snoc
    · exact extIss_validateNodeParameters node _ r

theorem coherent_validateNodesE (w : RawWorkflow) (r : ValidationResult)
    (h : validateNodesE w = .ok r) : Coherent r := by
  unfold validateNodesE at h
  split at h
  case h_1 entries heq =>
    refine coherent_of_extIss coherent_create (foldlM_extIss ?_ entries _ r h)
    intro r' e r'' hstep
    cases e with
    | nullish => exact absurd hstep (by simp)
    | prim =>
        simp only [Except.ok.injEq] at hstep
        subst hstep
        exact extIss_validateSingleNode {} r'
    | obj n =>
        simp only [Except.ok.injEq] at hstep
        subst hstep
        exact extIss_validateSingleNode n r'
  case h_2 => exact absurd h (by simp)

set_option maxHeartbeats 2000000 in
theorem extIss_validateNodeStruct (e : RawEntry) (idx : Nat)
    (st : ValidationResult × List String) :
    ExtIss st.1 (validateNodeStruct e idx st).1 := by
  unfold validateNodeStruct
  cases e <;>
    repeat' first
      | exact ExtIss.refl st.1
      | apply ExtIss.snoc
      | split
      | dsimp only

theorem extIss_validateNodesLoop (entries : List RawEntry) :
    ∀ (start : Nat) (st : ValidationResult × List String),
      ExtIss st.1 (validateNodesLoop entries start st).1 := by
  induction entries with
  | nil => intro start st; exact ExtIss.refl st.1
  | cons e rest ih =>
      intro start st
      exact (extIss_validateNodeStruct e start st).trans
        (ih (start + 1) (validateNodeStruct e start st))

set_option maxHeartbeats 2000000 in
theorem coherent_validateStructure (input : RawInput) :
    Coherent (validateStructure input) := by
  unfold validateStructure
  cases input with
  | notObject => exact coherent_of_extIss coherent_create (ExtIss.refl _).snoc
  | wf w =>
      dsimp only
      refine coherent_of_extIss coherent_create ?_
      have hbase : ExtIss createValidationResult
          (if ¬ rNameOk w.name = true then
            addIssue createValidationResult .error "MISSING_NAME"
              "Workflow must have a name property"
              { fix := some "Add default workflow name" }
          else createValidationResult) := by
        split
        · exact (ExtIss.refl _).snoc
        · exact ExtIss.refl _
      cases w.nodes with
      | missing => exact hbase.snoc
      | falsyPrim => exact hbase.snoc
      | truthyNonArray => exact hbase.snoc
      | arr nodes =>
          dsimp only
          split
          · exact hbase.snoc
          · refine ExtIss.trans ?_ (extIss_validateNodesLoop nodes 0 _)
            refine hbase.trans ?_
            repeat' first
              | exact ExtIss.refl _
              | apply ExtIss.snoc
              | split
              | dsimp only

theorem extIss_validateConnectionReferencesE (w : RawWorkflow)
    (ids : List (Option String)) (entries : List RawEntry)
    (r r' : ValidationResult)
    (h : validateConnectionReferencesE w ids entries r = .ok r') : ExtIss r r' := by
  unfold validateConnectionReferencesE at h
  split at h
  · cases h; exact ExtIss.refl _
  · cases h; exact ExtIss.refl _
  · split at h
    · cases h; exact ExtIss.refl _
    · refine foldlM_extIss ?_ _ _ _ h
      intro r1 i r2 hstep
      dsimp only at hstep
      split at hstep
      · exact absurd hstep (by simp)
      · simp only [Except.ok.injEq] at hstep
        subst hstep
        exact (ExtIss.refl _).snoc
  · refine foldlM_extIss ?_ _ _ _ h
    intro r1 entry r2 hstep
    dsimp only at hstep
    split at hstep
    · simp only [Except.ok.injEq] at hstep
      subst hstep
      exact (ExtIss.refl _).snoc
    · refine foldlM_extIss ?_ _ _ _ hstep
      intro r3 slotEntry r4 hstep2
      refine foldlM_extIss ?_ _ _ _ hstep2
      intro r5 group r6 hstep3
      refine foldlM_extIss ?_ _ _ _ hstep3
      intro r7 conn r8 hstep4
      split at hstep4
      · cases hfind : rFindNodeById entries (some entry.1) with
        | error e =>
            rw [hfind] at hstep4
            exact absurd hstep4 (by simp [Bind.bind, Except.bind])
        | ok node =>
            rw [hfind] at hstep4
            simp only [Bind.bind, Except.bind, pure, Except.pure, Except.ok.injEq] at hstep4
            subst hstep4
            exact (ExtIss.refl _).snoc
      · simp only [pure, Except.pure, Except.ok.injEq] at hstep4
        subst hstep4
        exact ExtIss.refl _

theorem except_bind_ok {α β : Type} {x : Except JsErr α} {f : α → Except JsErr β}
    {b : β} (h : x >>= f = .ok b) : ∃ a, x = .ok a ∧ f a = .ok b := by
  cases x with
  | error e => exact absurd h (by simp [Bind.bind, Except.bind])
  | ok a => exact ⟨a, rfl, by simpa [Bind.bind, Except.bind] using h⟩

theorem coherent_validateGraphE (w : RawWorkflow) (r : ValidationResult)
    (h : validateGraphE w = .ok r) : Coherent r := by
  unfold validateGraphE at h
  obtain ⟨analysis, ha, h⟩ := except_bind_ok h
  try dsimp only at h
  obtain ⟨rA, hA, h⟩ := except_bind_ok h
  try dsimp only at h
  obtain ⟨rB, hB, h⟩ := except_bind_ok h
  try dsimp only at h
  obtain ⟨ids, hIds, h⟩ := except_bind_ok h
  try dsimp only at h
  obtain ⟨rC, hC, h⟩ := except_bind_ok h
  try dsimp only at h
  simp only [Except.ok.injEq] at h
  subst h
  refine coherent_of_extIss coherent_create ?_
  have hEA : ExtIss createValidationResult rA := by
    refine ExtIss.trans ?_ (foldlM_extIss ?_ _ _ _ hA)
    · split
      · exact (ExtIss.refl _).snoc
      · exact ExtIss.refl _
    · intro r1 x r2 hstep
      obtain ⟨node, hf, hstep⟩ := except_bind_ok hstep
      try dsimp only at hstep
      simp only [pure, Except.pure, Except.ok.injEq] at hstep
      subst hstep
      exact (ExtIss.refl _).snoc
  have hEB : ExtIss rA rB := by
    refine foldlM_extIss ?_ _ _ _ hB
    intro r1 x r2 hstep
    obtain ⟨node, hf, hstep⟩ := except_bind_ok hstep
    try dsimp only at hstep
    simp only [pure] at hstep
    repeat split at hstep
    all_goals cases hstep
    all_goals first
      | exact ExtIss.refl _
      | exact (ExtIss.refl _).snoc
  have hEC : ExtIss rB rC :=
    extIss_validateConnectionReferencesE w ids _ rB rC hC
  refine ((hEA.trans hEB).trans hEC).trans ?_
  refine ExtIss.trans ?_ (foldl_extIss (fun r1 missing => (ExtIss.refl r1).snoc) _ _)
  split
  · exact (ExtIss.refl _).snoc
  · exact ExtIss.refl _

/-! ## Claim C7: the validator orchestration -/

/-- Merging coherent results yields a coherent result. -/
theorem coherent_combine {s g n : ValidationResult} (hs : Coherent s)
    (hg : Coherent g) (hn : Coherent n) : Coherent (combineResults s g n) := by
  obtain ⟨hs1, hs2, hs3, hs4, hs5⟩ := hs
  obtain ⟨hg1, hg2, hg3, hg4, hg5⟩ := hg
  obtain ⟨hn1, hn2, hn3, hn4, hn5⟩ := hn
  refine ⟨?_, ?_, ?_, ?_, ?_⟩
  · simp [combineResults, hs1, hg1, hn1, List.filter_append]
  · simp [combineResults, hs2, hg2, hn2, List.filter_append]
  · simp [combineResults, hs3, hg3, hn3, List.filter_append]
  · simp [combineResults, List.length_eq_zero]
  · simp only [combineResults, Bool.or_eq_true, hs5, hg5, hn5, List.mem_append]
    constructor
    · rintro ((⟨i, hi, ht⟩ | ⟨i, hi, ht⟩) | ⟨i, hi, ht⟩)
      · exact ⟨i, Or.inl (Or.inl hi), ht⟩
      · exact ⟨i, Or.inl (Or.inr hi), ht⟩
      · exact ⟨i, Or.inr hi, ht⟩
    · rintro ⟨i, (hi | hi) | hi, ht⟩
      · exact Or.inl (Or.inl ⟨i, hi, ht⟩)
      · exact Or.inl (Or.inr ⟨i, hi, ht⟩)
      · exact Or.inr ⟨i, hi, ht⟩

/-- A workflow whose second nodes entry is null: the structure validator
reports only the non-critical INVALID_NODE code, so the orchestrator
continues into graph analysis, which dereferences the null entry. -/
def c7BadW : RawWorkflow :=
  { name := .str "bad", nodes := .arr [.obj
      { id := some "s1", name := some "Start", type := some "n8n-nodes-base.start",
        typeVersion := some 1, position := some [0, 0], parameters := some (.pobj .fnil) },
      .nullish],
    connections := .cmap [], active := true, settings := true, id := true }

/-- C7 counterexample: on `c7BadW` the structural result carries no critical
code, so by the claim `validateWorkflow` should return the union of the three
validators' issues; instead the graph validator throws a `TypeError` on the
null nodes entry and nothing is returned at all. -/
theorem C7_counterexample :
    hasCriticalErrors (validateStructure (.wf c7BadW)) = false ∧
    validateWorkflowE (.wf c7BadW) =
      .error (.typeError "Cannot read properties of null (reading \x27type\x27)") :=
  ⟨by decide, rfl⟩

/-- C7 (amended): if the structural result carries one of the four critical
codes, `validateWorkflow` returns it unchanged (graph and node checks do not
run).  Otherwise, provided the graph and node validators return normally
(they can throw on malformed node entries, see C1), the orchestrator returns
the union of the three results: concatenated issue, error, warning and info
lists, `isValid` true iff the combined error list is empty, `fixable` the
disjunction of the three contributing flags, and the result coherent. -/
theorem C7_amended :
    (∀ input : RawInput, hasCriticalErrors (validateStructure input) = true →
      validateWorkflowE input = .ok (validateStructure input)) ∧
    (∀ (w : RawWorkflow) (g n : ValidationResult),
      hasCriticalErrors (validateStructure (.wf w)) = false →
      validateGraphE w = .ok g → validateNodesE w = .ok n →
      ∃ r, validateWorkflowE (.wf w) = .ok r ∧
        r.issues = (validateStructure (.wf w)).issues ++ g.issues ++ n.issues ∧
        r.errors = (validateStructure (.wf w)).errors ++ g.errors ++ n.errors ∧
        r.warnings = (validateStructure (.wf w)).warnings ++ g.warnings ++ n.warnings ∧
        r.info = (validateStructure (.wf w)).info ++ g.info ++ n.info ∧
        (r.isValid = true ↔ r.errors = []) ∧
        r.fixable = ((validateStructure (.wf w)).fixable || g.fixable || n.fixable) ∧
        Coherent r) := by
  constructor
  · intro input h
    have hne : 0 < (validateStructure input).errors.length := by
      rcases List.any_eq_true.mp h with ⟨e, he, _⟩
      exact List.length_pos.mpr (List.ne_nil_of_mem he)
    unfold validateWorkflowE
    dsimp only
    rw [if_pos (by simp [h, hne])]
  · intro w g n hcrit hg hn
    refine ⟨combineResults (validateStructure (.wf w)) g n, ?_, rfl, rfl, rfl, rfl,
      ?_, rfl, coherent_combine (coherent_validateStructure (.wf w))
        (coherent_validateGraphE w g hg) (coherent_validateNodesE w n hn)⟩
    · unfold validateWorkflowE
      dsimp only
      rw [if_neg (by simp [hcrit])]
      rw [hg]
      simp only [Bind.bind, Except.bind]
      rw [hn]
    · simp [combineResults, List.length_eq_zero]

/-- The graph validator's concrete result on `c7OkW`: the lone trigger node
has no connections, so it is reported orphaned. -/
def c7OrphIssue : ValidationIssue :=
  { severity := Sev.error, code := "ORPHANED_NODE",
    message := "Node \"Start\" is not connected to any other node",
    nodeId := some "s1", nodeName := some "Start",
    fix := some "Connect node to workflow" }

/-- A well-formed one-trigger workflow exercising the amended claim. -/
def c7OkW : RawWorkflow :=
  { name := .str "ok", nodes := .arr [.obj
      { id := some "s1", name := some "Start", type := some "n8n-nodes-base.start",
        typeVersion := some 1, position := some [0, 0], parameters := some (.pobj .fnil) }],
    connections := .cmap [], active := true, settings := true, id := true }

def c7g : ValidationResult :=
  { isValid := false, issues := [c7OrphIssue], errors := [c7OrphIssue],
    warnings := [], info := [], fixable := true }

/-- An empty-nodes workflow exercising the critical branch of the amended
claim. -/
def c7CritW : RawWorkflow :=
  { name := .str "crit", nodes := .arr [], connections := .cmap [],
    active := true, settings := true, id := true }

theorem C7_amended_witness :
    (∃ r, validateWorkflowE (.wf c7OkW) = .ok r ∧
        r.issues = (validateStructure (.wf c7OkW)).issues ++ c7g.issues ++
          createValidationResult.issues ∧
        r.errors = (validateStructure (.wf c7OkW)).errors ++ c7g.errors ++
          createValidationResult.errors ∧
        r.warnings = (validateStructure (.wf c7OkW)).warnings ++ c7g.warnings ++
          createValidationResult.warnings ∧
        r.info = (validateStructure (.wf c7OkW)).info ++ c7g.info ++
          createValidationResult.info ∧
        (r.isValid = true ↔ r.errors = []) ∧
        r.fixable = ((validateStructure (.wf c7OkW)).fixable || c7g.fixable ||
          createValidationResult.fixable) ∧
        Coherent r) ∧
    validateWorkflowE (.wf c7CritW) = .ok (validateStructure (.wf c7CritW)) :=
  ⟨C7_amended.2 c7OkW c7g createValidationResult (by decide) rfl rfl,
   C7_amended.1 (.wf c7CritW) (by decide)⟩

/-! ## Claim C2: dangling-reference soundness of the connection fixer -/

/-- All slots of an output map reference only the given ids. -/
def OutsOk (ids : List String) (outs : OutMap) : Prop :=
  ∀ se ∈ outs, ∀ g ∈ se.2, ∀ c ∈ g, c.node ∈ ids

/-- Every source key and every target reference of the connection map names
one of the given ids. -/
def ConnOk (ids : List String) (conns : CMap) : Prop :=
  ∀ e ∈ conns, e.1 ∈ ids ∧ OutsOk ids e.2

theorem jsSortInsert_mem {α : Type} (le : α → α → Bool) (x : α) (l : List α)
    (a : α) : a ∈ jsSortInsert le x l ↔ a = x ∨ a ∈ l := by
  induction l with
  | nil => simp [jsSortInsert]
  | cons y ys ih =>
      simp only [jsSortInsert]
      split
      · simp [List.mem_cons]
      · simp only [List.mem_cons, ih]
        tauto

theorem jsStableSort_mem {α : Type} (le : α → α → Bool) (l : List α) (a : α) :
    a ∈ jsStableSort le l ↔ a ∈ l := by
  induction l with
  | nil => simp [jsStableSort]
  | cons x xs ih => simp [jsStableSort, jsSortInsert_mem, ih]

theorem jmGet_mem {α β : Type} [DecidableEq α] {m : List (α × β)} {k : α}
    {v : β} (h : jmGet m k = some v) : (k, v) ∈ m := by
  unfold jmGet at h
  cases hf : m.find? (·.1 = k) with
  | none => rw [hf] at h; cases h
  | some p =>
      rw [hf] at h
      have hm := List.mem_of_find?_eq_some hf
      have hk : p.1 = k := by
        have := List.find?_some hf
        simpa using this
      obtain ⟨p1, p2⟩ := p
      simp only [Option.map_some'] at h
      cases hk
      cases h
      exact hm

theorem jmSet_mem {α β : Type} [DecidableEq α] {m : List (α × β)} {k : α}
    {v : β} {e : α × β} (h : e ∈ jmSet m k v) : e = (k, v) ∨ e ∈ m := by
  unfold jmSet at h
  split at h
  · rcases List.mem_map.mp h with ⟨p, hp, he⟩
    by_cases hk : p.1 = k
    · rw [if_pos hk] at he
      exact Or.inl he.symm
    · rw [if_neg hk] at he
      exact Or.inr (he ▸ hp)
  · rcases List.mem_append.mp h with h | h
    · exact Or.inr h
    · simp only [List.mem_singleton] at h
      exact Or.inl h

theorem headOptMem {α : Type} {l : List α} {a : α} (h : l.head? = some a) :
    a ∈ l := by
  cases l with
  | nil => cases h
  | cons x xs =>
      cases h
      exact List.mem_cons_self _ _

theorem findNext_mem {w : TWorkflow} {n nx : TNode}
    (h : findNextNodeByPosition w n = some nx) : nx ∈ w.nodes := by
  unfold findNextNodeByPosition at h
  try dsimp only at h
  have h2 := headOptMem h
  rw [jsStableSort_mem] at h2
  exact List.mem_of_mem_filter h2

theorem findPrev_mem {w : TWorkflow} {n nx : TNode}
    (h : findPreviousNodeByPosition w n = some nx) : nx ∈ w.nodes := by
  unfold findPreviousNodeByPosition at h
  try dsimp only at h
  have h2 := headOptMem h
  rw [jsStableSort_mem] at h2
  exact List.mem_of_mem_filter h2

theorem exceptPureOk {α : Type} {x y : α}
    (h : (pure x : Except JsErr α) = .ok y) : x = y := by
  simpa [pure, Except.pure] using h

theorem foldlM_inv {α β : Type} {P : β → Prop} {f : β → α → Except JsErr β}
    (hf : ∀ b a b_, P b → f b a = .ok b_ → P b_) :
    ∀ (l : List α) (b b_ : β), l.foldlM f b = .ok b_ → P b → P b_ := by
  intro l
  induction l with
  | nil =>
      intro b b_ h hP
      simp only [List.foldlM_nil, pure, Except.pure] at h
      cases h
      exact hP
  | cons x xs ih =>
      intro b b_ h hP
      rw [List.foldlM_cons] at h
      obtain ⟨b1, h1, h2⟩ := except_bind_ok h
      exact ih b1 b_ h2 (hf b x b1 hP h1)

theorem rmFilterGroup_mem {s : String} {ids : List String} (g : List CConn) :
    ∀ (rep : ConnectionFixReport) (c : CConn),
      c ∈ (rmFilterGroup s ids g rep).1 → c.node ∈ ids := by
  induction g with
  | nil =>
      intro rep c h
      exact absurd h (List.not_mem_nil c)
  | cons x rest ih =>
      intro rep c h
      unfold rmFilterGroup at h
      by_cases hx : x.node ∈ ids
      · rw [if_pos hx] at h
        rcases hrec : rmFilterGroup s ids rest rep with ⟨kept, rep2⟩
        rw [hrec] at h
        try dsimp only at h
        rcases List.mem_cons.mp h with rfl | h2
        · exact hx
        · exact ih rep c (by rw [hrec]; exact h2)
      · rw [if_neg hx] at h
        try dsimp only at h
        exact ih _ c h

theorem rmGroups_mem {s : String} {ids : List String} (gs : List (List CConn)) :
    ∀ (rep : ConnectionFixReport) (g : List CConn) (c : CConn),
      g ∈ (rmGroups s ids gs rep).1 → c ∈ g → c.node ∈ ids := by
  induction gs with
  | nil =>
      intro rep g c h hc
      exact absurd h (List.not_mem_nil g)
  | cons g0 gs ih =>
      intro rep g c h hc
      unfold rmGroups at h
      rcases h1 : rmFilterGroup s ids g0 rep with ⟨g_, rep1⟩
      rw [h1] at h
      try dsimp only at h
      rcases h2 : rmGroups s ids gs rep1 with ⟨gs_, rep2⟩
      rw [h2] at h
      try dsimp only at h
      rcases List.mem_cons.mp h with rfl | h3
      · exact rmFilterGroup_mem g0 rep c (by rw [h1]; exact hc)
      · exact ih rep1 g c (by rw [h2]; exact h3) hc

theorem rmOuts_mem {s : String} {ids : List String} (outs : OutMap) :
    ∀ (rep : ConnectionFixReport), OutsOk ids (rmOuts s ids outs rep).1 := by
  induction outs with
  | nil =>
      intro rep se hse
      exact absurd hse (List.not_mem_nil se)
  | cons e rest ih =>
      obtain ⟨slot, gs⟩ := e
      intro rep se hse
      unfold rmOuts at hse
      rcases h1 : rmGroups s ids gs rep with ⟨gs_, rep1⟩
      rw [h1] at hse
      dsimp only at hse
      rcases h2 : rmOuts s ids rest rep1 with ⟨rest_, rep2⟩
      rw [h2] at hse
      dsimp only at hse
      rcases List.mem_cons.mp hse with rfl | h3
      · intro g hg c hc
        exact rmGroups_mem gs rep g c (by rw [h1]; exact hg) hc
      · intro g hg c hc
        exact ih rep1 se (by rw [h2]; exact h3) g hg c hc

theorem rmPhase1_mem {ids : List String} (conns : CMap) :
    ∀ (rep : ConnectionFixReport) (e : String × OutMap),
      e ∈ (rmPhase1 ids conns rep).1 → e.1 ∈ ids → OutsOk ids e.2 := by
  induction conns with
  | nil =>
      intro rep e h hid
      exact absurd h (List.not_mem_nil e)
  | cons p rest ih =>
      obtain ⟨s, outs⟩ := p
      intro rep e h hid
      unfold rmPhase1 at h
      by_cases hs : s ∈ ids
      · rw [if_pos hs] at h
        rcases h1 : rmOuts s ids outs rep with ⟨outs_, rep1⟩
        rw [h1] at h
        try dsimp only at h
        rcases h2 : rmPhase1 ids rest rep1 with ⟨rest_, rep2⟩
        rw [h2] at h
        try dsimp only at h
        rcases List.mem_cons.mp h with rfl | h3
        · have ho := @rmOuts_mem s ids outs rep
          rw [h1] at ho
          exact ho
        · exact ih rep1 e (by rw [h2]; exact h3) hid
      · rw [if_neg hs] at h
        rcases h2 : rmPhase1 ids rest rep with ⟨rest_, rep2⟩
        rw [h2] at h
        try dsimp only at h
        rcases List.mem_cons.mp h with rfl | h3
        · exact absurd hid hs
        · exact ih rep e (by rw [h2]; exact h3) hid

theorem rmPhase2_mem {ids : List String} (conns : CMap) :
    ∀ (rep : ConnectionFixReport) (e : String × OutMap),
      e ∈ (rmPhase2 ids conns rep).1 → e.1 ∈ ids ∧ e ∈ conns := by
  induction conns with
  | nil =>
      intro rep e h
      exact absurd h (List.not_mem_nil e)
  | cons p rest ih =>
      obtain ⟨s, outs⟩ := p
      intro rep e h
      unfold rmPhase2 at h
      by_cases hs : s ∈ ids
      · rw [if_pos hs] at h
        rcases h2 : rmPhase2 ids rest rep with ⟨rest_, rep2⟩
        rw [h2] at h
        try dsimp only at h
        rcases List.mem_cons.mp h with rfl | h3
        · exact ⟨hs, List.mem_cons_self _ _⟩
        · obtain ⟨ha, hb⟩ := ih rep e (by rw [h2]; exact h3)
          exact ⟨ha, List.mem_cons_of_mem _ hb⟩
      · rw [if_neg hs] at h
        try dsimp only at h
        obtain ⟨ha, hb⟩ := ih _ e h
        exact ⟨ha, List.mem_cons_of_mem _ hb⟩

theorem removeInvalid_connOk (w : TWorkflow) (rep : ConnectionFixReport) :
    (removeInvalidConnections w rep).1.nodes = w.nodes ∧
    ConnOk (w.nodes.map (·.id)) (removeInvalidConnections w rep).1.connections := by
  unfold removeInvalidConnections
  rcases h1 : rmPhase1 (w.nodes.map (·.id)) w.connections rep with ⟨c1, rep1⟩
  rcases h2 : rmPhase2 (w.nodes.map (·.id)) c1 rep1 with ⟨c2, rep2⟩
  dsimp only
  rw [h1]
  dsimp only
  rw [h2]
  refine ⟨rfl, ?_⟩
  intro e he
  dsimp only at he
  obtain ⟨hid, hmem⟩ := rmPhase2_mem c1 rep1 e (by rw [h2]; exact he)
  exact ⟨hid, rmPhase1_mem w.connections rep e (by rw [h1]; exact hmem) hid⟩

theorem outsOk_getD {ids : List String} {m : CMap} {s : String}
    (hok : ConnOk ids m) : OutsOk ids ((jmGet m s).getD []) := by
  cases hg : jmGet m s with
  | none =>
      intro se hse
      exact absurd hse (List.not_mem_nil se)
  | some outs => exact (hok (s, outs) (jmGet_mem hg)).2

theorem connOk_set {ids : List String} {m : CMap} {s : String} {outs : OutMap}
    (hok : ConnOk ids m) (hs : s ∈ ids) (ho : OutsOk ids outs) :
    ConnOk ids (jmSet m s outs) := by
  intro e he
  rcases jmSet_mem he with rfl | he
  · exact ⟨hs, ho⟩
  · exact hok e he

theorem addConnectionE_connOk {ids : List String} {w w_ : TWorkflow}
    {s t ty : String} (hok : ConnOk ids w.connections)
    (hs : s ∈ ids) (ht : t ∈ ids)
    (h : addConnectionE w s t ty = .ok w_) :
    w_.nodes = w.nodes ∧ ConnOk ids w_.connections := by
  unfold addConnectionE at h
  try dsimp only at h
  have h1 : ConnOk ids
      (if (jmGet w.connections s).isSome then w.connections
       else w.connections ++ [(s, [])]) := by
    split
    · exact hok
    · intro e he
      rcases List.mem_append.mp he with he | he
      · exact hok e he
      · simp only [List.mem_singleton] at he
        subst he
        exact ⟨hs, fun se hse => absurd hse (List.not_mem_nil se)⟩
  set m1 : CMap :=
    (if (jmGet w.connections s).isSome then w.connections
     else w.connections ++ [(s, [])]) with hm1
  have ho1 : OutsOk ids ((jmGet m1 s).getD []) := outsOk_getD h1
  have h2 : ConnOk ids
      (if (jmGet ((jmGet m1 s).getD []) ty).isSome then m1
       else jmSet m1 s ((jmGet m1 s).getD [] ++ [(ty, [[]])])) := by
    split
    · exact h1
    · refine connOk_set h1 hs ?_
      intro se hse
      rcases List.mem_append.mp hse with hse | hse
      · exact ho1 se hse
      · simp only [List.mem_singleton] at hse
        subst hse
        intro g hg c hc
        simp only [List.mem_singleton] at hg
        subst hg
        exact absurd hc (List.not_mem_nil c)
  set m2 : CMap :=
    (if (jmGet ((jmGet m1 s).getD []) ty).isSome then m1
     else jmSet m1 s ((jmGet m1 s).getD [] ++ [(ty, [[]])])) with hm2
  have ho2 : OutsOk ids ((jmGet m2 s).getD []) := outsOk_getD h2
  split at h
  · cases h
  · cases h
  · rename_i g0 rest heq
    have hgr : ∀ g ∈ g0 :: rest, ∀ c ∈ g, c.node ∈ ids := by
      have hmem : (ty, g0 :: rest) ∈ (jmGet m2 s).getD [] := by
        cases hg : jmGet m2 s with
        | none => rw [hg] at heq; cases heq
        | some outs =>
            rw [hg] at heq
            simpa using jmGet_mem heq
      exact ho2 _ hmem
    split at h
    · cases h
      exact ⟨rfl, h2⟩
    · cases h
      refine ⟨rfl, connOk_set h2 hs ?_⟩
      intro se hse
      rcases jmSet_mem hse with rfl | hse
      · intro g hg c hc
        rcases List.mem_cons.mp hg with rfl | hg
        · rcases List.mem_append.mp hc with hc | hc
          · exact hgr g0 (List.mem_cons_self _ _) c hc
          · simp only [List.mem_singleton] at hc
            subst hc
            exact ht
        · exact hgr g (List.mem_cons_of_mem _ hg) c hc
      · exact ho2 se hse

/-- The invariant threaded through the fixer stages: the node list is
unchanged and every connection reference names one of its ids. -/
def FixInv (nodes0 : List TNode) (b : TWorkflow × ConnectionFixReport) : Prop :=
  b.1.nodes = nodes0 ∧ ConnOk (nodes0.map (·.id)) b.1.connections

theorem nodeId_mem {nodes0 : List TNode} {w : TWorkflow} {n : TNode}
    (hw : w.nodes = nodes0) (h : n ∈ w.nodes) :
    n.id ∈ nodes0.map (·.id) := by
  rw [hw] at h
  exact List.mem_map_of_mem _ h

theorem addConn_inv {nodes0 : List TNode} {w w_ : TWorkflow} {s t ty : String}
    {rep rep_ : ConnectionFixReport} (hP : FixInv nodes0 (w, rep))
    (hs : s ∈ nodes0.map (·.id)) (ht : t ∈ nodes0.map (·.id))
    (h : addConnectionE w s t ty = .ok w_) :
    FixInv nodes0 (w_, rep_) := by
  obtain ⟨hn, hc⟩ := addConnectionE_connOk hP.2 hs ht h
  exact ⟨hn.trans hP.1, hc⟩

theorem bind_pure_ok {α β : Type} {x : α} {k : α → Except JsErr β} :
    (pure x : Except JsErr α) >>= k = k x := rfl

theorem fixOrphanedNodes_inv {nodes0 : List TNode} {w w_ : TWorkflow}
    {orphans : List String} {rep rep_ : ConnectionFixReport}
    (h : fixOrphanedNodes w orphans rep = .ok (w_, rep_))
    (hP : FixInv nodes0 (w, rep)) : FixInv nodes0 (w_, rep_) := by
  unfold fixOrphanedNodes at h
  refine foldlM_inv ?_ orphans (w, rep) (w_, rep_) h hP
  intro b a b_ hPb hstep
  obtain ⟨w1, rep1⟩ := b
  try dsimp only at hstep
  split at hstep
  · cases exceptPureOk hstep
    exact hPb
  · rename_i node hfind
    have hnode : node ∈ w1.nodes := List.mem_of_find?_eq_some hfind
    split at hstep
    · split at hstep
      · rename_i nx hnx
        obtain ⟨w2, hadd, hp⟩ := except_bind_ok hstep
        try dsimp only at hp
        cases exceptPureOk hp
        exact addConn_inv hPb (nodeId_mem hPb.1 hnode)
          (nodeId_mem hPb.1 (findNext_mem hnx)) hadd
      · cases exceptPureOk hstep
        exact hPb
    · split at hstep
      · rename_i p hp
        obtain ⟨w2, hadd, hk⟩ := except_bind_ok hstep
        have hw2 := addConnectionE_connOk hPb.2
          (nodeId_mem hPb.1 (findPrev_mem hp)) (nodeId_mem hPb.1 hnode) hadd
        have hn2 : w2.nodes = nodes0 := hw2.1.trans hPb.1
        try dsimp only at hk
        rw [bind_pure_ok] at hk
        try dsimp only at hk
        split at hk
        · rename_i nx hnx
          obtain ⟨w3, hadd2, hp2⟩ := except_bind_ok hk
          have hw3 := addConnectionE_connOk hw2.2
            (nodeId_mem hPb.1 hnode) (nodeId_mem hPb.1 (findNext_mem hnx)) hadd2
          try dsimp only at hp2
          cases exceptPureOk hp2
          exact ⟨hw3.1.trans hn2, hw3.2⟩
        · cases exceptPureOk hk
          exact ⟨hn2, hw2.2⟩
      · rw [bind_pure_ok] at hstep
        try dsimp only at hstep
        split at hstep
        · rename_i nx hnx
          obtain ⟨w3, hadd2, hp2⟩ := except_bind_ok hstep
          have hw3 := addConnectionE_connOk hPb.2
            (nodeId_mem hPb.1 hnode) (nodeId_mem hPb.1 (findNext_mem hnx)) hadd2
          try dsimp only at hp2
          cases exceptPureOk hp2
          exact ⟨hw3.1.trans hPb.1, hw3.2⟩
        · cases exceptPureOk hstep
          exact hPb

theorem fixUnreachableNodes_inv {nodes0 : List TNode} {w w_ : TWorkflow}
    {unreachable : List String} {rep rep_ : ConnectionFixReport}
    (h : fixUnreachableNodes w unreachable rep = .ok (w_, rep_))
    (hP : FixInv nodes0 (w, rep)) : FixInv nodes0 (w_, rep_) := by
  unfold fixUnreachableNodes at h
  split at h
  · cases h
    exact hP
  · rename_i mainTrigger tail hfil
    have hmt : mainTrigger ∈ w.nodes :=
      List.mem_of_mem_filter (hfil ▸ List.mem_cons_self mainTrigger tail)
    have hmtid : mainTrigger.id ∈ nodes0.map (·.id) := nodeId_mem hP.1 hmt
    refine foldlM_inv ?_ unreachable (w, rep) (w_, rep_) h hP
    intro b a b_ hPb hstep
    obtain ⟨w1, rep1⟩ := b
    try dsimp only at hstep
    split at hstep
    · cases exceptPureOk hstep
      exact hPb
    · rename_i node hfind
      have hnode : node ∈ w1.nodes := List.mem_of_find?_eq_some hfind
      split at hstep
      · rename_i p hp
        obtain ⟨w2, hadd, hpu⟩ := except_bind_ok hstep
        try dsimp only at hpu
        cases exceptPureOk hpu
        exact addConn_inv hPb (nodeId_mem hPb.1 (findPrev_mem hp))
          (nodeId_mem hPb.1 hnode) hadd
      · obtain ⟨w2, hadd, hpu⟩ := except_bind_ok hstep
        try dsimp only at hpu
        cases exceptPureOk hpu
        exact addConn_inv hPb hmtid (nodeId_mem hPb.1 hnode) hadd

theorem ensureTriggerConnections_inv {nodes0 : List TNode} {w w_ : TWorkflow}
    {triggerIds : List String} {rep rep_ : ConnectionFixReport}
    (h : ensureTriggerConnections w triggerIds rep = .ok (w_, rep_))
    (hP : FixInv nodes0 (w, rep)) : FixInv nodes0 (w_, rep_) := by
  unfold ensureTriggerConnections at h
  refine foldlM_inv ?_ triggerIds (w, rep) (w_, rep_) h hP
  intro b a b_ hPb hstep
  obtain ⟨w1, rep1⟩ := b
  try dsimp only at hstep
  split at hstep
  · cases exceptPureOk hstep
    exact hPb
  · rename_i trigger hfind
    have htr : trigger ∈ w1.nodes := List.mem_of_find?_eq_some hfind
    have hta : trigger.id = a := by
      have := List.find?_some hfind
      simpa using this
    have ha : a ∈ nodes0.map (·.id) := hta ▸ nodeId_mem hPb.1 htr
    split at hstep
    · cases exceptPureOk hstep
      exact hPb
    · split at hstep
      · rename_i nx hnx
        obtain ⟨w2, hadd, hpu⟩ := except_bind_ok hstep
        try dsimp only at hpu
        cases exceptPureOk hpu
        exact addConn_inv hPb ha (nodeId_mem hPb.1 (findNext_mem hnx)) hadd
      · cases exceptPureOk hstep
        exact hPb

theorem addSequentialGo_inv {nodes0 : List TNode} :
    ∀ (l : List TNode) (w : TWorkflow) (rep : ConnectionFixReport)
      (w_ : TWorkflow) (rep_ : ConnectionFixReport),
      (∀ n ∈ l, n ∈ nodes0) →
      addSequentialGo l w rep = .ok (w_, rep_) →
      FixInv nodes0 (w, rep) → FixInv nodes0 (w_, rep_) := by
  intro l
  induction l with
  | nil =>
      intro w rep w_ rep_ hl h hP
      cases exceptPureOk h
      exact hP
  | cons a tail ih =>
      intro w rep w_ rep_ hl h hP
      cases tail with
      | nil =>
          cases exceptPureOk h
          exact hP
      | cons b rest =>
          unfold addSequentialGo at h
          try dsimp only at h
          have htail : ∀ n ∈ b :: rest, n ∈ nodes0 :=
            fun n hn => hl n (List.mem_cons_of_mem _ hn)
          split at h
          · simp only [Bind.bind, Except.bind, pure, Except.pure] at h
            exact ih w rep w_ rep_ htail h hP
          · split at h
            · simp only [Bind.bind, Except.bind, pure, Except.pure] at h
              exact ih w rep w_ rep_ htail h hP
            · split at h
              · split at h
                · simp only [Bind.bind, Except.bind, pure, Except.pure] at h
                  exact ih w rep w_ rep_ htail h hP
                · obtain ⟨w2, hadd, hrest2⟩ := except_bind_ok h
                  simp only [Bind.bind, Except.bind, pure, Except.pure] at hrest2
                  refine ih w2 _ w_ rep_ htail hrest2 ?_
                  exact addConn_inv hP
                    (List.mem_map_of_mem _ (hl a (List.mem_cons_self _ _)))
                    (List.mem_map_of_mem _
                      (hl b (List.mem_cons_of_mem _ (List.mem_cons_self _ _))))
                    hadd
              · simp only [Bind.bind, Except.bind, pure, Except.pure] at h
                exact ih w rep w_ rep_ htail h hP

theorem addSequentialConnections_inv {nodes0 : List TNode} {w w_ : TWorkflow}
    {rep rep_ : ConnectionFixReport}
    (h : addSequentialConnections w rep = .ok (w_, rep_))
    (hP : FixInv nodes0 (w, rep)) : FixInv nodes0 (w_, rep_) := by
  unfold addSequentialConnections at h
  refine addSequentialGo_inv _ w rep w_ rep_ ?_ h hP
  intro n hn
  rw [jsStableSort_mem] at hn
  rw [← hP.1]
  exact hn

theorem ite_bind_ok {α β : Type} {c : Prop} [Decidable c]
    {s : Except JsErr α} {x : α} {k : α → Except JsErr β} {r : β}
    (h : (if c then s >>= k else pure x >>= k) = .ok r) :
    ∃ a, (c ∧ s = .ok a ∨ ¬ c ∧ a = x) ∧ k a = .ok r := by
  by_cases hc : c
  · rw [if_pos hc] at h
    obtain ⟨a, h1, h2⟩ := except_bind_ok h
    exact ⟨a, Or.inl ⟨hc, h1⟩, h2⟩
  · rw [if_neg hc] at h
    obtain ⟨a, h1, h2⟩ := except_bind_ok h
    have hax : a = x := by
      simpa [pure, Except.pure] using h1.symm
    exact ⟨a, Or.inr ⟨hc, hax⟩, h2⟩

/-- C2: after a `fixConnections` pass, every source key and every
`\x7b node: id \x7d` target reference of the connection map names an id of the
(unchanged) node list. -/
theorem C2_fixConnections_references (w w_ : TWorkflow)
    (rep : ConnectionFixReport) (h : fixConnectionsE w = .ok (w_, rep)) :
    w_.nodes = w.nodes ∧ ConnOk (w_.nodes.map (·.id)) w_.connections := by
  unfold fixConnectionsE at h
  try dsimp only at h
  rcases hrm : removeInvalidConnections w
      { fixed := false, changes := [], connectionsAdded := 0,
        connectionsRemoved := 0 } with ⟨w1, rep1⟩
  rw [hrm] at h
  try dsimp only at h
  have hP1 : FixInv w.nodes (w1, rep1) := by
    have := removeInvalid_connOk w
      { fixed := false, changes := [], connectionsAdded := 0,
        connectionsRemoved := 0 }
    rw [hrm] at this
    exact this
  obtain ⟨m1, hc1, h⟩ := ite_bind_ok h
  obtain ⟨w2, rep2⟩ := m1
  have hP2 : FixInv w.nodes (w2, rep2) := by
    rcases hc1 with ⟨_, hs1⟩ | ⟨_, hx⟩
    · exact fixOrphanedNodes_inv hs1 hP1
    · simp only [Prod.mk.injEq] at hx
      obtain ⟨rfl, rfl⟩ := hx
      exact hP1
  try dsimp only at h
  obtain ⟨m2, hc2, h⟩ := ite_bind_ok h
  obtain ⟨w3, rep3⟩ := m2
  have hP3 : FixInv w.nodes (w3, rep3) := by
    rcases hc2 with ⟨_, hs2⟩ | ⟨_, hx⟩
    · exact fixUnreachableNodes_inv hs2 hP2
    · simp only [Prod.mk.injEq] at hx
      obtain ⟨rfl, rfl⟩ := hx
      exact hP2
  try dsimp only at h
  obtain ⟨m3, hc3, h⟩ := ite_bind_ok h
  obtain ⟨w4, rep4⟩ := m3
  have hP4 : FixInv w.nodes (w4, rep4) := by
    rcases hc3 with ⟨_, hs3⟩ | ⟨_, hx⟩
    · exact ensureTriggerConnections_inv hs3 hP3
    · simp only [Prod.mk.injEq] at hx
      obtain ⟨rfl, rfl⟩ := hx
      exact hP3
  try dsimp only at h
  obtain ⟨m4, hc4, h⟩ := ite_bind_ok h
  obtain ⟨w5, rep5⟩ := m4
  have hP5 : FixInv w.nodes (w5, rep5) := by
    rcases hc4 with ⟨_, hs4⟩ | ⟨_, hx⟩
    · exact addSequentialConnections_inv hs4 hP4
    · simp only [Prod.mk.injEq] at hx
      obtain ⟨rfl, rfl⟩ := hx
      exact hP4
  try dsimp only at h
  cases exceptPureOk h
  exact ⟨hP5.1, by rw [hP5.1]; exact hP5.2⟩

/-- A workflow with one dangling target reference (`ghost`) and one dangling
source key (`zz`). -/
def c2W : TWorkflow :=
  { name := "wf", id := "w1",
    nodes := [
      { id := "t", name := "Start", type := "n8n-nodes-base.start", typeVersion := 1,
        position := (0, 300), parameters := .fnil },
      { id := "b", name := "B", type := "n8n-nodes-base.noOp", typeVersion := 1,
        position := (200, 300), parameters := .fnil }],
    connections := [
      ("t", [("main", [[{ node := "b", type := "main" },
                        { node := "ghost", type := "main" }]])]),
      ("zz", [("main", [[{ node := "t", type := "main" }]])])] }

/-- The fixer output on `c2W`: both dangling references removed. -/
def c2Fixed : TWorkflow :=
  { name := "wf", id := "w1", nodes := c2W.nodes,
    connections := [("t", [("main", [[{ node := "b", type := "main" }]])])] }

def c2Rep : ConnectionFixReport :=
  { fixed := true,
    changes := ["Removed invalid connection from \"t\" to non-existent node \"ghost\"",
                "Removed connections for non-existent node \"zz\""],
    connectionsAdded := 0, connectionsRemoved := 1 }

theorem C2_fixConnections_witness :
    c2Fixed.nodes = c2W.nodes ∧
    ConnOk (c2Fixed.nodes.map (·.id)) c2Fixed.connections :=
  C2_fixConnections_references c2W c2Fixed c2Rep rfl

/-! ## Claim C4: trigger nodes gain an outgoing edge -/

theorem jmGet_append_other {α β : Type} [DecidableEq α] (m : List (α × β))
    (k k' : α) (v : β) (hne : k' ≠ k) : jmGet (m ++ [(k, v)]) k' = jmGet m k' := by
  unfold jmGet
  induction m with
  | nil =>
      simp [List.find?, Ne.symm hne]
  | cons p rest ih =>
      rw [List.cons_append]
      by_cases hp : p.1 = k'
      · rw [List.find?_cons_of_pos _ (by simpa using hp),
            List.find?_cons_of_pos _ (by simpa using hp)]
      · rw [List.find?_cons_of_neg _ (by simpa using hp),
            List.find?_cons_of_neg _ (by simpa using hp)]
        exact ih

theorem jmGet_set_other {α β : Type} [DecidableEq α] (m : List (α × β))
    (k k' : α) (v : β) (hne : k' ≠ k) : jmGet (jmSet m k v) k' = jmGet m k' := by
  unfold jmSet
  split
  · rename_i hsome
    clear hsome
    unfold jmGet
    induction m with
    | nil => rfl
    | cons p rest ih =>
        rw [List.map_cons]
        by_cases hp : p.1 = k
        · rw [if_pos hp]
          have h1 : ¬ (((k, v) : α × β).1 = k') := by simpa using Ne.symm hne
          have h2 : ¬ (p.1 = k') := by rw [hp]; exact Ne.symm hne
          rw [List.find?_cons_of_neg _ (by simpa using h1),
              List.find?_cons_of_neg _ (by simpa using h2)]
          exact ih
        · rw [if_neg hp]
          by_cases hp2 : p.1 = k'
          · rw [List.find?_cons_of_pos _ (by simpa using hp2),
                List.find?_cons_of_pos _ (by simpa using hp2)]
          · rw [List.find?_cons_of_neg _ (by simpa using hp2),
                List.find?_cons_of_neg _ (by simpa using hp2)]
            exact ih
  · exact jmGet_append_other m k k' v hne

theorem jmGet_set_self {α β : Type} [DecidableEq α] (m : List (α × β))
    (k : α) (v : β) : jmGet (jmSet m k v) k = some v := by
  unfold jmSet
  split
  · rename_i hsome
    unfold jmGet
    induction m with
    | nil => simp [List.find?] at hsome
    | cons p rest ih =>
        rw [List.map_cons]
        by_cases hp : p.1 = k
        · rw [if_pos hp]
          rw [List.find?_cons_of_pos _ (by simp)]
          rfl
        · rw [if_neg hp]
          rw [List.find?_cons_of_neg _ (by simpa using hp)]
          refine ih ?_
          rw [List.find?_cons_of_neg _ (by simpa using hp)] at hsome
          exact hsome
  · unfold jmGet
    induction m with
    | nil => simp [List.find?]
    | cons p rest ih =>
        rename_i hnone
        rw [List.cons_append]
        have hp : ¬ (p.1 = k) := by
          intro hp
          exact hnone (by rw [List.find?_cons_of_pos _ (by simpa using hp)]; rfl)
        rw [List.find?_cons_of_neg _ (by simpa using hp)]
        refine ih ?_
        intro h2
        apply hnone
        rw [List.find?_cons_of_neg _ (by simpa using hp)]
        exact h2

theorem addConnectionE_nodes {w w2 : TWorkflow} {s t ty : String}
    (h : addConnectionE w s t ty = .ok w2) : w2.nodes = w.nodes := by
  unfold addConnectionE at h
  dsimp only at h
  split at h
  · cases h
  · cases h
  · split at h
    · cases h
      rfl
    · cases h
      rfl

theorem addConnectionE_get_other {w w2 : TWorkflow} {src t ty s : String}
    (hne : s ≠ src) (h : addConnectionE w src t ty = .ok w2) :
    jmGet w2.connections s = jmGet w.connections s := by
  unfold addConnectionE at h
  dsimp only at h
  have e1 : jmGet (if (jmGet w.connections src).isSome then w.connections
      else w.connections ++ [(src, [])]) s = jmGet w.connections s := by
    split
    · rfl
    · exact jmGet_append_other _ _ _ _ hne
  set m1 : CMap := (if (jmGet w.connections src).isSome then w.connections
      else w.connections ++ [(src, [])]) with hm1
  have e2 : jmGet (if (jmGet ((jmGet m1 src).getD []) ty).isSome then m1
      else jmSet m1 src ((jmGet m1 src).getD [] ++ [(ty, [[]])])) s =
      jmGet w.connections s := by
    split
    · exact e1
    · rw [jmGet_set_other _ _ _ _ hne]
      exact e1
  set m2 : CMap := (if (jmGet ((jmGet m1 src).getD []) ty).isSome then m1
      else jmSet m1 src ((jmGet m1 src).getD [] ++ [(ty, [[]])])) with hm2
  split at h
  · cases h
  · cases h
  · split at h
    · cases h
      exact e2
    · cases h
      dsimp only
      rw [jmGet_set_other _ _ _ _ hne]
      exact e2

theorem hasOut_of_get {m : CMap} {s ty : String} {groups : List (List CConn)}
    {outs : OutMap} {g : List CConn}
    (h1 : jmGet m s = some outs) (h2 : (ty, groups) ∈ outs) (h3 : g ∈ groups)
    (h4 : g.length > 0) : hasOutgoingB m s = true := by
  unfold hasOutgoingB
  rw [h1]
  refine List.any_eq_true.mpr ⟨(ty, groups), h2, ?_⟩
  exact List.any_eq_true.mpr ⟨g, h3, by simpa using h4⟩

theorem addConnectionE_hasOut_new {w w2 : TWorkflow} {s t ty : String}
    (h : addConnectionE w s t ty = .ok w2) :
    hasOutgoingB w2.connections s = true := by
  unfold addConnectionE at h
  dsimp only at h
  set m1 : CMap := (if (jmGet w.connections s).isSome then w.connections
      else w.connections ++ [(s, [])]) with hm1
  set m2 : CMap := (if (jmGet ((jmGet m1 s).getD []) ty).isSome then m1
      else jmSet m1 s ((jmGet m1 s).getD [] ++ [(ty, [[]])])) with hm2
  split at h
  · cases h
  · cases h
  · rename_i g0 rest heq
    have hg2 : ∃ outs2, jmGet m2 s = some outs2 ∧
        jmGet outs2 ty = some (g0 :: rest) := by
      cases hg : jmGet m2 s with
      | none =>
          rw [hg] at heq
          simp [jmGet, List.find?] at heq
      | some outs2 =>
          rw [hg] at heq
          exact ⟨outs2, rfl, by simpa using heq⟩
    obtain ⟨outs2, hgm, hgo⟩ := hg2
    split at h
    · rename_i hany
      cases h
      have hlen : g0.length > 0 := by
        cases g0 with
        | nil => simp at hany
        | cons c l => simp
      exact hasOut_of_get hgm (jmGet_mem hgo) (List.mem_cons_self _ _) hlen
    · cases h
      dsimp only
      rw [hgm]
      simp only [Option.getD_some]
      refine hasOut_of_get (jmGet_set_self m2 s _)
        (jmGet_mem (jmGet_set_self outs2 ty _)) (List.mem_cons_self _ _) ?_
      simp

theorem addConnectionE_hasOut_pres {w w2 : TWorkflow} {src t ty s : String}
    (h : addConnectionE w src t ty = .ok w2)
    (hout : hasOutgoingB w.connections s = true) :
    hasOutgoingB w2.connections s = true := by
  by_cases hss : s = src
  · subst hss
    exact addConnectionE_hasOut_new h
  · have hget := addConnectionE_get_other hss h
    unfold hasOutgoingB at hout ⊢
    rw [hget]
    exact hout

theorem foldlM_nodes_inv {α : Type} {nodes0 : List TNode}
    {f : TWorkflow × ConnectionFixReport → α →
      Except JsErr (TWorkflow × ConnectionFixReport)}
    (hf : ∀ b a b_, b.1.nodes = nodes0 → f b a = .ok b_ → b_.1.nodes = nodes0) :
    ∀ (l : List α) (b b_ : TWorkflow × ConnectionFixReport),
      l.foldlM f b = .ok b_ → b.1.nodes = nodes0 → b_.1.nodes = nodes0 :=
  foldlM_inv hf

theorem foldlM_hasOut_inv {α : Type} {s : String}
    {f : TWorkflow × ConnectionFixReport → α →
      Except JsErr (TWorkflow × ConnectionFixReport)}
    (hf : ∀ b a b_, hasOutgoingB b.1.connections s = true → f b a = .ok b_ →
      hasOutgoingB b_.1.connections s = true) :
    ∀ (l : List α) (b b_ : TWorkflow × ConnectionFixReport),
      l.foldlM f b = .ok b_ → hasOutgoingB b.1.connections s = true →
      hasOutgoingB b_.1.connections s = true :=
  foldlM_inv hf

theorem foldlM_append_ok {α β : Type} {f : β → α → Except JsErr β}
    (l1 l2 : List α) (b : β) :
    (l1 ++ l2).foldlM f b = l1.foldlM f b >>= fun b2 => l2.foldlM f b2 := by
  induction l1 generalizing b with
  | nil => simp [List.foldlM_nil, bind_pure_ok]
  | cons x xs ih =>
      rw [List.cons_append, List.foldlM_cons, List.foldlM_cons]
      cases hfx : f b x with
      | error e => simp [Bind.bind, Except.bind]
      | ok b1 => simp [Bind.bind, Except.bind, ih]

theorem find?_id_self {nodes : List TNode} {T : TNode}
    (hnd : (nodes.map (·.id)).Nodup) (hT : T ∈ nodes) :
    nodes.find? (·.id = T.id) = some T := by
  induction nodes with
  | nil => cases hT
  | cons a rest ih =>
      rcases List.mem_cons.mp hT with rfl | hT2
      · rw [List.find?_cons_of_pos _ (by simp)]
      · have hnd2 : a.id ∉ rest.map (·.id) ∧ (rest.map (·.id)).Nodup := by
          rw [List.map_cons, List.nodup_cons] at hnd
          exact hnd
        have hne : ¬ (a.id = T.id) := by
          intro he
          exact hnd2.1 (he ▸ List.mem_map_of_mem _ hT2)
        rw [List.find?_cons_of_neg _ (by simpa using hne)]
        exact ih hnd2.2 hT2

theorem findNext_isSome {w : TWorkflow} {T n : TNode} (hn : n ∈ w.nodes)
    (hne : n.id ≠ T.id) (hlt : T.position.1 < n.position.1) :
    findNextNodeByPosition w T ≠ none := by
  unfold findNextNodeByPosition
  dsimp only
  intro hnone
  rw [List.head?_eq_none_iff] at hnone
  have hmem : n ∈ jsStableSort (fun a b => a.position.1 ≤ b.position.1)
      (w.nodes.filter (fun m => m.id ≠ T.id ∧ T.position.1 < m.position.1)) := by
    rw [jsStableSort_mem]
    refine List.mem_filter.mpr ⟨hn, ?_⟩
    exact decide_eq_true ⟨hne, hlt⟩
  rw [hnone] at hmem
  exact absurd hmem (List.not_mem_nil n)

theorem trigScan_sub (l : List TNode) :
    ∀ (acc : Bool × List String) (x : String), x ∈ acc.2 →
      x ∈ (l.foldl (fun acc n =>
        match getNodeByType n.type with
        | some ndef =>
            if ndef.category = "trigger" then (true, acc.2 ++ [n.id]) else acc
        | none => acc) acc).2 := by
  induction l with
  | nil =>
      intro acc x hx
      exact hx
  | cons a rest ih =>
      intro acc x hx
      rw [List.foldl_cons]
      refine ih _ x ?_
      cases hga : getNodeByType a.type with
      | none => exact hx
      | some d =>
          dsimp only
          split
          · exact List.mem_append_left _ hx
          · exact hx

theorem trigScan_mem {T : TNode} (htr : isTriggerNode T = true) (l : List TNode) :
    ∀ (acc : Bool × List String), T ∈ l →
      T.id ∈ (l.foldl (fun acc n =>
        match getNodeByType n.type with
        | some ndef =>
            if ndef.category = "trigger" then (true, acc.2 ++ [n.id]) else acc
        | none => acc) acc).2 := by
  induction l with
  | nil =>
      intro acc h
      cases h
  | cons a rest ih =>
      intro acc hmem
      rw [List.foldl_cons]
      rcases List.mem_cons.mp hmem with rfl | h2
      · refine trigScan_sub rest _ T.id ?_
        unfold isTriggerNode at htr
        cases hga : getNodeByType T.type with
        | none =>
            rw [hga] at htr
            simp [Option.any] at htr
        | some d =>
            rw [hga] at htr
            have hc : d.category = "trigger" := by
              simpa [Option.any] using htr
            dsimp only
            rw [if_pos hc]
            exact List.mem_append_right _ (List.mem_cons_self _ _)
      · exact ih _ h2

theorem triggerNodes_mem {w : TWorkflow} {T : TNode} (hT : T ∈ w.nodes)
    (htr : isTriggerNode T = true) : T.id ∈ (analyzeGraphT w).triggerNodes := by
  unfold analyzeGraphT
  dsimp only
  exact trigScan_mem htr w.nodes (false, []) hT

theorem ensureStep_nodes {nodes0 : List TNode} {w1 : TWorkflow}
    {rep1 : ConnectionFixReport} {a : String}
    {b_ : TWorkflow × ConnectionFixReport} (hn : w1.nodes = nodes0)
    (hstep : (
      match w1.nodes.find? (fun n => n.id = a) with
      | none => pure (w1, rep1)
      | some trigger =>
          if hasOutgoingB w1.connections a then pure (w1, rep1)
          else
            match findNextNodeByPosition w1 trigger with
            | some nextNode => do
                let w ← addConnectionE w1 a nextNode.id "main"
                let trigName := trigger.name
                let nextName := nextNode.name
                pure (w, repAdded rep1
                  s!"Connected trigger \"{trigName}\" to \"{nextName}\"")
            | none => pure (w1, rep1)) = .ok b_) :
    b_.1.nodes = nodes0 := by
  split at hstep
  · cases exceptPureOk hstep
    exact hn
  · split at hstep
    · cases exceptPureOk hstep
      exact hn
    · split at hstep
      · obtain ⟨w2, hadd, hpu⟩ := except_bind_ok hstep
        try dsimp only at hpu
        cases exceptPureOk hpu
        exact (addConnectionE_nodes hadd).trans hn
      · cases exceptPureOk hstep
        exact hn

theorem ensureTrigger_establishes {nodes0 : List TNode} {T : TNode}
    {w w2 : TWorkflow} {ids : List String} {rep rep2 : ConnectionFixReport}
    (hnd : (nodes0.map (·.id)).Nodup) (hT : T ∈ nodes0)
    (hnext : ∃ n ∈ nodes0, n.id ≠ T.id ∧ T.position.1 < n.position.1)
    (hmem : T.id ∈ ids) (hw : w.nodes = nodes0)
    (h : ensureTriggerConnections w ids rep = .ok (w2, rep2)) :
    hasOutgoingB w2.connections T.id = true := by
  obtain ⟨l1, l2, rfl⟩ := List.append_of_mem hmem
  unfold ensureTriggerConnections at h
  rw [foldlM_append_ok] at h
  obtain ⟨b1, h1, h⟩ := except_bind_ok h
  rw [List.foldlM_cons] at h
  obtain ⟨b2, hstep, h2⟩ := except_bind_ok h
  obtain ⟨w1, rep1⟩ := b1
  have hn1 : w1.nodes = nodes0 := by
    have := foldlM_nodes_inv ?_ l1 (w, rep) (w1, rep1) h1 hw
    · exact this
    · intro b a b_ hPb hst
      obtain ⟨wx, repx⟩ := b
      try dsimp only at hst
      exact ensureStep_nodes hPb hst
  have hout2 : hasOutgoingB b2.1.connections T.id = true := by
    try dsimp only at hstep
    split at hstep
    · rename_i heq
      rw [hn1, find?_id_self hnd hT] at heq
      cases heq
    · rename_i trigger heq
      have hTt : trigger = T := by
        rw [hn1, find?_id_self hnd hT] at heq
        exact ((Option.some.injEq _ _).mp heq).symm
      subst hTt
      split at hstep
      · rename_i hout
        cases exceptPureOk hstep
        exact hout
      · split at hstep
        · rename_i nx hnx
          obtain ⟨w3, hadd, hpu⟩ := except_bind_ok hstep
          try dsimp only at hpu
          cases exceptPureOk hpu
          exact addConnectionE_hasOut_new hadd
        · rename_i hnone
          obtain ⟨n, hn, hne, hlt⟩ := hnext
          exact absurd hnone (findNext_isSome (hn1 ▸ hn) hne hlt)
  refine foldlM_hasOut_inv ?_ l2 b2 (w2, rep2) h2 hout2
  intro b a b_ hPb hst
  obtain ⟨wx, repx⟩ := b
  try dsimp only at hst
  split at hst
  · cases exceptPureOk hst
    exact hPb
  · split at hst
    · cases exceptPureOk hst
      exact hPb
    · split at hst
      · obtain ⟨w3, hadd, hpu⟩ := except_bind_ok hst
        try dsimp only at hpu
        cases exceptPureOk hpu
        exact addConnectionE_hasOut_pres hadd hPb
      · cases exceptPureOk hst
        exact hPb

theorem addSequentialGo_hasOut {s : String} :
    ∀ (l : List TNode) (w : TWorkflow) (rep : ConnectionFixReport)
      (w_ : TWorkflow) (rep_ : ConnectionFixReport),
      addSequentialGo l w rep = .ok (w_, rep_) →
      hasOutgoingB w.connections s = true →
      hasOutgoingB w_.connections s = true := by
  intro l
  induction l with
  | nil =>
      intro w rep w_ rep_ h hout
      cases exceptPureOk h
      exact hout
  | cons a tail ih =>
      intro w rep w_ rep_ h hout
      cases tail with
      | nil =>
          cases exceptPureOk h
          exact hout
      | cons b rest =>
          unfold addSequentialGo at h
          try dsimp only at h
          split at h
          · simp only [Bind.bind, Except.bind, pure, Except.pure] at h
            exact ih w rep w_ rep_ h hout
          · split at h
            · simp only [Bind.bind, Except.bind, pure, Except.pure] at h
              exact ih w rep w_ rep_ h hout
            · split at h
              · split at h
                · simp only [Bind.bind, Except.bind, pure, Except.pure] at h
                  exact ih w rep w_ rep_ h hout
                · obtain ⟨w2, hadd, hrest2⟩ := except_bind_ok h
                  simp only [Bind.bind, Except.bind, pure, Except.pure] at hrest2
                  exact ih w2 _ w_ rep_ hrest2
                    (addConnectionE_hasOut_pres hadd hout)
              · simp only [Bind.bind, Except.bind, pure, Except.pure] at h
                exact ih w rep w_ rep_ h hout

/-- A two-trigger workflow: the second trigger sits to the left of the
first, so after the fix pass the first trigger still has no outgoing edge. -/
def c4W : TWorkflow :=
  { name := "wf", id := "w1",
    nodes := [
      { id := "t1", name := "T1", type := "n8n-nodes-base.start", typeVersion := 1,
        position := (100, 300), parameters := .fnil },
      { id := "t2", name := "T2", type := "n8n-nodes-base.webhook", typeVersion := 1,
        position := (0, 300), parameters := .fnil }],
    connections := [] }

def c4T : TNode :=
  { id := "t1", name := "T1", type := "n8n-nodes-base.start", typeVersion := 1,
    position := (100, 300), parameters := .fnil }

/-- C4 counterexample: `c4W` holds the trigger `t1` and one other node
(`t2`), yet after `fixConnections` the trigger `t1` has no outgoing edge:
all three positional repair helpers only look for nodes strictly to the
right, and `t2` sits to the left. -/
theorem C4_counterexample :
    isTriggerNode c4T = true ∧ c4T ∈ c4W.nodes ∧
    (∃ n ∈ c4W.nodes, n.id ≠ c4T.id) ∧
    (match fixConnectionsE c4W with
     | .ok (w2, _) => some (hasOutgoingB w2.connections c4T.id)
     | .error _ => none) = some false := by
  refine ⟨by decide, by decide, by decide, by decide⟩

/-- C4 (amended): if the node ids are distinct and some node lies strictly
to the right of the trigger `T`, then after a successful `fixConnections`
pass `T` has at least one outgoing edge in the connection map. -/
theorem C4_amended (w w_ : TWorkflow) (rep : ConnectionFixReport) (T : TNode)
    (hnd : (w.nodes.map (·.id)).Nodup)
    (hT : T ∈ w.nodes) (htr : isTriggerNode T = true)
    (hnext : ∃ n ∈ w.nodes, n.id ≠ T.id ∧ T.position.1 < n.position.1)
    (h : fixConnectionsE w = .ok (w_, rep)) :
    hasOutgoingB w_.connections T.id = true := by
  unfold fixConnectionsE at h
  try dsimp only at h
  rcases hrm : removeInvalidConnections w
      { fixed := false, changes := [], connectionsAdded := 0,
        connectionsRemoved := 0 } with ⟨w1, rep1⟩
  rw [hrm] at h
  try dsimp only at h
  have hP1 : FixInv w.nodes (w1, rep1) := by
    have := removeInvalid_connOk w
      { fixed := false, changes := [], connectionsAdded := 0,
        connectionsRemoved := 0 }
    rw [hrm] at this
    exact this
  obtain ⟨m1, hc1, h⟩ := ite_bind_ok h
  obtain ⟨w2, rep2⟩ := m1
  have hP2 : FixInv w.nodes (w2, rep2) := by
    rcases hc1 with ⟨_, hs1⟩ | ⟨_, hx⟩
    · exact fixOrphanedNodes_inv hs1 hP1
    · simp only [Prod.mk.injEq] at hx
      obtain ⟨rfl, rfl⟩ := hx
      exact hP1
  try dsimp only at h
  obtain ⟨m2, hc2, h⟩ := ite_bind_ok h
  obtain ⟨w3, rep3⟩ := m2
  have hP3 : FixInv w.nodes (w3, rep3) := by
    rcases hc2 with ⟨_, hs2⟩ | ⟨_, hx⟩
    · exact fixUnreachableNodes_inv hs2 hP2
    · simp only [Prod.mk.injEq] at hx
      obtain ⟨rfl, rfl⟩ := hx
      exact hP2
  try dsimp only at h
  obtain ⟨m3, hc3, h⟩ := ite_bind_ok h
  obtain ⟨w4, rep4⟩ := m3
  have htm : T.id ∈ (analyzeGraphT w1).triggerNodes :=
    triggerNodes_mem (hP1.1 ▸ hT) htr
  have hout4 : hasOutgoingB w4.connections T.id = true := by
    rcases hc3 with ⟨_, hs3⟩ | ⟨hcond, hx⟩
    · exact ensureTrigger_establishes hnd hT hnext htm hP3.1 hs3
    · exact absurd (List.length_pos.mpr (List.ne_nil_of_mem htm)) hcond
  try dsimp only at h
  obtain ⟨m4, hc4, h⟩ := ite_bind_ok h
  obtain ⟨w5, rep5⟩ := m4
  have hout5 : hasOutgoingB w5.connections T.id = true := by
    rcases hc4 with ⟨_, hs4⟩ | ⟨_, hx⟩
    · unfold addSequentialConnections at hs4
      exact addSequentialGo_hasOut _ w4 rep4 w5 rep5 hs4 hout4
    · simp only [Prod.mk.injEq] at hx
      obtain ⟨rfl, rfl⟩ := hx
      exact hout4
  try dsimp only at h
  cases exceptPureOk h
  exact hout5

def c4WitT : TNode :=
  { id := "t", name := "Start", type := "n8n-nodes-base.start", typeVersion := 1,
    position := (0, 300), parameters := .fnil }

theorem C4_amended_witness :
    hasOutgoingB c2Fixed.connections c4WitT.id = true :=
  C4_amended c2W c2Fixed c2Rep c4WitT (by decide) (by decide) (by decide)
    (by decide) rfl

/-! ## Claim C6: cycle detection is independent of node order

The white/gray/black DFS of `hasCycle` is proved correct against the
existence of a directed cycle in the adjacency map; since permuting the
node array only permutes the map keys (leaving every per-key target set
unchanged), both orders yield the same boolean. -/

/-- One directed edge of an adjacency map. -/
def stepRel {α : Type} [DecidableEq α] (adj : List (α × List α)) (a b : α) : Prop :=
  b ∈ adjGetL adj a

/-- A vertex is finished: visited and not on the recursion stack. -/
def FinV {α : Type} [DecidableEq α] (vis stack : List α) (u : α) : Prop :=
  u ∈ vis ∧ u ∉ stack

/-- The DFS invariant: finished vertices only step to finished vertices,
and no cycle passes through a finished vertex. -/
def InvV {α : Type} [DecidableEq α] (adj : List (α × List α))
    (vis stack : List α) : Prop :=
  (∀ u, FinV vis stack u → ∀ b, stepRel adj u b → FinV vis stack b) ∧
  (∀ u, FinV vis stack u → ¬ Relation.TransGen (stepRel adj) u u)

/-- All vertices mentioned by the adjacency map (keys and targets). -/
def graphU {α : Type} (adj : List (α × List α)) : List α :=
  adj.foldr (fun p acc => p.1 :: (p.2 ++ acc)) []

/-- Number of mentioned vertices not yet visited. -/
def cnV {α : Type} [DecidableEq α] (adj : List (α × List α)) (vis : List α) : Nat :=
  ((graphU adj).toFinset \ vis.toFinset).card

theorem transGen_head {α : Type} {r : α → α → Prop} {a c : α}
    (h : Relation.TransGen r a c) : ∃ b, r a b ∧ Relation.ReflTransGen r b c := by
  induction h with
  | single hab => exact ⟨_, hab, Relation.ReflTransGen.refl⟩
  | tail hab hbc ihab =>
      obtain ⟨b, h1, h2⟩ := ihab
      exact ⟨b, h1, h2.tail hbc⟩

theorem transGen_mono {α : Type} {r s : α → α → Prop} (h : ∀ a b, r a b → s a b)
    {a c : α} (ht : Relation.TransGen r a c) : Relation.TransGen s a c := by
  induction ht with
  | single hab => exact Relation.TransGen.single (h _ _ hab)
  | tail hab hbc ih => exact ih.tail (h _ _ hbc)

theorem rtg_stays {α : Type} [DecidableEq α] {adj : List (α × List α)}
    (P : α → Prop) (hclosed : ∀ u, P u → ∀ b, stepRel adj u b → P b) :
    ∀ {a b : α}, Relation.ReflTransGen (stepRel adj) a b → P a → P b := by
  intro a b h
  induction h with
  | refl => exact id
  | tail hab hbc ih =>
      intro ha
      exact hclosed _ (ih ha) _ hbc

theorem graphU_key {α : Type} [DecidableEq α] {adj : List (α × List α)} {v : α}
    {l : List α} (h : jmGet adj v = some l) :
    v ∈ graphU adj ∧ ∀ x ∈ l, x ∈ graphU adj := by
  have hm : (v, l) ∈ adj := jmGet_mem h
  clear h
  induction adj with
  | nil => cases hm
  | cons p rest ih =>
      rcases List.mem_cons.mp hm with rfl | hm2
      · constructor
        · exact List.mem_cons_self _ _
        · intro x hx
          exact List.mem_cons_of_mem _ (List.mem_append_left _ hx)
      · obtain ⟨h1, h2⟩ := ih hm2
        exact ⟨List.mem_cons_of_mem _ (List.mem_append_right _ h1),
               fun x hx => List.mem_cons_of_mem _ (List.mem_append_right _ (h2 x hx))⟩

theorem graphU_keys {α : Type} {adj : List (α × List α)} {k : α}
    (h : k ∈ adj.map (·.1)) : k ∈ graphU adj := by
  induction adj with
  | nil => simp at h
  | cons p rest ih =>
      rw [List.map_cons] at h
      rcases List.mem_cons.mp h with rfl | h2
      · exact List.mem_cons_self _ _
      · exact List.mem_cons_of_mem _ (List.mem_append_right _ (ih h2))

theorem cnV_mono {α : Type} [DecidableEq α] {adj : List (α × List α)}
    {vis vis2 : List α} (h : vis ⊆ vis2) : cnV adj vis2 ≤ cnV adj vis := by
  apply Finset.card_le_card
  intro x hx
  simp only [Finset.mem_sdiff, List.mem_toFinset] at hx ⊢
  exact ⟨hx.1, fun hm => hx.2 (h hm)⟩

theorem cnV_strict {α : Type} [DecidableEq α] {adj : List (α × List α)}
    {vis : List α} {v : α} (hvU : v ∈ graphU adj) (hv : v ∉ vis) :
    cnV adj (slAdd vis v) + 1 ≤ cnV adj vis := by
  unfold cnV slAdd
  rw [if_neg hv]
  have hvmem : v ∈ (graphU adj).toFinset \ vis.toFinset := by
    simp only [Finset.mem_sdiff, List.mem_toFinset]
    exact ⟨hvU, hv⟩
  have hsub : (graphU adj).toFinset \ (vis ++ [v]).toFinset ⊆
      ((graphU adj).toFinset \ vis.toFinset).erase v := by
    intro x hx
    simp only [Finset.mem_sdiff, List.mem_toFinset, List.mem_append,
      List.mem_singleton, Finset.mem_erase] at hx ⊢
    exact ⟨fun he => hx.2 (Or.inr he), hx.1, fun hm => hx.2 (Or.inl hm)⟩
  have h1 := Finset.card_le_card hsub
  rw [Finset.card_erase_of_mem hvmem] at h1
  have h2 : 1 ≤ ((graphU adj).toFinset \ vis.toFinset).card :=
    Finset.card_pos.mpr ⟨v, hvmem⟩
  omega

theorem graphU_length {α : Type} (adj : List (α × List α)) :
    (graphU adj).length = adj.length + (adj.map (fun p => p.2.length)).sum := by
  induction adj with
  | nil => rfl
  | cons p rest ih =>
      show (p.1 :: (p.2 ++ graphU rest)).length = _
      rw [List.length_cons, List.length_append, ih, List.map_cons, List.sum_cons,
        List.length_cons]
      omega

theorem cnV_le {α : Type} [DecidableEq α] (adj : List (α × List α)) :
    cnV adj [] + 1 ≤ graphFuel adj := by
  unfold cnV graphFuel
  rw [show ([] : List α).toFinset = ∅ from rfl, Finset.sdiff_empty]
  have h2 : (graphU adj).toFinset.card ≤ (graphU adj).length :=
    List.toFinset_card_le _
  have h3 := graphU_length adj
  omega

theorem finv_iff {α : Type} [DecidableEq α] {vis stack : List α} {v u : α}
    (hv : v ∉ vis) : FinV (slAdd vis v) (v :: stack) u ↔ FinV vis stack u := by
  unfold FinV slAdd
  rw [if_neg hv]
  constructor
  · rintro ⟨h1, h2⟩
    rcases List.mem_append.mp h1 with h1 | h1
    · exact ⟨h1, fun hs => h2 (List.mem_cons_of_mem _ hs)⟩
    · simp only [List.mem_singleton] at h1
      subst h1
      exact absurd (List.mem_cons_self _ _) h2
  · rintro ⟨h1, h2⟩
    refine ⟨List.mem_append_left _ h1, ?_⟩
    intro hs
    rcases List.mem_cons.mp hs with rfl | hs2
    · exact hv h1
    · exact h2 hs2

theorem inv_entry {α : Type} [DecidableEq α] {adj : List (α × List α)}
    {vis stack : List α} {v : α} (hv : v ∉ vis) (hInv : InvV adj vis stack) :
    InvV adj (slAdd vis v) (v :: stack) := by
  obtain ⟨hA, hB⟩ := hInv
  constructor
  · intro u hu b hb
    rw [finv_iff hv] at hu ⊢
    exact hA u hu b hb
  · intro u hu
    rw [finv_iff hv] at hu
    exact hB u hu

theorem inv_pop {α : Type} [DecidableEq α] {adj : List (α × List α)}
    {vis stack : List α} {v : α} (hvvis : v ∈ vis) (hvs : v ∉ stack)
    (hInv : InvV adj vis (v :: stack))
    (hnb : ∀ b, stepRel adj v b → b ∈ vis ∧ b ∉ (v :: stack)) :
    InvV adj vis stack := by
  obtain ⟨hA, hB⟩ := hInv
  have hsplit : ∀ u, FinV vis stack u → FinV vis (v :: stack) u ∨ u = v := by
    intro u hu
    by_cases huv : u = v
    · exact Or.inr huv
    · refine Or.inl ⟨hu.1, ?_⟩
      intro hs
      rcases List.mem_cons.mp hs with rfl | hs2
      · exact huv rfl
      · exact hu.2 hs2
  have hA2 : ∀ u, FinV vis stack u → ∀ b, stepRel adj u b → FinV vis stack b := by
    intro u hu b hb
    rcases hsplit u hu with hu2 | huv
    · have h2 := hA u hu2 b hb
      exact ⟨h2.1, fun hs => h2.2 (List.mem_cons_of_mem _ hs)⟩
    · rw [huv] at hb
      have h2 := hnb b hb
      exact ⟨h2.1, fun hs => h2.2 (List.mem_cons_of_mem _ hs)⟩
  refine ⟨hA2, ?_⟩
  intro u hu hcyc
  rcases hsplit u hu with hu2 | huv
  · exact hB u hu2 hcyc
  · rw [huv] at hcyc
    obtain ⟨b, hb, hbv⟩ := transGen_head hcyc
    have hbfin : FinV vis (v :: stack) b := hnb b hb
    have hvf : FinV vis (v :: stack) v :=
      rtg_stays (FinV vis (v :: stack)) hA hbv hbfin
    exact hvf.2 (List.mem_cons_self _ _)

theorem cycVisit_sound {α : Type} [DecidableEq α] (adj : List (α × List α)) :
    ∀ (fuel : Nat) (v : α) (stack vis vis2 : List α),
      (∀ s ∈ stack, Relation.ReflTransGen (stepRel adj) s v) →
      cycVisit adj fuel v stack vis = (vis2, true) →
      ∃ u, Relation.TransGen (stepRel adj) u u := by
  intro fuel
  induction fuel with
  | zero =>
      intro v stack vis vis2 _ h
      simp [cycVisit] at h
  | succ fuel ih =>
      intro v stack vis vis2 hstack h
      unfold cycVisit at h
      have loop : ∀ (l : List α), (∀ nb ∈ l, stepRel adj v nb) →
          ∀ vis0 vis1,
          cycList (fun nb vis => cycVisit adj fuel nb (v :: stack) vis)
            (v :: stack) l vis0 = (vis1, true) →
          ∃ u, Relation.TransGen (stepRel adj) u u := by
        intro l
        induction l with
        | nil =>
            intro _ vis0 vis1 h2
            simp [cycList] at h2
        | cons nb rest ihl =>
            intro hnbs vis0 vis1 h2
            unfold cycList at h2
            split at h2
            · split at h2
              · rename_i hmem hstk
                refine ⟨nb, Relation.TransGen.tail' ?_ (hnbs nb (List.mem_cons_self _ _))⟩
                rcases List.mem_cons.mp hstk with rfl | hs
                · exact Relation.ReflTransGen.refl
                · exact hstack nb hs
              · exact ihl (fun x hx => hnbs x (List.mem_cons_of_mem _ hx)) vis0 vis1 h2
            · split at h2
              · rename_i visited2 heq
                refine ih nb (v :: stack) vis0 visited2 ?_ heq
                intro s hs
                refine Relation.ReflTransGen.tail ?_ (hnbs nb (List.mem_cons_self _ _))
                rcases List.mem_cons.mp hs with rfl | hs2
                · exact Relation.ReflTransGen.refl
                · exact hstack s hs2
              · rename_i visited2 heq
                exact ihl (fun x hx => hnbs x (List.mem_cons_of_mem _ hx)) visited2 vis1 h2
      exact loop (adjGetL adj v) (fun nb hnb => hnb) (slAdd vis v) vis2 h

theorem cycOuter_sound {α : Type} [DecidableEq α] (adj : List (α × List α))
    (fuel : Nat) :
    ∀ (keys vis : List α), cycOuterGo adj fuel keys vis = true →
      ∃ u, Relation.TransGen (stepRel adj) u u := by
  intro keys
  induction keys with
  | nil =>
      intro vis h
      simp [cycOuterGo] at h
  | cons k rest ih =>
      intro vis h
      unfold cycOuterGo at h
      split at h
      · exact ih vis h
      · split at h
        · rename_i visited2 heq
          exact cycVisit_sound adj fuel k [] vis visited2
            (fun s hs => absurd hs (List.not_mem_nil s)) heq
        · rename_i visited2 heq
          exact ih visited2 h

theorem cycVisit_false_run {α : Type} [DecidableEq α] (adj : List (α × List α)) :
    ∀ (fuel : Nat) (v : α) (stack vis vis2 : List α),
      cnV adj vis + 1 ≤ fuel →
      v ∈ graphU adj → v ∉ vis → (∀ s ∈ stack, s ∈ vis) → v ∉ stack →
      InvV adj vis stack →
      cycVisit adj fuel v stack vis = (vis2, false) →
      vis ⊆ vis2 ∧ v ∈ vis2 ∧ InvV adj vis2 (v :: stack) ∧
      (∀ b, stepRel adj v b → b ∈ vis2 ∧ b ∉ (v :: stack)) := by
  intro fuel
  induction fuel with
  | zero =>
      intro v stack vis vis2 hfuel _ _ _ _ _ _
      omega
  | succ fuel ih =>
      intro v stack vis vis2 hfuel hvU hv hstack hvs hInv h
      unfold cycVisit at h
      have hmark : cnV adj (slAdd vis v) + 1 ≤ fuel := by
        have h1 := cnV_strict hvU hv
        omega
      have hv1 : v ∈ slAdd vis v := by
        unfold slAdd
        rw [if_neg hv]
        exact List.mem_append_right _ (List.mem_cons_self _ _)
      have hsub0 : vis ⊆ slAdd vis v := by
        intro x hx
        unfold slAdd
        rw [if_neg hv]
        exact List.mem_append_left _ hx
      have hInv1 : InvV adj (slAdd vis v) (v :: stack) := inv_entry hv hInv
      have hUn : ∀ nb ∈ adjGetL adj v, nb ∈ graphU adj := by
        intro nb hnb
        unfold adjGetL at hnb
        cases hg : jmGet adj v with
        | none =>
            rw [hg] at hnb
            exact absurd hnb (List.not_mem_nil nb)
        | some l =>
            rw [hg] at hnb
            exact (graphU_key hg).2 nb hnb
      have loop : ∀ (l : List α), (∀ nb ∈ l, nb ∈ graphU adj) →
          (∀ nb ∈ l, nb ∈ adjGetL adj v) →
          ∀ vis0 vis1, cnV adj vis0 + 1 ≤ fuel → v ∈ vis0 →
            (∀ s ∈ stack, s ∈ vis0) →
            InvV adj vis0 (v :: stack) →
            cycList (fun nb vis => cycVisit adj fuel nb (v :: stack) vis)
              (v :: stack) l vis0 = (vis1, false) →
            vis0 ⊆ vis1 ∧ InvV adj vis1 (v :: stack) ∧
              ∀ nb ∈ l, nb ∈ vis1 ∧ nb ∉ (v :: stack) := by
        intro l
        induction l with
        | nil =>
            intro _ _ vis0 vis1 _ _ _ hInv0 h2
            unfold cycList at h2
            simp only [Prod.mk.injEq] at h2
            obtain ⟨rfl, -⟩ := h2
            exact ⟨fun x hx => hx, hInv0, fun nb hnb => absurd hnb (List.not_mem_nil nb)⟩
        | cons nb rest ihl =>
            intro hU hnbs vis0 vis1 hf hv0 hs0 hInv0 h2
            unfold cycList at h2
            split at h2
            · rename_i hmem
              split at h2
              · simp at h2
              · rename_i hnstk
                obtain ⟨hsub, hInvF, hrest⟩ :=
                  ihl (fun x hx => hU x (List.mem_cons_of_mem _ hx))
                    (fun x hx => hnbs x (List.mem_cons_of_mem _ hx))
                    vis0 vis1 hf hv0 hs0 hInv0 h2
                refine ⟨hsub, hInvF, ?_⟩
                intro x hx
                rcases List.mem_cons.mp hx with rfl | hx2
                · exact ⟨hsub hmem, hnstk⟩
                · exact hrest x hx2
            · rename_i hnmem
              split at h2
              · simp at h2
              · rename_i visited2 heq
                have hnbU : nb ∈ graphU adj := hU nb (List.mem_cons_self _ _)
                have hstack2 : ∀ s ∈ v :: stack, s ∈ vis0 := by
                  intro s hs
                  rcases List.mem_cons.mp hs with rfl | hs2
                  · exact hv0
                  · exact hs0 s hs2
                have hnstk : nb ∉ v :: stack := fun hin => hnmem (hstack2 nb hin)
                obtain ⟨hsubA, hnbvis, hInvA, hnbA⟩ :=
                  ih nb (v :: stack) vis0 visited2 hf hnbU hnmem hstack2 hnstk hInv0 heq
                have hInvPop : InvV adj visited2 (v :: stack) :=
                  inv_pop hnbvis hnstk hInvA hnbA
                have hsl : slAdd vis0 nb ⊆ visited2 := by
                  intro x hx
                  unfold slAdd at hx
                  rw [if_neg hnmem] at hx
                  rcases List.mem_append.mp hx with hx | hx
                  · exact hsubA hx
                  · simp only [List.mem_singleton] at hx
                    subst hx
                    exact hnbvis
                have hf2 : cnV adj visited2 + 1 ≤ fuel := by
                  have h1 := cnV_strict hnbU hnmem
                  have h2b : cnV adj visited2 ≤ cnV adj (slAdd vis0 nb) := cnV_mono hsl
                  omega
                obtain ⟨hsubB, hInvB, hrestB⟩ :=
                  ihl (fun x hx => hU x (List.mem_cons_of_mem _ hx))
                    (fun x hx => hnbs x (List.mem_cons_of_mem _ hx))
                    visited2 vis1 hf2 (hsubA hv0) (fun s hs => hsubA (hs0 s hs))
                    hInvPop h2
                refine ⟨fun x hx => hsubB (hsubA hx), hInvB, ?_⟩
                intro x hx
                rcases List.mem_cons.mp hx with rfl | hx2
                · exact ⟨hsubB hnbvis, hnstk⟩
                · exact hrestB x hx2
      obtain ⟨hsub, hInvF, hnb⟩ := loop (adjGetL adj v) hUn (fun nb hnb => hnb)
        (slAdd vis v) vis2 hmark hv1 (fun s hs => hsub0 (hstack s hs)) hInv1 h
      exact ⟨fun x hx => hsub (hsub0 hx), hsub hv1, hInvF, fun b hb => hnb b hb⟩

theorem cycOuter_false_run {α : Type} [DecidableEq α] (adj : List (α × List α))
    (fuel : Nat) :
    ∀ (keys vis : List α), (∀ k ∈ keys, k ∈ graphU adj) →
      cnV adj vis + 1 ≤ fuel → InvV adj vis [] →
      cycOuterGo adj fuel keys vis = false →
      ∃ visF, vis ⊆ visF ∧ InvV adj visF [] ∧ ∀ k ∈ keys, k ∈ visF := by
  intro keys
  induction keys with
  | nil =>
      intro vis _ _ hInv _
      exact ⟨vis, fun x hx => hx, hInv, fun k hk => absurd hk (List.not_mem_nil k)⟩
  | cons k rest ih =>
      intro vis hU hfuel hInv h
      unfold cycOuterGo at h
      split at h
      · rename_i hkv
        obtain ⟨visF, h1, h2, h3⟩ :=
          ih vis (fun x hx => hU x (List.mem_cons_of_mem _ hx)) hfuel hInv h
        refine ⟨visF, h1, h2, ?_⟩
        intro x hx
        rcases List.mem_cons.mp hx with rfl | hx2
        · exact h1 hkv
        · exact h3 x hx2
      · rename_i hkv
        split at h
        · cases h
        · rename_i visited2 heq
          obtain ⟨hsub, hkvis, hInvA, hnbA⟩ :=
            cycVisit_false_run adj fuel k [] vis visited2 hfuel
              (hU k (List.mem_cons_self _ _)) hkv
              (fun s hs => absurd hs (List.not_mem_nil s))
              (List.not_mem_nil k) hInv heq
          have hInvPop : InvV adj visited2 [] :=
            inv_pop hkvis (List.not_mem_nil k) hInvA hnbA
          have hf2 : cnV adj visited2 + 1 ≤ fuel := by
            have h1 : cnV adj visited2 ≤ cnV adj vis := cnV_mono hsub
            omega
          obtain ⟨visF, h1, h2, h3⟩ :=
            ih visited2 (fun x hx => hU x (List.mem_cons_of_mem _ hx)) hf2 hInvPop h
          refine ⟨visF, fun x hx => h1 (hsub hx), h2, ?_⟩
          intro x hx
          rcases List.mem_cons.mp hx with rfl | hx2
          · exact h1 hkvis
          · exact h3 x hx2

/-- Correctness of the whole cycle check: the outer DFS loop over the map
keys reports `true` exactly when the adjacency map has a directed cycle. -/
theorem cycOuter_iff {α : Type} [DecidableEq α] (adj : List (α × List α)) :
    cycOuterGo adj (graphFuel adj) (adj.map (·.1)) [] = true ↔
      ∃ v, Relation.TransGen (stepRel adj) v v := by
  constructor
  · intro h
    exact cycOuter_sound adj _ _ _ h
  · rintro ⟨v, hcyc⟩
    cases hb : cycOuterGo adj (graphFuel adj) (adj.map (·.1)) [] with
    | true => rfl
    | false =>
        exfalso
        have hInv0 : InvV adj [] [] := by
          constructor
          · intro u hu
            exact absurd hu.1 (List.not_mem_nil u)
          · intro u hu
            exact absurd hu.1 (List.not_mem_nil u)
        obtain ⟨visF, _, hInvF, hkeys⟩ :=
          cycOuter_false_run adj (graphFuel adj) (adj.map (·.1)) []
            (fun k hk => graphU_keys hk) (cnV_le adj) hInv0 hb
        have hvkey : v ∈ adj.map (·.1) := by
          obtain ⟨b, hb2, -⟩ := transGen_head hcyc
          unfold stepRel adjGetL at hb2
          cases hg : jmGet adj v with
          | none =>
              rw [hg] at hb2
              exact absurd hb2 (List.not_mem_nil b)
          | some l =>
              have := jmGet_mem hg
              exact List.mem_map.mpr ⟨(v, l), this, rfl⟩
        exact hInvF.2 v ⟨hkeys v hvkey, List.not_mem_nil v⟩ hcyc

/-- Pointwise equality of association maps. -/
def PEq {α β : Type} [DecidableEq α] (m1 m2 : List (α × β)) : Prop :=
  ∀ k, jmGet m1 k = jmGet m2 k

theorem initAdj_get {α : Type} [DecidableEq α] (keys : List α) (k : α) :
    jmGet (initAdj keys) k = if k ∈ keys then some [] else none := by
  suffices H : ∀ (m : List (α × List α)),
      jmGet (keys.foldl (fun m k => jmSet m k []) m) k =
        if k ∈ keys then some [] else jmGet m k by
    have h2 := H []
    unfold initAdj
    rw [h2]
    rfl
  induction keys with
  | nil =>
      intro m
      simp
  | cons k0 rest ih =>
      intro m
      rw [List.foldl_cons, ih (jmSet m k0 [])]
      by_cases hk : k = k0
      · subst hk
        by_cases hr : k ∈ rest
        · simp [hr]
        · simp [hr, jmGet_set_self]
      · by_cases hr : k ∈ rest
        · simp [hr]
        · have hno : ¬ k ∈ k0 :: rest := by
            simp [hk, hr]
          simp only [hr, if_neg, hno, if_false]
          rw [jmGet_set_other _ _ _ _ hk]

theorem initAdj_peq {α : Type} [DecidableEq α] {keys1 keys2 : List α}
    (h : ∀ k, k ∈ keys1 ↔ k ∈ keys2) : PEq (initAdj keys1) (initAdj keys2) := by
  intro k
  rw [initAdj_get, initAdj_get]
  by_cases hk : k ∈ keys1
  · rw [if_pos hk, if_pos ((h k).mp hk)]
  · rw [if_neg hk, if_neg (fun h2 => hk ((h k).mpr h2))]

theorem addEdge_peq {α : Type} [DecidableEq α]
    {p q : List (α × List α) × List (α × List α)} (h : PEq p.1 q.1)
    (src tgt : α) : PEq (addEdge p src tgt).1 (addEdge q src tgt).1 := by
  intro k
  unfold addEdge
  dsimp only
  rw [show jmGet q.1 src = jmGet p.1 src from (h src).symm]
  cases hg : jmGet p.1 src with
  | none => exact h k
  | some l =>
      by_cases hk : k = src
      · subst hk
        rw [jmGet_set_self, jmGet_set_self]
      · rw [jmGet_set_other _ _ _ _ hk, jmGet_set_other _ _ _ _ hk]
        exact h k

theorem foldl_rel {β γ : Type} (R : β → β → Prop) {f : β → γ → β}
    (hf : ∀ b b2 c, R b b2 → R (f b c) (f b2 c)) :
    ∀ (l : List γ) (b b2 : β), R b b2 → R (l.foldl f b) (l.foldl f b2) := by
  intro l
  induction l with
  | nil =>
      intro b b2 h
      exact h
  | cons c rest ih =>
      intro b b2 h
      rw [List.foldl_cons, List.foldl_cons]
      exact ih _ _ (hf b b2 c h)

theorem addEdgesOfCMap_peq {α : Type} [DecidableEq α] (inj : String → α)
    (m : CMap) {p q : List (α × List α) × List (α × List α)}
    (h : PEq p.1 q.1) :
    PEq (addEdgesOfCMap inj m p).1 (addEdgesOfCMap inj m q).1 := by
  unfold addEdgesOfCMap
  refine foldl_rel (fun b b2 => PEq b.1 b2.1) ?_ m p q h
  intro b b2 entry hR
  refine foldl_rel (fun b b2 => PEq b.1 b2.1) ?_ entry.2 b b2 hR
  intro b b2 slotEntry hR
  refine foldl_rel (fun b b2 => PEq b.1 b2.1) ?_ slotEntry.2 b b2 hR
  intro b b2 group hR
  refine foldl_rel (fun b b2 => PEq b.1 b2.1) ?_ group b b2 hR
  intro b b2 conn hR
  exact addEdge_peq hR (inj entry.1) (inj conn.node)

theorem cycEquivalent {α : Type} [DecidableEq α]
    {m1 m2 : List (α × List α)} (h : PEq m1 m2) :
    cycOuterGo m1 (graphFuel m1) (m1.map (·.1)) [] =
      cycOuterGo m2 (graphFuel m2) (m2.map (·.1)) [] := by
  have h1 := cycOuter_iff m1
  have h2 := cycOuter_iff m2
  have hstep : ∀ a b, stepRel m1 a b ↔ stepRel m2 a b := by
    intro a b
    unfold stepRel adjGetL
    rw [h a]
  have hex : (∃ v, Relation.TransGen (stepRel m1) v v) ↔
      (∃ v, Relation.TransGen (stepRel m2) v v) := by
    constructor
    · rintro ⟨v, hv⟩
      exact ⟨v, transGen_mono (fun a b => (hstep a b).mp) hv⟩
    · rintro ⟨v, hv⟩
      exact ⟨v, transGen_mono (fun a b => (hstep a b).mpr) hv⟩
  cases hb1 : cycOuterGo m1 (graphFuel m1) (m1.map (·.1)) [] with
  | true => exact (h2.mpr (hex.mp (h1.mp hb1))).symm
  | false =>
      cases hb2 : cycOuterGo m2 (graphFuel m2) (m2.map (·.1)) [] with
      | false => rfl
      | true =>
          have h3 := h1.mpr (hex.mpr (h2.mp hb2))
          rw [hb1] at h3
          cases h3

/-- C6: cycle detection is order-independent: permuting the node array of a
workflow (connections unchanged) does not change `circularReferences`. -/
theorem C6_circular_perm (w w2 : TWorkflow) (hperm : w.nodes.Perm w2.nodes)
    (hconn : w.connections = w2.connections) :
    (analyzeGraphT w).circularReferences = (analyzeGraphT w2).circularReferences := by
  unfold analyzeGraphT
  dsimp only
  have hmem : ∀ k, k ∈ w.nodes.map (·.id) ↔ k ∈ w2.nodes.map (·.id) :=
    fun k => (hperm.map (·.id)).mem_iff
  have hinit : PEq (initAdj (w.nodes.map (·.id))) (initAdj (w2.nodes.map (·.id))) :=
    initAdj_peq hmem
  have hpeq : PEq
      (addEdgesOfCMap (fun s => s) w.connections
        (initAdj (w.nodes.map (·.id)), initAdj (w.nodes.map (·.id)))).1
      (addEdgesOfCMap (fun s => s) w2.connections
        (initAdj (w2.nodes.map (·.id)), initAdj (w2.nodes.map (·.id)))).1 := by
    rw [← hconn]
    exact addEdgesOfCMap_peq (fun s => s) w.connections hinit
  exact cycEquivalent hpeq

/-- A cyclic two-node workflow and its node-permuted variant. -/
def c6W : TWorkflow :=
  { name := "wf", id := "w1",
    nodes := [
      { id := "a", name := "A", type := "n8n-nodes-base.noOp", typeVersion := 1,
        position := (0, 300), parameters := .fnil },
      { id := "b", name := "B", type := "n8n-nodes-base.noOp", typeVersion := 1,
        position := (200, 300), parameters := .fnil }],
    connections := [
      ("a", [("main", [[{ node := "b", type := "main" }]])]),
      ("b", [("main", [[{ node := "a", type := "main" }]])])] }

def c6W2 : TWorkflow :=
  { name := "wf", id := "w1",
    nodes := [
      { id := "b", name := "B", type := "n8n-nodes-base.noOp", typeVersion := 1,
        position := (200, 300), parameters := .fnil },
      { id := "a", name := "A", type := "n8n-nodes-base.noOp", typeVersion := 1,
        position := (0, 300), parameters := .fnil }],
    connections := c6W.connections }

theorem C6_circular_perm_witness :
    (analyzeGraphT c6W).circularReferences = (analyzeGraphT c6W2).circularReferences :=
  C6_circular_perm c6W c6W2 (by decide) rfl

end NWF
